import Mathlib

/-!
# Versioned comment store (package `comment`)

A shallow embedding of `comment/comment_repository.go`: the comment repository
`GormCommentRepository` (Create, Save, Delete) on top of a relational store reached
through gorm, together with the revision log it writes to.

The store is an explicit state `DB` that is passed through every operation. It holds the
two tables, the clock that `time.Now()` reads, the outcomes the storage layer will give to
the coming round trips (so that storage faults can be exercised), and the log of the round
trips made so far. Logging (`log.Error`, `log.Debug`) and the timing probe
`goa.MeasureSince` have no effect on the store and are left out.
-/

namespace comment

/-! ## Data model -/

/-- Identifier type `uuid.UUID`; only equality of identifiers matters. -/
abbrev UUID := Nat

/-- The identifier `uuid.Nil`, zero value of `uuid.UUID`. -/
def uuidNil : UUID := 0

/-- Modelled from the spec: the declaration of the type `Comment` (the Entity Record) is not
among the available sources. The fields are those of the data model: `id`, `parent_id`,
`body`, `markup`, `created_at`, `updated_at`. Timestamps are clock readings; `0` is the zero
`time.Time`, which gorm treats as blank. -/
structure Comment where
  ID : UUID
  ParentID : String
  Body : String
  Markup : String
  CreatedAt : Nat
  UpdatedAt : Nat
deriving DecidableEq, Repr

/-- The Go zero value `Comment{}`. -/
def Comment.zero : Comment :=
  { ID := uuidNil, ParentID := "", Body := "", Markup := "", CreatedAt := 0, UpdatedAt := 0 }

/-- Modelled from the spec: the transition kind of a revision (`create`, `update`,
`delete`); the declaration of `RevisionType` is not among the available sources. -/
inductive RevisionType where
  | create
  | update
  | delete
deriving DecidableEq, Repr

/-- The constant `RevisionTypeCreate`. -/
abbrev RevisionTypeCreate : RevisionType := RevisionType.create

/-- The constant `RevisionTypeUpdate`. -/
abbrev RevisionTypeUpdate : RevisionType := RevisionType.update

/-- The constant `RevisionTypeDelete`. -/
abbrev RevisionTypeDelete : RevisionType := RevisionType.delete

/-- Modelled from the spec: the declaration of the type `Revision` (the Revision Log Entry)
is not among the available sources. The fields are those of the data model and of the
assertions of `TestStoreCommentRevisions`; `CommentBody` and `CommentMarkup` are nullable
(`*string` in the test). The `ID` is the sequence number the store gives to the entry. -/
structure Revision where
  ID : Nat
  Time : Nat
  Type_ : RevisionType
  ModifierIdentity : UUID
  CommentID : UUID
  CommentParentID : String
  CommentBody : Option String
  CommentMarkup : Option String
deriving DecidableEq, Repr

/-- Errors of package `errors` returned by the repository, and the raw error of the storage
layer that `errs.WithStack` passes on unchanged. `Panic` is the outcome of a call that a Go
run-time panic ends: the caller gets no return value at all. -/
inductive Err where
  | NotFoundError (entity : String) (id : UUID)
  | InternalError (msg : String)
  | BadParameterError (param : String) (value : Int)
  | StorageError (msg : String)
  | Panic (msg : String)
deriving DecidableEq, Repr

/-! ## The storage layer (gorm over a relational database) -/

/-- Errors a gorm call leaves in `tx.Error`: `gorm.ErrRecordNotFound`, or a fault of the
storage layer carrying its message. -/
inductive GormError where
  | ErrRecordNotFound
  | Fault (msg : String)
deriving DecidableEq, Repr

/-- Message of a gorm error, `err.Error()`. -/
def GormError.Error : GormError → String
  | GormError.ErrRecordNotFound => "record not found"
  | GormError.Fault msg => msg

/-- The part of the `*gorm.DB` value returned by a call that the repository reads. -/
structure Tx where
  Error : Option GormError
  RowsAffected : Nat
deriving DecidableEq, Repr

/-- The method `tx.RecordNotFound()`: the recorded error is `gorm.ErrRecordNotFound`. -/
def Tx.RecordNotFound (tx : Tx) : Bool :=
  tx.Error == some GormError.ErrRecordNotFound

/-- The statements the repository sends to the store, one per round trip. -/
inductive Query where
  | insertComment
  | firstComment
  | saveComment
  | findComment
  | deleteComment
  | insertRevision
  | findRevisions
  | selectWindow
  | countComments
deriving DecidableEq, Repr

/-- State of the store and of its environment.
* `comments`, `revisions`: the rows of the two tables, in insertion order;
* `now`: the reading of the clock;
* `faults`: the outcomes the storage layer gives to the coming round trips, in order
  (`some msg` is a fault with that message, `none` or an exhausted list is normal service);
* `trace`: the round trips made so far. -/
structure DB where
  comments : List Comment
  revisions : List Revision
  now : Nat
  faults : List (Option String)
  trace : List Query
deriving DecidableEq, Repr

/-- Time passes: the clock moves forward by `d`. -/
def DB.advance (db : DB) (d : Nat) : DB :=
  { db with now := db.now + d }

/-- Outcome the storage layer gives to the next round trip: `some msg` is a fault, `none` is
normal service. -/
def DB.nextFault (db : DB) : Option String :=
  match db.faults with
  | [] => none
  | f :: _ => f

/-- One round trip to the store: the statement is logged and the next scheduled outcome is
consumed. A statement that meets a fault has no effect on the tables. -/
def DB.exec (db : DB) (q : Query) : Option String × DB :=
  (db.nextFault, { db with faults := db.faults.tail, trace := db.trace ++ [q] })

/-- The round trips made between the state `before` and the later state `after`. -/
def DB.since (before after : DB) : List Query :=
  after.trace.drop before.trace.length

/-- Normal service for the next `n` round trips: none of them meets a storage fault. -/
def DB.served (db : DB) (n : Nat) : Prop :=
  ∀ f ∈ db.faults.take n, f = none

instance (db : DB) (n : Nat) : Decidable (db.served n) := by
  unfold DB.served
  infer_instance

/-- The timestamps gorm sets on a struct it inserts: `CreatedAt` and `UpdatedAt` are set to
the current time, whatever the struct carried. -/
def Comment.stamp (c : Comment) (now : Nat) : Comment :=
  { c with CreatedAt := now, UpdatedAt := now }

/-- The insert path of gorm for a comment: the timestamps are set and the row is
appended unless a row with the same primary key exists (unique-key violation). A blank key
is handed over as it stands; `uuid.NewV4` never yields `uuid.Nil`, so no run of the
repository stores a row with a blank key. -/
def DB.insertCommentRow (db : DB) (c : Comment) : Tx × Comment × DB :=
  if (db.comments.find? (fun r => decide (r.ID = c.ID))).isSome then
    ({ Error := some (GormError.Fault "duplicate key value violates unique constraint"),
       RowsAffected := 0 }, c.stamp db.now, db)
  else
    ({ Error := none, RowsAffected := 1 }, c.stamp db.now,
     { db with comments := db.comments ++ [c.stamp db.now] })

/-- The call `db.Create(comment)` of gorm on the table of comments. The timestamps are set
on the struct before the statement is sent, so the struct carries them also when the
statement fails. -/
def DB.CreateComment (db : DB) (c : Comment) : Tx × Comment × DB :=
  match db.exec Query.insertComment with
  | (some msg, db1) =>
    ({ Error := some (GormError.Fault msg), RowsAffected := 0 }, c.stamp db1.now, db1)
  | (none, db1) => db1.insertCommentRow c

/-- The call `db.Where("id=?", id).First(&c)`: the row with that id, or
`gorm.ErrRecordNotFound` with `c` left at its zero value. -/
def DB.FirstComment (db : DB) (id : UUID) : Tx × Comment × DB :=
  match db.exec Query.firstComment with
  | (some msg, db1) =>
    ({ Error := some (GormError.Fault msg), RowsAffected := 0 }, Comment.zero, db1)
  | (none, db1) =>
    match db1.comments.find? (fun r => decide (r.ID = id)) with
    | some r => ({ Error := none, RowsAffected := 1 }, r, db1)
    | none =>
      ({ Error := some GormError.ErrRecordNotFound, RowsAffected := 0 }, Comment.zero, db1)

/-- The call `tx.Save(comment)` where `tx` carries the condition `id = comment.ID`. With a
non-blank primary key gorm updates every column of the rows with that key from the struct
(`UpdatedAt` is set to the current time) and, when no row was updated, inserts the struct;
with a blank primary key it takes the insert path. The timestamps are set on the struct
before the statement is sent, so the struct carries them also when the statement fails. -/
def DB.SaveComment (db : DB) (c : Comment) : Tx × Comment × DB :=
  match db.exec Query.saveComment with
  | (some msg, db1) =>
    ({ Error := some (GormError.Fault msg), RowsAffected := 0 },
     if c.ID = uuidNil then c.stamp db1.now else { c with UpdatedAt := db1.now }, db1)
  | (none, db1) =>
    if c.ID = uuidNil then db1.insertCommentRow c
    else
      let c1 : Comment := { c with UpdatedAt := db1.now }
      if (db1.comments.find? (fun r => decide (r.ID = c.ID))).isSome then
        ({ Error := none
           RowsAffected := (db1.comments.filter (fun r => decide (r.ID = c.ID))).length },
         c1,
         { db1 with comments := db1.comments.map (fun r => if r.ID = c.ID then c1 else r) })
      else db1.insertCommentRow c1

/-- The call `db.Select("id, parent_id").Where("id = ?", id).Find(&c)`: only the two
selected columns are loaded into `c`; when no row matches, `c` keeps its zero value, no row
is counted and the error is `gorm.ErrRecordNotFound`. -/
def DB.FindComment (db : DB) (id : UUID) : Tx × Comment × DB :=
  match db.exec Query.findComment with
  | (some msg, db1) =>
    ({ Error := some (GormError.Fault msg), RowsAffected := 0 }, Comment.zero, db1)
  | (none, db1) =>
    match db1.comments.find? (fun r => decide (r.ID = id)) with
    | some r =>
      ({ Error := none, RowsAffected := 1 },
       { Comment.zero with ID := r.ID, ParentID := r.ParentID }, db1)
    | none =>
      ({ Error := some GormError.ErrRecordNotFound, RowsAffected := 0 }, Comment.zero, db1)

/-- The call `db.Delete(c)`: gorm deletes the rows whose primary key is that of `c`; when
the primary key of `c` is blank no key condition is generated and the statement applies to
every row of the table. -/
def DB.DeleteComment (db : DB) (c : Comment) : Tx × DB :=
  match db.exec Query.deleteComment with
  | (some msg, db1) => ({ Error := some (GormError.Fault msg), RowsAffected := 0 }, db1)
  | (none, db1) =>
    if c.ID = uuidNil then
      ({ Error := none, RowsAffected := db1.comments.length }, { db1 with comments := [] })
    else
      ({ Error := none
         RowsAffected := (db1.comments.filter (fun r => decide (r.ID = c.ID))).length },
       { db1 with comments := db1.comments.filter (fun r => !decide (r.ID = c.ID)) })

/-- Insertion of one row into the table of revisions; the store numbers the entry. -/
def DB.CreateRevision (db : DB) (r : Revision) : Tx × DB :=
  match db.exec Query.insertRevision with
  | (some msg, db1) => ({ Error := some (GormError.Fault msg), RowsAffected := 0 }, db1)
  | (none, db1) =>
    ({ Error := none, RowsAffected := 1 },
     { db1 with revisions := db1.revisions ++ [{ r with ID := db1.revisions.length + 1 }] })

/-- The query that gorm builds for `m.db.Model(&Comment{}).Where("parent_id = ?", parent)`
and its options `Offset` and `Limit`; `Offset` and `Limit` return a changed copy and leave
the value they are called on as it was. -/
structure Search where
  parent : String
  offset : Option Int
  limit : Option Int
deriving DecidableEq, Repr

/-- The method `db.Offset(n)` of gorm. -/
def Search.Offset (s : Search) (n : Int) : Search :=
  { s with offset := some n }

/-- The method `db.Limit(n)` of gorm. -/
def Search.Limit (s : Search) (n : Int) : Search :=
  { s with limit := some n }

/-- The records of a parent, as the clause `WHERE parent_id = ?` selects them. -/
def DB.matching (db : DB) (parent : String) : List Comment :=
  db.comments.filter (fun r => decide (r.ParentID = parent))

/-- The order `created_at desc`: `a` comes before `b` when it is not older, newest first. -/
def newestFirst (a b : Comment) : Prop :=
  b.CreatedAt ≤ a.CreatedAt

instance : DecidableRel newestFirst :=
  fun a b => inferInstanceAs (Decidable (b.CreatedAt ≤ a.CreatedAt))

instance : IsTotal Comment newestFirst :=
  ⟨fun a b => Nat.le_total b.CreatedAt a.CreatedAt⟩

instance : IsTrans Comment newestFirst :=
  ⟨fun _ _ _ hab hbc => Nat.le_trans hbc hab⟩

/-- The call `db.Select("count(*) over () as cnt2 , *").Order("created_at desc").Rows()`:
the rows of the parent ordered by `created_at` descending, each with the window aggregate
`cnt2` (the number of rows of the parent, computed before `OFFSET` and `LIMIT` apply), then
the offset dropped and the limit taken; gorm writes an `OFFSET` or `LIMIT` clause only for
a value that is not negative. Rows with equal `created_at` come in the order in which the
table holds them: the statement names no second sort key. -/
def DB.RowsWindow (db : DB) (s : Search) : Option String × List (Nat × Comment) × DB :=
  match db.exec Query.selectWindow with
  | (some msg, db1) => (some msg, [], db1)
  | (none, db1) =>
    let ordered := (db1.matching s.parent).insertionSort newestFirst
    let afterOffset :=
      match s.offset with
      | some o => if 0 ≤ o then ordered.drop o.toNat else ordered
      | none => ordered
    let window :=
      match s.limit with
      | some l => if 0 ≤ l then afterOffset.take l.toNat else afterOffset
      | none => afterOffset
    (none, window.map (fun r => ((db1.matching s.parent).length, r)), db1)

/-- The statement `SELECT count(*) FROM comments WHERE parent_id = ?`, as sent by
`Select("count(*)").Rows()` and by `Count(&count)`: it always yields one row, the number of
rows of the parent. -/
def DB.CountComments (db : DB) (s : Search) : Option String × Nat × DB :=
  match db.exec Query.countComments with
  | (some msg, db1) => (some msg, 0, db1)
  | (none, db1) => (none, (db1.matching s.parent).length, db1)

/-! ## The revision log -/

/-- Modelled from the spec: the entry that `Append` of the Revision Log builds from the
snapshot `c` of a comment, at time `now`, for the actor `modifierID`. For `create` and
`update` the body and the markup are copied; for `delete` only the id and the parent id are
copied and body and markup are absent. The `ID` is given by the store on insertion. -/
def newRevision (now : Nat) (modifierID : UUID) (revisionType : RevisionType) (c : Comment) :
    Revision :=
  { ID := 0
    Time := now
    Type_ := revisionType
    ModifierIdentity := modifierID
    CommentID := c.ID
    CommentParentID := c.ParentID
    CommentBody := if revisionType = RevisionTypeDelete then none else some c.Body
    CommentMarkup := if revisionType = RevisionTypeDelete then none else some c.Markup }

namespace GormCommentRevisionRepository

/-- Modelled from the spec: `GormCommentRevisionRepository.Create`, called by the comment
repository as `m.revisionRepository.Create(ctx, modifierID, revisionType, c)`; its body is
not among the available sources. Following `Append` of the Revision Log: a new entry is
built from the snapshot with the current time and the actor, and inserted. It fails only on
a fault of the storage layer, passed on as an opaque write failure. -/
def Create (db : DB) (modifierID : UUID) (revisionType : RevisionType) (c : Comment) :
    Option Err × DB :=
  match db.CreateRevision (newRevision db.now modifierID revisionType c) with
  | ({ Error := some err, .. }, db1) => (some (Err.StorageError err.Error), db1)
  | ({ Error := none, .. }, db1) => (none, db1)

/-- Modelled from the spec: `GormCommentRevisionRepository.List`, called by the test as
`s.revisionRepository.List(ctx, c.ID)`; its body is not among the available sources.
Following `ListByEntity` of the Revision Log: all entries of the comment, ordered by time
ascending, ties broken by insertion order (a stable sort of the rows in insertion order). -/
def List (db : DB) (commentID : UUID) : Except Err (List Revision) × DB :=
  match db.exec Query.findRevisions with
  | (some msg, db1) => (Except.error (Err.InternalError msg), db1)
  | (none, db1) =>
    (Except.ok
      ((db1.revisions.filter (fun r => decide (r.CommentID = commentID))).insertionSort
        (fun a b => a.Time ≤ b.Time)),
     db1)

end GormCommentRevisionRepository

/-! ## The comment repository -/

namespace GormCommentRepository

/-- The method `GormCommentRepository.Create`. `SystemMarkupDefault` stands for the constant
`rendering.SystemMarkupDefault`, `newV4` for the value returned by `uuid.NewV4()`. The
result is the returned error, the comment behind the pointer after the call, and the
store. -/
def Create (SystemMarkupDefault : String) (db : DB) (comment : Comment) (creatorID : UUID)
    (newV4 : UUID) : Option Err × Comment × DB :=
  let comment : Comment := { comment with ID := newV4 }
  -- make sure no comment is created with an empty 'markup' value
  let comment : Comment :=
    { comment with Markup := if comment.Markup = "" then SystemMarkupDefault else comment.Markup }
  match db.CreateComment comment with
  | ({ Error := some err, .. }, comment, db1) => (some (Err.StorageError err.Error), comment, db1)
  | ({ Error := none, .. }, comment, db1) =>
    match GormCommentRevisionRepository.Create db1 creatorID RevisionTypeCreate comment with
    | (some err, db2) => (some err, comment, db2)
    | (none, db2) => (none, comment, db2)

/-- The method `GormCommentRepository.Save`. -/
def Save (SystemMarkupDefault : String) (db : DB) (comment : Comment) (modifierID : UUID) :
    Option Err × Comment × DB :=
  match db.FirstComment comment.ID with
  | (tx, _, db1) =>
    if tx.RecordNotFound then
      -- treating this as a not found error
      (some (Err.NotFoundError "comment" comment.ID), comment, db1)
    else
      match tx.Error with
      | some err => (some (Err.InternalError err.Error), comment, db1)
      | none =>
        -- make sure no comment is created with an empty 'markup' value
        let comment : Comment :=
          { comment with
            Markup := if comment.Markup = "" then SystemMarkupDefault else comment.Markup }
        match db1.SaveComment comment with
        | ({ Error := some err, .. }, comment, db2) =>
          (some (Err.InternalError err.Error), comment, db2)
        | ({ Error := none, .. }, comment, db2) =>
          match GormCommentRevisionRepository.Create db2 modifierID RevisionTypeUpdate
              comment with
          | (some err, db3) => (some err, comment, db3)
          | (none, db3) => (none, comment, db3)

/-- The method `GormCommentRepository.Delete`. The result of `m.db.Delete(c)` is dropped, as
in the source; the checks read the `tx` of the preceding `Find`. -/
def Delete (db : DB) (commentID : UUID) (suppressorID : UUID) : Option Err × DB :=
  if commentID = uuidNil then (some (Err.NotFoundError "comment" commentID), db)
  else
    -- fetch the id and parent id of the comment to delete, to store them in the new revision
    match db.FindComment commentID with
    | (tx, c, db1) =>
      match db1.DeleteComment c with
      | (_, db2) =>
        if tx.RowsAffected = 0 then (some (Err.NotFoundError "comment" commentID), db2)
        else
          match tx.Error with
          | some err => (some (Err.InternalError err.Error), db2)
          | none =>
            match GormCommentRevisionRepository.Create db2 suppressorID RevisionTypeDelete
                c with
            | (some err, db3) => (some err, db3)
            | (none, db3) => (none, db3)

end GormCommentRepository

/-- The loop `for rows.Next()` of `List`: every row is scanned into a comment and appended
to the result; the first row also gives the total count, read from its column `cnt2`. The
result is the flag `first`, the count and the result after the loop. -/
def scanRows : List (Nat × Comment) → Bool → Nat → List Comment → Bool × Nat × List Comment
  | [], first, count, result => (first, count, result)
  | (cnt2, value) :: rows, first, count, result =>
    if first then scanRows rows false cnt2 (result ++ [value])
    else scanRows rows first count (result ++ [value])

namespace GormCommentRepository

/-- The method `GormCommentRepository.Count`: the error of the query is not read and the
returned error is always `nil`. -/
def Count (db : DB) (parent : String) : (Nat × Option Err) × DB :=
  match db.CountComments { parent := parent, offset := none, limit := none } with
  | (_, count, db1) => ((count, none), db1)

/-- The method `GormCommentRepository.Load`: the loaded comment or the error. -/
def Load (db : DB) (id : UUID) : (Option Comment × Option Err) × DB :=
  match db.FirstComment id with
  | (tx, obj, db1) =>
    if tx.RecordNotFound then ((none, some (Err.NotFoundError "comment" id)), db1)
    else
      match tx.Error with
      | some err => ((none, some (Err.InternalError err.Error)), db1)
      | none => ((some obj, none), db1)

/-- The method `GormCommentRepository.List`: the page (`none` is the `nil` slice), the total
count and the error. Reading the rows the store has returned (`rows.Columns`, `rows.Next`,
`ScanRows`, `rows.Scan`) makes no round trip and is taken not to fail. When the count-only
query fails, `rows2` is `nil` and the deferred `rows2.Close()`, registered before the error
is tested, ends the call by a panic. -/
def List (db : DB) (parent : String) (start : Option Int) (limit : Option Int) :
    (Option (List Comment) × Nat × Option Err) × DB :=
  let search : Search := { parent := parent, offset := none, limit := none }
  let orgDB := search
  match (match start with
      | some s =>
        if s < 0 then Except.error (Err.BadParameterError "start" s)
        else Except.ok (search.Offset s)
      | none => Except.ok search) with
  | Except.error e => ((none, 0, some e), db)
  | Except.ok search =>
    match (match limit with
        | some l =>
          if l ≤ 0 then Except.error (Err.BadParameterError "limit" l)
          else Except.ok (search.Limit l)
        | none => Except.ok search) with
    | Except.error e => ((none, 0, some e), db)
    | Except.ok search =>
      match db.RowsWindow search with
      | (some msg, _, db1) => ((none, 0, some (Err.StorageError msg)), db1)
      | (none, rows, db1) =>
        match scanRows rows true 0 [] with
        | (first, count, result) =>
          if first then
            -- means 0 rows were returned from the first query, need to do a count(*)
            match db1.CountComments orgDB with
            | (some _, _, db2) =>
              ((none, 0, some (Err.Panic "invalid memory address or nil pointer dereference")),
                db2)
            | (none, count, db2) => ((some result, count, none), db2)
          else ((some result, count, none), db1)

end GormCommentRepository

/-- A mutating call of the repository with its arguments: `Create` (with the id that
`uuid.NewV4` returns), `Save` or `Delete`. -/
inductive Call where
  | create (comment : Comment) (creatorID : UUID) (newV4 : UUID)
  | save (comment : Comment) (modifierID : UUID)
  | delete (commentID : UUID) (suppressorID : UUID)
deriving DecidableEq, Repr

/-- The actor (identity of the acting user) passed to the call. -/
def Call.actor : Call → UUID
  | Call.create _ creatorID _ => creatorID
  | Call.save _ modifierID => modifierID
  | Call.delete _ suppressorID => suppressorID

/-- Runs a mutating call: the returned error and the store after the call. -/
def Call.run (SystemMarkupDefault : String) (db : DB) : Call → Option Err × DB
  | Call.create comment creatorID newV4 =>
    let r := GormCommentRepository.Create SystemMarkupDefault db comment creatorID newV4
    (r.1, r.2.2)
  | Call.save comment modifierID =>
    let r := GormCommentRepository.Save SystemMarkupDefault db comment modifierID
    (r.1, r.2.2)
  | Call.delete commentID suppressorID => GormCommentRepository.Delete db commentID suppressorID

/-- The updates of the scenario of `TestStoreCommentRevisions`, for any number of them: each
item is the time that passes before the call, the comment handed to `Save` and the actor.
The result is the store after the last call, or `none` as soon as one `Save` returns an
error. -/
def saveEach (SystemMarkupDefault : String) : DB → List (Nat × Comment × UUID) → Option DB
  | db, [] => some db
  | db, (d, c, modifierID) :: rest =>
    match GormCommentRepository.Save SystemMarkupDefault (db.advance d) c modifierID with
    | (none, _, db1) => saveEach SystemMarkupDefault db1 rest
    | (some _, _, _) => none

/-- The store with empty tables at clock reading `t`, with normal service and no round trip
made yet. -/
def DB.empty (t : Nat) : DB :=
  { comments := [], revisions := [], now := t, faults := [], trace := [] }

/-! ## Runs of the repository -/

/-- A step of a run: a mutating call, one of the reading calls `Load`, `List` and `Count`,
or the passage of time between two calls. -/
inductive Op where
  | call (c : Call)
  | load (id : UUID)
  | list (parent : String) (start limit : Option Int)
  | count (parent : String)
  | tick (d : Nat)
deriving DecidableEq, Repr

/-- The store after a step. -/
def Op.apply (SystemMarkupDefault : String) (db : DB) : Op → DB
  | Op.call c => (c.run SystemMarkupDefault db).2
  | Op.load id => (GormCommentRepository.Load db id).2
  | Op.list parent start limit => (GormCommentRepository.List db parent start limit).2
  | Op.count parent => (GormCommentRepository.Count db parent).2
  | Op.tick d => db.advance d

/-- The store after a sequence of steps. -/
def run (SystemMarkupDefault : String) : DB → List Op → DB
  | db, [] => db
  | db, op :: ops => run SystemMarkupDefault (op.apply SystemMarkupDefault db) ops

/-- A condition on the steps of a run holds all along the run: each step satisfies it in
the state it starts from. -/
def allSteps (SystemMarkupDefault : String) (guard : DB → Op → Prop) : DB → List Op → Prop
  | _, [] => True
  | db, op :: ops =>
    guard db op ∧ allSteps SystemMarkupDefault guard (op.apply SystemMarkupDefault db) ops

/-- The identifier generator gives a new id: a `Create` step is given an id that no entry
of the revision log carries (other steps are not concerned). -/
def freshId (db : DB) : Op → Prop
  | Op.call (Call.create _ _ newV4) => ∀ r ∈ db.revisions, r.CommentID ≠ newV4
  | _ => True

/-- No revision append of a `Create` fails: a `Create` step that reaches its revision
append returns success (other steps are not concerned). -/
def createAppends (SystemMarkupDefault : String) (db : DB) : Op → Prop
  | Op.call (Call.create comment creatorID newV4) =>
    Query.insertRevision ∈
        db.since (GormCommentRepository.Create SystemMarkupDefault db comment creatorID
          newV4).2.2 →
      (GormCommentRepository.Create SystemMarkupDefault db comment creatorID newV4).1 = none
  | _ => True

/-- A successful `Delete` has removed the record: a `Delete` step that returns success
leaves no stored record with the id (other steps are not concerned). -/
def deleteRemoves (db : DB) : Op → Prop
  | Op.call (Call.delete commentID suppressorID) =>
    (GormCommentRepository.Delete db commentID suppressorID).1 = none →
      ∀ x ∈ (GormCommentRepository.Delete db commentID suppressorID).2.comments,
        x.ID ≠ commentID
  | _ => True

/-- The three conditions on a step under which the histories stay well formed: the id
given to a `Create` is new, the revision append of a `Create` does not fail, and a `Delete`
that returns success has removed the record. -/
def historyGuard (SystemMarkupDefault : String) (db : DB) (op : Op) : Prop :=
  freshId db op ∧ createAppends SystemMarkupDefault db op ∧ deleteRemoves db op

/-! ## The history of a comment, in the words of the specification -/

/-- The revision entries of a comment id, in the order of the log. -/
def DB.history (db : DB) (id : UUID) : List Revision :=
  db.revisions.filter (fun r => decide (r.CommentID = id))

/-- A well-formed history: no entry at all, or exactly one `create` entry, which comes
first, then only `update` entries, then at most one `delete` entry, which comes last. -/
def wellFormedHistory (h : List Revision) : Prop :=
  h = [] ∨
  ∃ (first : Revision) (updates : List Revision),
    first.Type_ = RevisionTypeCreate ∧
    (∀ u ∈ updates, u.Type_ = RevisionTypeUpdate) ∧
    (h = first :: updates ∨
      ∃ last : Revision, last.Type_ = RevisionTypeDelete ∧ h = first :: updates ++ [last])

/-- The history of a comment that has not been deleted: one `create` entry, which comes
first, then only `update` entries. -/
def liveHistory (h : List Revision) : Prop :=
  ∃ (first : Revision) (updates : List Revision),
    first.Type_ = RevisionTypeCreate ∧
    (∀ u ∈ updates, u.Type_ = RevisionTypeUpdate) ∧ h = first :: updates

/-! ## The windowed list, in the words of the specification -/

/-- The window of a sequence of records: the first `offset` records dropped, then at most
`limit` records taken, all that remain when no limit is given. -/
def window (full : List Comment) (offset : Nat) (limit : Option Nat) : List Comment :=
  match limit with
  | some l => (full.drop offset).take l
  | none => full.drop offset

/-- Valid pagination parameters: an offset, when provided, is not negative and a limit,
when provided, is strictly positive. -/
def validPage (start limit : Option Int) : Prop :=
  (∀ s ∈ start, (0 : Int) ≤ s) ∧ (∀ l ∈ limit, (0 : Int) < l)

instance (start limit : Option Int) : Decidable (validPage start limit) := by
  unfold validPage
  infer_instance

/-! ## The scenario of `TestStoreCommentRevisions` -/

/-- The comment the scenario starts from: parent `A`, body `Body`, markup `Markdown`; the id
the caller supplies is of no importance. -/
def scenarioDraft : Comment :=
  { ID := 7, ParentID := "A", Body := "Body", Markup := "Markdown", CreatedAt := 0,
    UpdatedAt := 0 }

/-- First step of the scenario: `Create` by actor `1` on the empty store, the generator
returning the id `42`; the system default markup is taken to be `PlainText`. -/
def scenarioCreated : Option Err × Comment × DB :=
  GormCommentRepository.Create "PlainText" (DB.empty 5) scenarioDraft 1 42

/-- The two updates of the scenario, both by actor `2`, one time unit apart. -/
def scenarioSaves : List (Nat × Comment × UUID) :=
  [(1, { scenarioCreated.2.1 with Body := "Updated body", Markup := "PlainText" }, 2),
   (1, { scenarioCreated.2.1 with Body := "Updated body2", Markup := "Markdown" }, 2)]

/-- The store after the two updates of the scenario. -/
def scenarioSaved : DB :=
  (saveEach "PlainText" scenarioCreated.2.2 scenarioSaves).getD (DB.empty 0)

/-- Last step of the scenario: `Delete` by actor `3`, one time unit later. -/
def scenarioDeleted : Option Err × DB :=
  GormCommentRepository.Delete (scenarioSaved.advance 1) 42 3

/-- Two updates of the created comment, one time unit apart, the second handing `Save` the
parent `B`. -/
def scenarioMoves : List (Nat × Comment × UUID) :=
  [(1, { scenarioCreated.2.1 with Body := "Updated body" }, 2),
   (1, { scenarioCreated.2.1 with ParentID := "B" }, 2)]

/-- The store after the two updates of `scenarioMoves`. -/
def scenarioMoved : DB :=
  (saveEach "PlainText" scenarioCreated.2.2 scenarioMoves).getD (DB.empty 0)

/-- The store of `scenarioMoved` after `Delete` by actor `3`, one time unit later. -/
def scenarioMovedDeleted : Option Err × DB :=
  GormCommentRepository.Delete (scenarioMoved.advance 1) 42 3

/-- The empty store of the scenario, its second round trip meeting a storage fault. -/
def scenarioFaulty : DB :=
  { DB.empty 5 with faults := [none, some "write failed"] }


/-- The store of the scenario after `Create`, the statement of its second round trip (the
`DELETE` of a `Delete` call) meeting a storage fault. -/
def scenarioDeleteFaulty : DB :=
  { scenarioCreated.2.2 with faults := [none, some "delete failed"] }

/-- The store of the scenario after `Create`, its next round trip (the lookup of a `Delete`
call, or the query of a `Count` call) meeting a storage fault. -/
def scenarioLookupFaulty : DB :=
  { scenarioCreated.2.2 with faults := [some "connection lost"] }

/-- A comment of the listing scenario: an id, a parent and a time of creation. -/
def listed (id : UUID) (parent : String) (createdAt : Nat) : Comment :=
  { ID := id, ParentID := parent, Body := "Body", Markup := "Markdown",
    CreatedAt := createdAt, UpdatedAt := createdAt }

/-- The store of the listing scenario: three comments under the parent `P`, one under
another parent. -/
def scenarioListing : DB :=
  { DB.empty 9 with
    comments := [listed 1 "P" 1, listed 2 "Q" 2, listed 3 "P" 3, listed 4 "P" 4] }

/-- A store with two comments of the parent `P` created at the same time. -/
def scenarioTie : DB :=
  { DB.empty 9 with comments := [listed 3 "P" 3, listed 4 "P" 3] }

/-- The store of `scenarioTie` holding the same two records in the other order. -/
def scenarioTieSwapped : DB :=
  { DB.empty 9 with comments := [listed 4 "P" 3, listed 3 "P" 3] }

/-- The store of the listing scenario holding its records in the reverse order. -/
def scenarioListingReversed : DB :=
  { scenarioListing with comments := scenarioListing.comments.reverse }

/-- A sequence of calls on the empty store: the comment `42` is created, updated one time
unit later, then loaded, listed and counted. -/
def scenarioOps : List Op :=
  [Op.call (Call.create scenarioDraft 1 42), Op.tick 1,
   Op.call (Call.save { scenarioCreated.2.1 with Body := "Updated body" } 2),
   Op.load 42, Op.list "A" none none, Op.count "A"]

/-- The empty store with a schedule of storage outcomes in which the fifth, the sixth and
the tenth round trip meet a storage fault. -/
def scenarioOutage : DB :=
  { DB.empty 5 with
    faults := [none, none, none, none, some "append failed", some "lookup failed", none, none,
      none, some "connection lost"] }

/-- A sequence of calls for the store `scenarioOutage`: the comment `42` is created; of
three updates the first fails at its revision append, the second at its lookup and the
third succeeds; the count meets a fault; the comment is removed and a comment `43` is
created. -/
def scenarioOpsOutage : List Op :=
  [Op.call (Call.create scenarioDraft 1 42), Op.tick 1,
   Op.call (Call.save { scenarioCreated.2.1 with Body := "Updated body" } 2),
   Op.call (Call.save { scenarioCreated.2.1 with Body := "Updated body" } 2),
   Op.call (Call.save { scenarioCreated.2.1 with Body := "Updated body" } 2),
   Op.count "A", Op.tick 1, Op.call (Call.delete 42 3),
   Op.call (Call.create scenarioDraft 1 43)]

/-- The empty store with a schedule of storage outcomes in which the fourth round trip
meets a storage fault. -/
def scenarioSlip : DB :=
  { DB.empty 5 with faults := [none, none, none, some "delete failed"] }

/-! ## Inversion lemmas for the three mutating calls -/

/-- No row has the id exactly when the lookup by id finds nothing. -/
theorem find_isSome_iff (cs : List Comment) (id : UUID) :
    (cs.find? (fun r => decide (r.ID = id))).isSome = true ↔ ∃ x ∈ cs, x.ID = id := by
  rw [List.find?_isSome]
  simp

/-- What a successful `Create` has done. -/
theorem create_ok {D : String} {db db' : DB} {c c' : Comment} {a g : UUID}
    (h : GormCommentRepository.Create D db c a g = (none, c', db')) :
    c' = { ID := g, ParentID := c.ParentID, Body := c.Body,
           Markup := if c.Markup = "" then D else c.Markup,
           CreatedAt := db.now, UpdatedAt := db.now } ∧
    (∀ x ∈ db.comments, x.ID ≠ g) ∧
    db'.comments = db.comments ++ [c'] ∧
    db'.revisions = db.revisions ++
      [{ newRevision db.now a RevisionTypeCreate c' with ID := db.revisions.length + 1 }] ∧
    db'.now = db.now ∧
    db'.trace = db.trace ++ [Query.insertComment, Query.insertRevision] := by
  obtain ⟨cs, rs, now, fs, tr⟩ := db
  by_cases hdup : (cs.find? (fun r => decide (r.ID = g))).isSome
  · rcases fs with _ | ⟨_ | m1, fs⟩ <;>
      simp [GormCommentRepository.Create, DB.CreateComment, DB.exec, DB.nextFault,
        DB.insertCommentRow, hdup] at h
  · have hnone : ∀ x ∈ cs, x.ID ≠ g := by
      intro x hx hxg
      exact hdup ((find_isSome_iff cs g).2 ⟨x, hx, hxg⟩)
    rcases fs with _ | ⟨_ | m1, _ | ⟨_ | m2, fs⟩⟩ <;>
      simp [GormCommentRepository.Create, DB.CreateComment, DB.exec, DB.nextFault,
        DB.insertCommentRow, hdup, GormCommentRevisionRepository.Create, DB.CreateRevision,
        Comment.stamp] at h <;>
      obtain ⟨rfl, rfl⟩ := h <;>
      simp [newRevision] <;>
      exact hnone

/-- What a failed `Create` has left behind. -/
theorem create_err {D : String} {db db' : DB} {c c' : Comment} {a g : UUID} {e : Err}
    (h : GormCommentRepository.Create D db c a g = (some e, c', db')) :
    db'.revisions = db.revisions ∧ db'.now = db.now ∧
    (Query.insertRevision ∉ db.since db' → db'.comments = db.comments) ∧
    (Query.insertRevision ∈ db.since db' →
      c'.ID = g ∧ db'.comments = db.comments ++ [c']) := by
  obtain ⟨cs, rs, now, fs, tr⟩ := db
  by_cases hdup : (cs.find? (fun r => decide (r.ID = g))).isSome
  · rcases fs with _ | ⟨_ | m1, fs⟩ <;>
      simp [GormCommentRepository.Create, DB.CreateComment, DB.exec, DB.nextFault,
        DB.insertCommentRow, hdup] at h <;>
      obtain ⟨-, -, rfl⟩ := h <;>
      simp [DB.since]
  · rcases fs with _ | ⟨_ | m1, _ | ⟨_ | m2, fs⟩⟩ <;>
      simp [GormCommentRepository.Create, DB.CreateComment, DB.exec, DB.nextFault,
        DB.insertCommentRow, hdup, GormCommentRevisionRepository.Create, DB.CreateRevision,
        Comment.stamp] at h <;>
      obtain ⟨-, rfl, rfl⟩ := h <;>
      simp [DB.since]

/-- What a successful `Save` has done. -/
theorem save_ok {D : String} {db db' : DB} {c c' : Comment} {m : UUID}
    (h : GormCommentRepository.Save D db c m = (none, c', db')) :
    c' = { c with Markup := if c.Markup = "" then D else c.Markup, UpdatedAt := db.now } ∧
    (∃ x ∈ db.comments, x.ID = c.ID) ∧
    db'.comments = db.comments.map (fun r => if r.ID = c.ID then c' else r) ∧
    db'.revisions = db.revisions ++
      [{ newRevision db.now m RevisionTypeUpdate c' with ID := db.revisions.length + 1 }] ∧
    db'.now = db.now ∧
    db'.trace = db.trace ++ [Query.firstComment, Query.saveComment, Query.insertRevision] := by
  obtain ⟨cs, rs, now, fs, tr⟩ := db
  cases hfind : cs.find? (fun r => decide (r.ID = c.ID)) with
  | none =>
    rcases fs with _ | ⟨_ | m1, fs⟩ <;>
      simp [GormCommentRepository.Save, DB.FirstComment, DB.exec, DB.nextFault, hfind,
        Tx.RecordNotFound] at h
  | some x =>
    have hex : ∃ x ∈ cs, x.ID = c.ID :=
      (find_isSome_iff cs c.ID).1 (by rw [hfind]; rfl)
    by_cases hnil : c.ID = uuidNil
    · have hfind0 := hfind
      rw [hnil] at hfind0
      rcases fs with _ | ⟨_ | m1, _ | ⟨_ | m2, fs⟩⟩ <;>
        simp [GormCommentRepository.Save, DB.FirstComment, DB.exec, DB.nextFault, hfind,
          hfind0, Tx.RecordNotFound, DB.SaveComment, hnil, DB.insertCommentRow] at h
    · rcases fs with _ | ⟨_ | m1, _ | ⟨_ | m2, _ | ⟨_ | m3, fs⟩⟩⟩ <;>
        simp [GormCommentRepository.Save, DB.FirstComment, DB.exec, DB.nextFault, hfind,
          Tx.RecordNotFound, DB.SaveComment, hnil, DB.insertCommentRow,
          GormCommentRevisionRepository.Create, DB.CreateRevision] at h <;>
        obtain ⟨rfl, rfl⟩ := h <;>
        simp [newRevision] <;>
        exact hex

/-- What a failed `Save` has left behind. -/
theorem save_err {D : String} {db db' : DB} {c c' : Comment} {m : UUID} {e : Err}
    (h : GormCommentRepository.Save D db c m = (some e, c', db')) :
    db'.revisions = db.revisions ∧ db'.now = db.now ∧
    (Query.insertRevision ∉ db.since db' → db'.comments = db.comments) ∧
    (Query.insertRevision ∈ db.since db' →
      c'.ID = c.ID ∧ c'.Body = c.Body ∧
      db'.comments = db.comments.map (fun r => if r.ID = c.ID then c' else r)) := by
  obtain ⟨cs, rs, now, fs, tr⟩ := db
  cases hfind : cs.find? (fun r => decide (r.ID = c.ID)) with
  | none =>
    rcases fs with _ | ⟨_ | m1, fs⟩ <;>
      simp [GormCommentRepository.Save, DB.FirstComment, DB.exec, DB.nextFault, hfind,
        Tx.RecordNotFound] at h <;>
      obtain ⟨-, -, rfl⟩ := h <;>
      simp [DB.since]
  | some x =>
    by_cases hnil : c.ID = uuidNil
    · have hfind0 := hfind
      rw [hnil] at hfind0
      rcases fs with _ | ⟨_ | m1, _ | ⟨_ | m2, fs⟩⟩ <;>
        simp [GormCommentRepository.Save, DB.FirstComment, DB.exec, DB.nextFault, hfind,
          hfind0, Tx.RecordNotFound, DB.SaveComment, hnil, DB.insertCommentRow] at h <;>
        obtain ⟨-, -, rfl⟩ := h <;>
        simp [DB.since]
    · rcases fs with _ | ⟨_ | m1, _ | ⟨_ | m2, _ | ⟨_ | m3, fs⟩⟩⟩ <;>
        simp [GormCommentRepository.Save, DB.FirstComment, DB.exec, DB.nextFault, hfind,
          Tx.RecordNotFound, DB.SaveComment, hnil, DB.insertCommentRow,
          GormCommentRevisionRepository.Create, DB.CreateRevision] at h <;>
        obtain ⟨-, rfl, rfl⟩ := h <;>
        simp [DB.since]

/-- What a successful `Delete` has done. -/
theorem delete_ok {db db' : DB} {id a : UUID}
    (h : GormCommentRepository.Delete db id a = (none, db')) :
    id ≠ uuidNil ∧
    ∃ x, db.comments.find? (fun r => decide (r.ID = id)) = some x ∧ x.ID = id ∧
      db'.revisions = db.revisions ++
        [{ newRevision db.now a RevisionTypeDelete
             { Comment.zero with ID := x.ID, ParentID := x.ParentID } with
           ID := db.revisions.length + 1 }] ∧
      db'.now = db.now ∧
      (db'.comments = db.comments.filter (fun r => !decide (r.ID = id)) ∨
        db'.comments = db.comments) ∧
      db'.trace = db.trace ++ [Query.findComment, Query.deleteComment, Query.insertRevision] := by
  obtain ⟨cs, rs, now, fs, tr⟩ := db
  by_cases hnil : id = uuidNil
  · simp [GormCommentRepository.Delete, hnil] at h
  · refine ⟨hnil, ?_⟩
    cases hfind : cs.find? (fun r => decide (r.ID = id)) with
    | none =>
      rcases fs with _ | ⟨_ | m1, _ | ⟨_ | m2, fs⟩⟩ <;>
        simp [GormCommentRepository.Delete, hnil, DB.FindComment, DB.exec, DB.nextFault, hfind,
          DB.DeleteComment, Comment.zero] at h
    | some x =>
      have hx : x.ID = id := by simpa using List.find?_some hfind
      have hx0 : ¬ x.ID = uuidNil := by rw [hx]; exact hnil
      rcases fs with _ | ⟨_ | m1, _ | ⟨_ | m2, _ | ⟨_ | m3, fs⟩⟩⟩ <;>
        simp [GormCommentRepository.Delete, hnil, DB.FindComment, DB.exec, DB.nextFault, hfind,
          DB.DeleteComment, Comment.zero, hx0, GormCommentRevisionRepository.Create,
          DB.CreateRevision] at h <;>
        subst h <;>
        simp [hx, newRevision, Comment.zero]

/-- What a failed `Delete` has left behind. -/
theorem delete_err {db db' : DB} {id a : UUID} {e : Err}
    (h : GormCommentRepository.Delete db id a = (some e, db')) :
    db'.revisions = db.revisions ∧ db'.now = db.now ∧ (id = uuidNil → db' = db) := by
  obtain ⟨cs, rs, now, fs, tr⟩ := db
  by_cases hnil : id = uuidNil
  · simp [GormCommentRepository.Delete, hnil] at h
    obtain ⟨-, rfl⟩ := h
    simp
  · cases hfind : cs.find? (fun r => decide (r.ID = id)) with
    | none =>
      rcases fs with _ | ⟨_ | m1, _ | ⟨_ | m2, fs⟩⟩ <;>
        simp [GormCommentRepository.Delete, hnil, DB.FindComment, DB.exec, DB.nextFault, hfind,
          DB.DeleteComment, Comment.zero] at h <;>
        obtain ⟨-, rfl⟩ := h <;>
        simp [hnil]
    | some x =>
      have hx : x.ID = id := by simpa using List.find?_some hfind
      have hx0 : ¬ x.ID = uuidNil := by rw [hx]; exact hnil
      rcases fs with _ | ⟨_ | m1, _ | ⟨_ | m2, _ | ⟨_ | m3, fs⟩⟩⟩ <;>
        simp [GormCommentRepository.Delete, hnil, DB.FindComment, DB.exec, DB.nextFault, hfind,
          DB.DeleteComment, Comment.zero, hx0, GormCommentRevisionRepository.Create,
          DB.CreateRevision] at h <;>
        obtain ⟨-, rfl⟩ := h <;>
        simp [hnil]


/-! ## The calls succeed under normal service -/

/-- With normal service and an id no stored record has, `Create` succeeds. -/
theorem create_succeeds (D : String) (db : DB) (c : Comment) (a g : UUID)
    (hservice : db.faults = []) (hnew : ∀ x ∈ db.comments, x.ID ≠ g) :
    (GormCommentRepository.Create D db c a g).1 = none := by
  obtain ⟨cs, rs, now, fs, tr⟩ := db
  simp only at hservice hnew
  subst hservice
  have hfind : cs.find? (fun r => decide (r.ID = g)) = none := by
    rw [List.find?_eq_none]
    intro x hx
    simpa using hnew x hx
  simp [GormCommentRepository.Create, DB.CreateComment, DB.exec, DB.nextFault,
    DB.insertCommentRow, hfind, GormCommentRevisionRepository.Create, DB.CreateRevision]

/-- With normal service and a stored record of the (non-nil) id, `Save` succeeds. -/
theorem save_succeeds (D : String) (db : DB) (c : Comment) (m : UUID)
    (hservice : db.faults = []) (hid : c.ID ≠ uuidNil) (hstored : ∃ x ∈ db.comments, x.ID = c.ID) :
    (GormCommentRepository.Save D db c m).1 = none := by
  obtain ⟨cs, rs, now, fs, tr⟩ := db
  simp only at hservice hstored
  subst hservice
  have hsome := (find_isSome_iff cs c.ID).2 hstored
  obtain ⟨x, hfind⟩ := Option.isSome_iff_exists.1 hsome
  simp [GormCommentRepository.Save, DB.FirstComment, DB.exec, DB.nextFault, hfind,
    Tx.RecordNotFound, DB.SaveComment, hid, GormCommentRevisionRepository.Create,
    DB.CreateRevision]

/-- With normal service and a stored record of the (non-nil) id, `Delete` succeeds and the
records of that id are gone. -/
theorem delete_succeeds (db : DB) (id a : UUID)
    (hservice : db.faults = []) (hid : id ≠ uuidNil) (hstored : ∃ x ∈ db.comments, x.ID = id) :
    (GormCommentRepository.Delete db id a).1 = none ∧
    (GormCommentRepository.Delete db id a).2.comments =
      db.comments.filter (fun r => !decide (r.ID = id)) := by
  obtain ⟨cs, rs, now, fs, tr⟩ := db
  simp only at hservice hstored
  subst hservice
  have hsome := (find_isSome_iff cs id).2 hstored
  obtain ⟨x, hfind⟩ := Option.isSome_iff_exists.1 hsome
  have hx : x.ID = id := by simpa using List.find?_some hfind
  have hx0 : ¬ x.ID = uuidNil := by rw [hx]; exact hid
  simp [GormCommentRepository.Delete, hid, DB.FindComment, DB.exec, DB.nextFault, hfind,
    DB.DeleteComment, Comment.zero, hx0, hx, GormCommentRevisionRepository.Create,
    DB.CreateRevision]

/-! ## The history of one comment -/

/-- The updates of the scenario append one `update` entry each to the history of the
comment, stamped with non-decreasing times; each entry carries the parent id of the comment
handed to its `Save`. -/
theorem saveEach_history (D : String) (g : UUID) :
    ∀ (saves : List (Nat × Comment × UUID)) (db db2 : DB),
      (∀ s ∈ saves, s.2.1.ID = g) →
      saveEach D db saves = some db2 →
      ∃ us : List Revision,
        db2.revisions.filter (fun r => decide (r.CommentID = g)) =
          db.revisions.filter (fun r => decide (r.CommentID = g)) ++ us ∧
        us.length = saves.length ∧
        (∀ u ∈ us, u.Type_ = RevisionTypeUpdate ∧ u.CommentID = g ∧
          db.now ≤ u.Time ∧ u.Time ≤ db2.now) ∧
        us.map (fun u => u.CommentParentID) = saves.map (fun s => s.2.1.ParentID) ∧
        us.Sorted (fun a b => a.Time ≤ b.Time) ∧
        db.now ≤ db2.now := by
  intro saves
  induction saves with
  | nil =>
    intro db db2 _ h
    simp only [saveEach, Option.some.injEq] at h
    subst h
    exact ⟨[], by simp, rfl, by simp, rfl, List.sorted_nil, le_refl _⟩
  | cons s rest ih =>
    intro db db2 hall h
    obtain ⟨d, c, m⟩ := s
    have hid : c.ID = g := hall (d, c, m) (List.mem_cons_self _ _)
    simp only [saveEach] at h
    cases hsave : GormCommentRepository.Save D (db.advance d) c m with
    | mk e rest1 =>
      obtain ⟨c', db1⟩ := rest1
      cases e with
      | some e => simp [hsave] at h
      | none =>
        simp only [hsave] at h
        obtain ⟨hc', -, -, hrev, hnow, -⟩ := save_ok hsave
        obtain ⟨us, hhist, hlen, hprop, hparents, hsorted, hle⟩ :=
          ih db1 db2 (fun s hs => hall s (List.mem_cons_of_mem _ hs)) h
        have hnow1 : db1.now = db.now + d := by simpa [DB.advance] using hnow
        have hc'id : c'.ID = g := by rw [hc']; exact hid
        have hc'par : c'.ParentID = c.ParentID := by rw [hc']
        refine ⟨{ newRevision (db.advance d).now m RevisionTypeUpdate c' with
                  ID := (db.advance d).revisions.length + 1 } :: us, ?_, ?_, ?_, ?_, ?_, ?_⟩
        · rw [hhist, hrev]
          simp [DB.advance, newRevision, hc'id]
        · simp [hlen]
        · intro u hu
          rcases List.mem_cons.1 hu with rfl | hu
          · simp [newRevision, hc'id, DB.advance, hnow1 ▸ hle]
          · obtain ⟨h1, h2, h3, h4⟩ := hprop u hu
            exact ⟨h1, h2, by omega, h4⟩
        · simp [newRevision, hc'par, hparents]
        · refine List.sorted_cons.2 ⟨?_, hsorted⟩
          intro u hu
          have := (hprop u hu).2.2.1
          simp only [newRevision, DB.advance]
          omega
        · omega

/-- After the updates of the scenario the stored record of the comment has the parent id
handed to the last `Save`, or the parent id it had when there is no update. -/
theorem saveEach_parent (D : String) (g : UUID) :
    ∀ (saves : List (Nat × Comment × UUID)) (p : String) (db db2 : DB),
      (∀ s ∈ saves, s.2.1.ID = g) →
      saveEach D db saves = some db2 →
      (∀ x ∈ db.comments, x.ID = g → x.ParentID = p) →
      ∀ x ∈ db2.comments, x.ID = g →
        x.ParentID = saves.foldl (fun _ s => s.2.1.ParentID) p := by
  intro saves
  induction saves with
  | nil =>
    intro p db db2 _ h hinv
    simp only [saveEach, Option.some.injEq] at h
    subst h
    exact hinv
  | cons s rest ih =>
    intro p db db2 hall h hinv
    obtain ⟨d, c, m⟩ := s
    have hid : c.ID = g := hall (d, c, m) (List.mem_cons_self _ _)
    simp only [saveEach] at h
    cases hsave : GormCommentRepository.Save D (db.advance d) c m with
    | mk e rest1 =>
      obtain ⟨c', db1⟩ := rest1
      cases e with
      | some e => simp [hsave] at h
      | none =>
        simp only [hsave] at h
        obtain ⟨hc', -, hcs, -, -, -⟩ := save_ok hsave
        simp only [List.foldl_cons]
        refine ih c.ParentID db1 db2 (fun s hs => hall s (List.mem_cons_of_mem _ hs)) h ?_
        intro x hx hxg
        rw [hcs, List.mem_map] at hx
        obtain ⟨y, hy, hyx⟩ := hx
        by_cases hyc : y.ID = c.ID
        · rw [if_pos hyc] at hyx
          rw [← hyx, hc']
        · rw [if_neg hyc] at hyx
          subst hyx
          exact absurd (hxg.trans hid.symm) hyc


/-! ## History completeness and the tombstone -/

/-- C1, history completeness. Start from a store with no revision for the id that `Create`
is about to generate. After a successful `Create`, then `N` successful `Save`s of comments
with that id (any time may pass between the calls), then a successful `Delete`, the
revision list of the id, read while the store answers, has exactly `N + 2` entries in
chronological order: one `create` entry, then `N` `update` entries, then one `delete`
entry. Each carries the comment id and the parent id of the comment at its call: the
`create` entry that of the created comment, each `update` entry that of the comment handed
to its `Save`, the `delete` entry that of the stored record, which is the one handed to the
last `Save`; when every `Save` carries the parent id of the created comment, all entries
carry it. The `delete` entry has absent body and markup. -/
theorem C1_history_completeness (D : String) (db db1 db2 db3 : DB) (draft c1 : Comment)
    (creatorID newV4 suppressorID : UUID) (saves : List (Nat × Comment × UUID)) (d : Nat)
    (hfresh : ∀ r ∈ db.revisions, r.CommentID ≠ newV4)
    (hcreate : GormCommentRepository.Create D db draft creatorID newV4 = (none, c1, db1))
    (hsame : ∀ s ∈ saves, s.2.1.ID = newV4)
    (hsaves : saveEach D db1 saves = some db2)
    (hdelete : GormCommentRepository.Delete (db2.advance d) newV4 suppressorID = (none, db3))
    (hserved : db3.nextFault = none) :
    ∃ (first last : Revision) (updates : List Revision),
      (GormCommentRevisionRepository.List db3 newV4).1 =
        Except.ok (first :: updates ++ [last]) ∧
      (first :: updates ++ [last]).length = saves.length + 2 ∧
      updates.length = saves.length ∧
      first.Type_ = RevisionTypeCreate ∧
      (∀ u ∈ updates, u.Type_ = RevisionTypeUpdate) ∧
      last.Type_ = RevisionTypeDelete ∧
      (∀ r ∈ first :: updates ++ [last], r.CommentID = newV4) ∧
      first.CommentParentID = draft.ParentID ∧
      updates.map (fun u => u.CommentParentID) = saves.map (fun s => s.2.1.ParentID) ∧
      last.CommentParentID = saves.foldl (fun _ s => s.2.1.ParentID) draft.ParentID ∧
      ((∀ s ∈ saves, s.2.1.ParentID = draft.ParentID) →
        ∀ r ∈ first :: updates ++ [last], r.CommentParentID = draft.ParentID) ∧
      last.CommentBody = none ∧ last.CommentMarkup = none ∧
      (first :: updates ++ [last]).Sorted (fun a b => a.Time ≤ b.Time) := by
  obtain ⟨hc1, hnodup, hcs1, hrev1, hnow1, -⟩ := create_ok hcreate
  obtain ⟨us, hhist, hlen, hprop, hparents, hsorted, hle⟩ :=
    saveEach_history D newV4 saves db1 db2 hsame hsaves
  obtain ⟨-, x, hfind, hxid, hrev3, -, hcs, -⟩ := delete_ok hdelete
  have hc1id : c1.ID = newV4 := by rw [hc1]
  have hc1par : c1.ParentID = draft.ParentID := by rw [hc1]
  have hnone : db.revisions.filter (fun r => decide (r.CommentID = newV4)) = [] := by
    rw [List.filter_eq_nil_iff]
    intro r hr
    simpa using hfresh r hr
  -- the record that `Delete` looks up has the parent id of the last `Save`
  have hinv1 : ∀ y ∈ db1.comments, y.ID = newV4 → y.ParentID = draft.ParentID := by
    intro y hy hyg
    rw [hcs1, List.mem_append] at hy
    rcases hy with hy | hy
    · exact absurd hyg (hnodup y hy)
    · rw [List.mem_singleton.1 hy]
      exact hc1par
  have hxpar : x.ParentID = saves.foldl (fun _ s => s.2.1.ParentID) draft.ParentID :=
    saveEach_parent D newV4 saves draft.ParentID db1 db2 hsame hsaves hinv1 x
      (by simpa [DB.advance] using List.mem_of_find?_eq_some hfind) hxid
  obtain ⟨first, hrevA, hfT, hfK, hfI, hfP⟩ : ∃ first : Revision,
      db1.revisions = db.revisions ++ [first] ∧ first.Time = db.now ∧
      first.Type_ = RevisionTypeCreate ∧ first.CommentID = newV4 ∧
      first.CommentParentID = draft.ParentID :=
    ⟨_, hrev1, by simp [newRevision], by simp [newRevision], by simp [newRevision, hc1id],
      by simp [newRevision, hc1par]⟩
  obtain ⟨last, hrevZ, hlT, hlK, hlI, hlP, hlB, hlM⟩ : ∃ last : Revision,
      db3.revisions = db2.revisions ++ [last] ∧ last.Time = db2.now + d ∧
      last.Type_ = RevisionTypeDelete ∧ last.CommentID = newV4 ∧
      last.CommentParentID = saves.foldl (fun _ s => s.2.1.ParentID) draft.ParentID ∧
      last.CommentBody = none ∧ last.CommentMarkup = none :=
    ⟨_, hrev3, by simp [newRevision, DB.advance], by simp [newRevision],
      by simp [newRevision, hxid], by simp [newRevision, hxpar], by simp [newRevision],
      by simp [newRevision]⟩
  have hhist3 : db3.revisions.filter (fun r => decide (r.CommentID = newV4)) =
      first :: us ++ [last] := by
    rw [hrevZ, List.filter_append, hhist, hrevA, List.filter_append, hnone]
    simp [hfI, hlI]
  have hsortedAll : List.Sorted (fun a b : Revision => a.Time ≤ b.Time)
      (first :: us ++ [last]) := by
    rw [List.cons_append]
    refine List.sorted_cons.2 ⟨?_, ?_⟩
    · intro b hb
      rcases List.mem_append.1 hb with hb | hb
      · have := (hprop b hb).2.2.1
        omega
      · rw [List.mem_singleton.1 hb]
        omega
    · refine List.pairwise_append.2 ⟨hsorted, List.pairwise_singleton _ _, ?_⟩
      intro a ha b hb
      rw [List.mem_singleton.1 hb]
      have := (hprop a ha).2.2.2
      omega
  -- without a change of parent, the last parent id is that of the draft
  have hfold : ∀ (l : List (Nat × Comment × UUID)) (p : String),
      (∀ s ∈ l, s.2.1.ParentID = p) → l.foldl (fun _ s => s.2.1.ParentID) p = p := by
    intro l
    induction l with
    | nil => intro p _; rfl
    | cons s rest ih =>
      intro p hall
      rw [List.foldl_cons, hall s (List.mem_cons_self _ _)]
      exact ih p (fun t ht => hall t (List.mem_cons_of_mem _ ht))
  refine ⟨first, last, us, ?_, ?_, hlen, hfK, ?_, hlK, ?_, hfP, hparents, hlP, ?_, hlB, hlM,
    hsortedAll⟩
  · simp only [GormCommentRevisionRepository.List, DB.exec, hserved, hhist3]
    rw [List.Sorted.insertionSort_eq hsortedAll]
  · simp [hlen]
  · exact fun u hu => (hprop u hu).1
  · intro r hr
    rw [List.cons_append, List.mem_cons, List.mem_append, List.mem_singleton] at hr
    rcases hr with rfl | hr | rfl
    · exact hfI
    · exact (hprop r hr).2.1
    · exact hlI
  · intro hkeep r hr
    rw [List.cons_append, List.mem_cons, List.mem_append, List.mem_singleton] at hr
    rcases hr with rfl | hr | rfl
    · exact hfP
    · have hmem : r.CommentParentID ∈ us.map (fun u => u.CommentParentID) :=
        List.mem_map.2 ⟨r, hr, rfl⟩
      rw [hparents, List.mem_map] at hmem
      obtain ⟨s, hs, hsr⟩ := hmem
      rw [← hsr]
      exact hkeep s hs
    · rw [hlP]
      exact hfold saves draft.ParentID hkeep

/-- C2, tombstone. Every successful `Delete` appends one revision entry of type `delete`
whose comment id and comment parent id are those of the deleted record (the stored record
with the given id) and whose body and markup are both absent, whatever body and markup the
deleted record had. -/
theorem C2_tombstone (db db' : DB) (commentID suppressorID : UUID)
    (h : GormCommentRepository.Delete db commentID suppressorID = (none, db')) :
    ∃ (deleted : Comment) (r : Revision),
      db.comments.find? (fun x => decide (x.ID = commentID)) = some deleted ∧
      deleted ∈ db.comments ∧ deleted.ID = commentID ∧
      db'.revisions = db.revisions ++ [r] ∧
      r.Type_ = RevisionTypeDelete ∧
      r.CommentID = deleted.ID ∧ r.CommentParentID = deleted.ParentID ∧
      r.CommentBody = none ∧ r.CommentMarkup = none := by
  obtain ⟨-, x, hfind, hxid, hrev, -, -, -⟩ := delete_ok h
  exact ⟨x, _, hfind, List.mem_of_find?_eq_some hfind, hxid, hrev, by simp [newRevision],
    by simp [newRevision], by simp [newRevision], by simp [newRevision],
    by simp [newRevision]⟩

/-- The revision entry a successful mutating call appends carries the actor of the call. -/
theorem run_ok_appends {D : String} {db db' : DB} {call : Call}
    (h : call.run D db = (none, db')) :
    ∃ r : Revision, db'.revisions = db.revisions ++ [r] ∧ r.ModifierIdentity = call.actor ∧
      r.Time = db.now := by
  cases call with
  | create c a g =>
    have h1 : GormCommentRepository.Create D db c a g =
        (none, (GormCommentRepository.Create D db c a g).2.1, db') := by
      simp only [Call.run, Prod.mk.injEq] at h
      exact Prod.ext h.1 (Prod.ext rfl h.2)
    obtain ⟨-, -, -, hrev, -, -⟩ := create_ok h1
    exact ⟨_, hrev, by simp [newRevision, Call.actor], by simp [newRevision]⟩
  | save c m =>
    have h1 : GormCommentRepository.Save D db c m =
        (none, (GormCommentRepository.Save D db c m).2.1, db') := by
      simp only [Call.run, Prod.mk.injEq] at h
      exact Prod.ext h.1 (Prod.ext rfl h.2)
    obtain ⟨-, -, -, hrev, -, -⟩ := save_ok h1
    exact ⟨_, hrev, by simp [newRevision, Call.actor], by simp [newRevision]⟩
  | delete id a =>
    obtain ⟨-, x, -, -, hrev, -, -, -⟩ := delete_ok (show GormCommentRepository.Delete db id a = (none, db') from h)
    exact ⟨_, hrev, by simp [newRevision, Call.actor], by simp [newRevision]⟩

/-- C3, actor attribution. For every successful `Create`, `Save` or `Delete` made with
actor `a`, the revision entry appended by that call has `ModifierIdentity` equal to `a`. -/
theorem C3_actor_attribution (D : String) (db db' : DB) (call : Call)
    (h : call.run D db = (none, db')) :
    ∃ r : Revision, db'.revisions = db.revisions ++ [r] ∧
      r.ModifierIdentity = call.actor := by
  obtain ⟨r, hrev, hactor, -⟩ := run_ok_appends h
  exact ⟨r, hrev, hactor⟩

/-- C4, exactly one appended revision per mutation. For every successful `Create`, `Save`
or `Delete`, the revision log after the call is the revision log before the call with
exactly one new entry appended at the end: the log is one entry longer and every position
of the old log holds the entry it held before. -/
theorem C4_one_revision_appended (D : String) (db db' : DB) (call : Call)
    (h : call.run D db = (none, db')) :
    (∃ r : Revision, db'.revisions = db.revisions ++ [r]) ∧
    db'.revisions.length = db.revisions.length + 1 ∧
    db'.revisions.take db.revisions.length = db.revisions ∧
    ∀ i, i < db.revisions.length → db'.revisions[i]? = db.revisions[i]? := by
  obtain ⟨r, hrev, -, -⟩ := run_ok_appends h
  refine ⟨⟨r, hrev⟩, by simp [hrev], by simp [hrev], ?_⟩
  intro i hi
  rw [hrev, List.getElem?_append_left hi]


/-! ## Create, Save and the default markup -/

/-- C5, default markup. For every comment whose markup is the empty string: a successful
`Create` stores a record (under the generated id) whose markup is `SystemMarkupDefault`,
and a successful `Save` leaves a stored record with the id of the comment, every such
record having markup `SystemMarkupDefault`; in both cases the revision entry appended by
the same call carries markup `SystemMarkupDefault`. -/
theorem C5_default_markup (SystemMarkupDefault : String) (db db' : DB) (comment c' : Comment)
    (actor newV4 : UUID) (hempty : comment.Markup = "") :
    (GormCommentRepository.Create SystemMarkupDefault db comment actor newV4 = (none, c', db') →
      ∃ (stored : Comment) (r : Revision),
        db'.comments = db.comments ++ [stored] ∧ stored.ID = newV4 ∧
        stored.Markup = SystemMarkupDefault ∧
        db'.revisions = db.revisions ++ [r] ∧ r.CommentID = newV4 ∧
        r.CommentMarkup = some SystemMarkupDefault) ∧
    (GormCommentRepository.Save SystemMarkupDefault db comment actor = (none, c', db') →
      (∃ stored ∈ db'.comments, stored.ID = comment.ID) ∧
      (∀ stored ∈ db'.comments, stored.ID = comment.ID →
        stored.Markup = SystemMarkupDefault) ∧
      ∃ r : Revision, db'.revisions = db.revisions ++ [r] ∧ r.CommentID = comment.ID ∧
        r.CommentMarkup = some SystemMarkupDefault) := by
  constructor
  · intro h
    obtain ⟨hc', -, hcs, hrev, -, -⟩ := create_ok h
    have hm : c'.Markup = SystemMarkupDefault := by rw [hc']; simp [hempty]
    have hid : c'.ID = newV4 := by rw [hc']
    exact ⟨c', _, hcs, hid, hm, hrev, by simp [newRevision, hid], by simp [newRevision, hm]⟩
  · intro h
    obtain ⟨hc', ⟨x, hx, hxid⟩, hcs, hrev, -, -⟩ := save_ok h
    have hm : c'.Markup = SystemMarkupDefault := by rw [hc']; simp [hempty]
    have hid : c'.ID = comment.ID := by rw [hc']
    refine ⟨⟨c', ?_, hid⟩, ?_, _, hrev, by simp [newRevision, hid], by simp [newRevision, hm]⟩
    · rw [hcs, List.mem_map]
      exact ⟨x, hx, by rw [if_pos hxid]⟩
    · intro s hs hsid
      rw [hcs, List.mem_map] at hs
      obtain ⟨y, -, hy⟩ := hs
      by_cases hyc : y.ID = comment.ID
      · rw [if_pos hyc] at hy
        rw [← hy]
        exact hm
      · rw [if_neg hyc] at hy
        rw [hy] at hyc
        exact absurd hsid hyc

/-- C6, Create. A successful `Create` replaces the id of the draft by the generated id,
whatever id the caller supplied (the id of the draft has no influence on the call, and the
generated id was the id of no stored record), stores the record under that id as a new row,
and appends a revision of type `create` whose comment id, parent id, body and markup equal
those of the stored record. -/
theorem C6_create (SystemMarkupDefault : String) (db db' : DB) (draft c' : Comment)
    (creatorID newV4 : UUID)
    (h : GormCommentRepository.Create SystemMarkupDefault db draft creatorID newV4 =
      (none, c', db')) :
    c'.ID = newV4 ∧
    (∀ supplied : UUID,
      GormCommentRepository.Create SystemMarkupDefault db { draft with ID := supplied }
        creatorID newV4 = (none, c', db')) ∧
    (∀ x ∈ db.comments, x.ID ≠ newV4) ∧
    db'.comments = db.comments ++ [c'] ∧
    c'.ParentID = draft.ParentID ∧ c'.Body = draft.Body ∧
    ∃ r : Revision, db'.revisions = db.revisions ++ [r] ∧
      r.Type_ = RevisionTypeCreate ∧
      r.CommentID = c'.ID ∧ r.CommentParentID = c'.ParentID ∧
      r.CommentBody = some c'.Body ∧ r.CommentMarkup = some c'.Markup := by
  obtain ⟨hc', hnew, hcs, hrev, -, -⟩ := create_ok h
  refine ⟨by rw [hc'], ?_, hnew, hcs, by rw [hc'], by rw [hc'], _, hrev,
    by simp [newRevision], by simp [newRevision], by simp [newRevision],
    by simp [newRevision], by simp [newRevision]⟩
  intro supplied
  rw [← h]
  rfl

/-- C7, Save on an existing record. For every comment whose id matches a stored record, a
successful `Save` leaves a stored record with that id, every stored record with that id
carries the body of the patch and its markup (`SystemMarkupDefault` when the markup of the
patch is empty), and the call appends a revision of type `update` whose body and markup
are those of the record after the save. -/
theorem C7_save_existing (SystemMarkupDefault : String) (db db' : DB) (comment c' : Comment)
    (modifierID : UUID)
    (hstored : ∃ x ∈ db.comments, x.ID = comment.ID)
    (h : GormCommentRepository.Save SystemMarkupDefault db comment modifierID =
      (none, c', db')) :
    (∃ stored ∈ db'.comments, stored.ID = comment.ID) ∧
    ∃ r : Revision, db'.revisions = db.revisions ++ [r] ∧
      r.Type_ = RevisionTypeUpdate ∧ r.CommentID = comment.ID ∧
      ∀ stored ∈ db'.comments, stored.ID = comment.ID →
        stored.Body = comment.Body ∧
        stored.Markup =
          (if comment.Markup = "" then SystemMarkupDefault else comment.Markup) ∧
        r.CommentBody = some stored.Body ∧ r.CommentMarkup = some stored.Markup := by
  obtain ⟨hc', -, hcs, hrev, -, -⟩ := save_ok h
  obtain ⟨x, hx, hxid⟩ := hstored
  have hid : c'.ID = comment.ID := by rw [hc']
  refine ⟨⟨c', ?_, hid⟩, _, hrev, by simp [newRevision], by simp [newRevision, hid], ?_⟩
  · rw [hcs, List.mem_map]
    exact ⟨x, hx, by rw [if_pos hxid]⟩
  · intro s hs hsid
    rw [hcs, List.mem_map] at hs
    obtain ⟨y, -, hy⟩ := hs
    by_cases hyc : y.ID = comment.ID
    · rw [if_pos hyc] at hy
      subst hy
      refine ⟨by rw [hc'], by rw [hc'], by simp [newRevision], by simp [newRevision]⟩
    · rw [if_neg hyc] at hy
      rw [hy] at hyc
      exact absurd hsid hyc


/-! ## Not-found semantics and error paths -/

/-- The lookup by id finds nothing when no stored record has the id. -/
theorem find_none_of_absent {cs : List Comment} {id : UUID}
    (h : ∀ x ∈ cs, x.ID ≠ id) : cs.find? (fun r => decide (r.ID = id)) = none := by
  rw [List.find?_eq_none]
  intro x hx
  simpa using h x hx

/-- C8, Save not-found. For every comment whose id matches no stored record, `Save`, its
lookup being answered by the store, fails with `NotFoundError` (not with an internal or
storage error), appends no revision entry and leaves every stored record unchanged. -/
theorem C8_save_not_found (SystemMarkupDefault : String) (db : DB) (comment : Comment)
    (modifierID : UUID)
    (habsent : ∀ x ∈ db.comments, x.ID ≠ comment.ID)
    (hserved : db.nextFault = none) :
    (GormCommentRepository.Save SystemMarkupDefault db comment modifierID).1 =
      some (Err.NotFoundError "comment" comment.ID) ∧
    (GormCommentRepository.Save SystemMarkupDefault db comment modifierID).2.2.revisions =
      db.revisions ∧
    (GormCommentRepository.Save SystemMarkupDefault db comment modifierID).2.2.comments =
      db.comments := by
  have hfind := find_none_of_absent habsent
  simp [GormCommentRepository.Save, DB.FirstComment, DB.exec, hserved, hfind,
    Tx.RecordNotFound]

/-- C9, Delete not-found. For every id that is the nil id or matches no stored record,
`Delete` fails with `NotFoundError` (whatever the storage layer answers, so never with an
internal or storage error) and appends no revision entry; for the nil id it makes no round
trip to the store and leaves the whole state as it was. -/
theorem C9_delete_not_found (db : DB) (commentID suppressorID : UUID)
    (habsent : commentID = uuidNil ∨ ∀ x ∈ db.comments, x.ID ≠ commentID) :
    (GormCommentRepository.Delete db commentID suppressorID).1 =
      some (Err.NotFoundError "comment" commentID) ∧
    (GormCommentRepository.Delete db commentID suppressorID).2.revisions = db.revisions ∧
    (commentID = uuidNil →
      (GormCommentRepository.Delete db commentID suppressorID).2 = db ∧
      db.since (GormCommentRepository.Delete db commentID suppressorID).2 = []) := by
  by_cases hnil : commentID = uuidNil
  · simp [GormCommentRepository.Delete, hnil, DB.since]
  · rcases habsent with h | h
    · exact absurd h hnil
    · have hfind := find_none_of_absent h
      obtain ⟨cs, rs, now, fs, tr⟩ := db
      simp only at hfind
      rcases fs with _ | ⟨_ | m1, _ | ⟨_ | m2, fs⟩⟩ <;>
        simp [GormCommentRepository.Delete, hnil, DB.FindComment, DB.exec, DB.nextFault,
          hfind, DB.DeleteComment, Comment.zero]

/-- C10 as stated fails: when the revision append meets a storage fault, `Create` returns
an error although the record has been inserted, so the table of comments has changed. -/
theorem C10_counterexample :
    (GormCommentRepository.Create "PlainText" scenarioFaulty scenarioDraft 1 42).1 =
      some (Err.StorageError "write failed") ∧
    scenarioFaulty.comments = [] ∧
    (GormCommentRepository.Create "PlainText" scenarioFaulty scenarioDraft 1 42).2.2.comments =
      [{ ID := 42, ParentID := "A", Body := "Body", Markup := "Markdown",
         CreatedAt := 5, UpdatedAt := 5 }] ∧
    (GormCommentRepository.Create "PlainText" scenarioFaulty scenarioDraft 1 42).2.2.comments ≠
      scenarioFaulty.comments := by
  decide

/-- C10 amended. For each of `Create`, `Save` and `Delete`, if the call returns an error
then the revision log has not changed. If `Create` or `Save` returns an error without
having attempted the revision append (the insert failed, the record was not found, the
lookup or the save failed), the table of comments has not changed either; and a `Delete`
of the nil id changes nothing at all. When the revision append of `Create` or `Save` was
attempted and failed, the record write made before it stays in place: the new record is
in the table, respectively the rows of the saved id hold the saved record. -/
theorem C10_error_leaves_log (D : String) (db db' : DB) (call : Call) (e : Err)
    (h : call.run D db = (some e, db')) :
    db'.revisions = db.revisions ∧
    ((∀ id a, call ≠ Call.delete id a) → Query.insertRevision ∉ db.since db' →
      db'.comments = db.comments) ∧
    (∀ a, call = Call.delete uuidNil a → db' = db) ∧
    (∀ c a g, call = Call.create c a g → Query.insertRevision ∈ db.since db' →
      ∃ stored : Comment, stored.ID = g ∧ db'.comments = db.comments ++ [stored]) ∧
    (∀ c m, call = Call.save c m → Query.insertRevision ∈ db.since db' →
      ∃ stored : Comment, stored.ID = c.ID ∧ stored.Body = c.Body ∧
        db'.comments = db.comments.map (fun r => if r.ID = c.ID then stored else r)) := by
  cases call with
  | create c a g =>
    have h1 : GormCommentRepository.Create D db c a g =
        (some e, (GormCommentRepository.Create D db c a g).2.1, db') := by
      simp only [Call.run, Prod.mk.injEq] at h
      exact Prod.ext h.1 (Prod.ext rfl h.2)
    obtain ⟨hrev, -, hcs, hkept⟩ := create_err h1
    refine ⟨hrev, fun _ => hcs, ?_, ?_, ?_⟩
    · intro a2 heq
      cases heq
    · intro c2 a2 g2 heq hin
      injection heq with _ _ hg
      subst hg
      exact ⟨_, (hkept hin).1, (hkept hin).2⟩
    · intro c2 m2 heq
      cases heq
  | save c m =>
    have h1 : GormCommentRepository.Save D db c m =
        (some e, (GormCommentRepository.Save D db c m).2.1, db') := by
      simp only [Call.run, Prod.mk.injEq] at h
      exact Prod.ext h.1 (Prod.ext rfl h.2)
    obtain ⟨hrev, -, hcs, hkept⟩ := save_err h1
    refine ⟨hrev, fun _ => hcs, ?_, ?_, ?_⟩
    · intro a2 heq
      cases heq
    · intro c2 a2 g2 heq
      cases heq
    · intro c2 m2 heq hin
      injection heq with hc _
      subst hc
      exact ⟨_, (hkept hin).1, (hkept hin).2.1, (hkept hin).2.2⟩
  | delete id a =>
    obtain ⟨hrev, -, hnil⟩ :=
      delete_err (show GormCommentRepository.Delete db id a = (some e, db') from h)
    refine ⟨hrev, fun hne => absurd rfl (hne id a), ?_, ?_, ?_⟩
    · intro a2 heq
      injection heq with h1 h2
      exact hnil h1
    · intro c2 a2 g2 heq
      cases heq
    · intro c2 m2 heq
      cases heq

/-! ## The theorems at the scenario of the test -/

/-- C1 at the scenario of the test (create, two updates, delete; four entries), and at a
run whose second update hands `Save` another parent: four entries again, with the parents
`A`, `A`, `B`, `B`. -/
theorem C1_history_completeness_witness :
    ((∀ r ∈ (DB.empty 5).revisions, r.CommentID ≠ 42) ∧
      GormCommentRepository.Create "PlainText" (DB.empty 5) scenarioDraft 1 42 =
        (none, scenarioCreated.2.1, scenarioCreated.2.2) ∧
      (∀ s ∈ scenarioSaves, s.2.1.ID = 42) ∧
      saveEach "PlainText" scenarioCreated.2.2 scenarioSaves = some scenarioSaved ∧
      GormCommentRepository.Delete (scenarioSaved.advance 1) 42 3 =
        (none, scenarioDeleted.2) ∧
      scenarioDeleted.2.nextFault = none ∧
      ∃ (first last : Revision) (updates : List Revision),
        (GormCommentRevisionRepository.List scenarioDeleted.2 42).1 =
          Except.ok (first :: updates ++ [last]) ∧
        (first :: updates ++ [last]).length = scenarioSaves.length + 2 ∧
        updates.length = scenarioSaves.length ∧
        first.Type_ = RevisionTypeCreate ∧
        (∀ u ∈ updates, u.Type_ = RevisionTypeUpdate) ∧
        last.Type_ = RevisionTypeDelete ∧
        (∀ r ∈ first :: updates ++ [last], r.CommentID = 42) ∧
        first.CommentParentID = scenarioDraft.ParentID ∧
        updates.map (fun u => u.CommentParentID) =
          scenarioSaves.map (fun s => s.2.1.ParentID) ∧
        last.CommentParentID =
          scenarioSaves.foldl (fun _ s => s.2.1.ParentID) scenarioDraft.ParentID ∧
        ((∀ s ∈ scenarioSaves, s.2.1.ParentID = scenarioDraft.ParentID) →
          ∀ r ∈ first :: updates ++ [last], r.CommentParentID = scenarioDraft.ParentID) ∧
        last.CommentBody = none ∧ last.CommentMarkup = none ∧
        (first :: updates ++ [last]).Sorted (fun a b => a.Time ≤ b.Time)) ∧
    ((∀ s ∈ scenarioMoves, s.2.1.ID = 42) ∧
      scenarioMoves.map (fun s => s.2.1.ParentID) = ["A", "B"] ∧
      saveEach "PlainText" scenarioCreated.2.2 scenarioMoves = some scenarioMoved ∧
      GormCommentRepository.Delete (scenarioMoved.advance 1) 42 3 =
        (none, scenarioMovedDeleted.2) ∧
      scenarioMovedDeleted.2.nextFault = none ∧
      scenarioMovedDeleted.2.revisions.map (fun r => (r.Type_, r.CommentParentID)) =
        [(RevisionTypeCreate, "A"), (RevisionTypeUpdate, "A"), (RevisionTypeUpdate, "B"),
         (RevisionTypeDelete, "B")] ∧
      ∃ (first last : Revision) (updates : List Revision),
        (GormCommentRevisionRepository.List scenarioMovedDeleted.2 42).1 =
          Except.ok (first :: updates ++ [last]) ∧
        (first :: updates ++ [last]).length = scenarioMoves.length + 2 ∧
        updates.length = scenarioMoves.length ∧
        first.Type_ = RevisionTypeCreate ∧
        (∀ u ∈ updates, u.Type_ = RevisionTypeUpdate) ∧
        last.Type_ = RevisionTypeDelete ∧
        (∀ r ∈ first :: updates ++ [last], r.CommentID = 42) ∧
        first.CommentParentID = scenarioDraft.ParentID ∧
        updates.map (fun u => u.CommentParentID) =
          scenarioMoves.map (fun s => s.2.1.ParentID) ∧
        last.CommentParentID =
          scenarioMoves.foldl (fun _ s => s.2.1.ParentID) scenarioDraft.ParentID ∧
        ((∀ s ∈ scenarioMoves, s.2.1.ParentID = scenarioDraft.ParentID) →
          ∀ r ∈ first :: updates ++ [last], r.CommentParentID = scenarioDraft.ParentID) ∧
        last.CommentBody = none ∧ last.CommentMarkup = none ∧
        (first :: updates ++ [last]).Sorted (fun a b => a.Time ≤ b.Time)) :=
  ⟨⟨by decide, by decide, by decide, by decide, by decide, by decide,
      C1_history_completeness "PlainText" (DB.empty 5) scenarioCreated.2.2 scenarioSaved
        scenarioDeleted.2 scenarioDraft scenarioCreated.2.1 1 42 3 scenarioSaves 1
        (by decide) (by decide) (by decide) (by decide) (by decide) (by decide)⟩,
    ⟨by decide, by decide, by decide, by decide, by decide, by decide,
      C1_history_completeness "PlainText" (DB.empty 5) scenarioCreated.2.2 scenarioMoved
        scenarioMovedDeleted.2 scenarioDraft scenarioCreated.2.1 1 42 3 scenarioMoves 1
        (by decide) (by decide) (by decide) (by decide) (by decide) (by decide)⟩⟩

/-- C2 at the last step of the scenario. -/
theorem C2_tombstone_witness :
    GormCommentRepository.Delete (scenarioSaved.advance 1) 42 3 = (none, scenarioDeleted.2) ∧
    ∃ (deleted : Comment) (r : Revision),
      (scenarioSaved.advance 1).comments.find? (fun x => decide (x.ID = 42)) = some deleted ∧
      deleted ∈ (scenarioSaved.advance 1).comments ∧ deleted.ID = 42 ∧
      scenarioDeleted.2.revisions = (scenarioSaved.advance 1).revisions ++ [r] ∧
      r.Type_ = RevisionTypeDelete ∧
      r.CommentID = deleted.ID ∧ r.CommentParentID = deleted.ParentID ∧
      r.CommentBody = none ∧ r.CommentMarkup = none :=
  ⟨by decide, C2_tombstone (scenarioSaved.advance 1) scenarioDeleted.2 42 3 (by decide)⟩

/-- C3 at the last step of the scenario: the delete entry names actor `3`. -/
theorem C3_actor_attribution_witness :
    (Call.delete 42 3).run "PlainText" (scenarioSaved.advance 1) = (none, scenarioDeleted.2) ∧
    ∃ r : Revision, scenarioDeleted.2.revisions = (scenarioSaved.advance 1).revisions ++ [r] ∧
      r.ModifierIdentity = (Call.delete 42 3).actor :=
  ⟨by decide,
    C3_actor_attribution "PlainText" (scenarioSaved.advance 1) scenarioDeleted.2
      (Call.delete 42 3) (by decide)⟩

/-- C4 at the first step of the scenario. -/
theorem C4_one_revision_appended_witness :
    (Call.create scenarioDraft 1 42).run "PlainText" (DB.empty 5) =
      (none, scenarioCreated.2.2) ∧
    (∃ r : Revision, scenarioCreated.2.2.revisions = (DB.empty 5).revisions ++ [r]) ∧
    scenarioCreated.2.2.revisions.length = (DB.empty 5).revisions.length + 1 ∧
    scenarioCreated.2.2.revisions.take (DB.empty 5).revisions.length =
      (DB.empty 5).revisions ∧
    ∀ i, i < (DB.empty 5).revisions.length →
      scenarioCreated.2.2.revisions[i]? = (DB.empty 5).revisions[i]? :=
  ⟨by decide,
    C4_one_revision_appended "PlainText" (DB.empty 5) scenarioCreated.2.2
      (Call.create scenarioDraft 1 42) (by decide)⟩

/-- C5 at a draft and at a patch with empty markup. -/
theorem C5_default_markup_witness :
    ({ scenarioDraft with Markup := "" } : Comment).Markup = "" ∧
    (∃ (c' stored : Comment) (db' : DB) (r : Revision),
      GormCommentRepository.Create "PlainText" (DB.empty 5)
        { scenarioDraft with Markup := "" } 1 42 = (none, c', db') ∧
      db'.comments = (DB.empty 5).comments ++ [stored] ∧ stored.ID = 42 ∧
      stored.Markup = "PlainText" ∧
      db'.revisions = (DB.empty 5).revisions ++ [r] ∧ r.CommentID = 42 ∧
      r.CommentMarkup = some "PlainText") ∧
    ({ scenarioCreated.2.1 with Markup := "" } : Comment).Markup = "" ∧
    (∃ (c' : Comment) (db' : DB),
      GormCommentRepository.Save "PlainText" scenarioCreated.2.2
        { scenarioCreated.2.1 with Markup := "" } 2 = (none, c', db') ∧
      (∃ stored ∈ db'.comments, stored.ID = 42) ∧
      (∀ stored ∈ db'.comments, stored.ID = 42 → stored.Markup = "PlainText") ∧
      ∃ r : Revision, db'.revisions = scenarioCreated.2.2.revisions ++ [r] ∧
        r.CommentID = 42 ∧ r.CommentMarkup = some "PlainText") := by
  refine ⟨rfl, ?_, rfl, ?_⟩
  · obtain ⟨stored, r, h⟩ :=
      (C5_default_markup "PlainText" (DB.empty 5) _ { scenarioDraft with Markup := "" } _ 1 42
        rfl).1 (Prod.ext rfl (Prod.ext rfl rfl))
    exact ⟨_, stored, _, r, Prod.ext rfl (Prod.ext rfl rfl), h⟩
  · have h :=
      (C5_default_markup "PlainText" scenarioCreated.2.2 _
        { scenarioCreated.2.1 with Markup := "" } _ 2 42 rfl).2
        (Prod.ext (by decide) (Prod.ext rfl rfl))
    exact ⟨_, _, Prod.ext (by decide) (Prod.ext rfl rfl), h⟩

/-- C6 at the first step of the scenario: the supplied id `7` is replaced by `42`. -/
theorem C6_create_witness :
    GormCommentRepository.Create "PlainText" (DB.empty 5) scenarioDraft 1 42 =
      (none, scenarioCreated.2.1, scenarioCreated.2.2) ∧
    scenarioCreated.2.1.ID = 42 ∧
    (∀ supplied : UUID,
      GormCommentRepository.Create "PlainText" (DB.empty 5)
        { scenarioDraft with ID := supplied } 1 42 =
        (none, scenarioCreated.2.1, scenarioCreated.2.2)) ∧
    (∀ x ∈ (DB.empty 5).comments, x.ID ≠ 42) ∧
    scenarioCreated.2.2.comments = (DB.empty 5).comments ++ [scenarioCreated.2.1] ∧
    scenarioCreated.2.1.ParentID = scenarioDraft.ParentID ∧
    scenarioCreated.2.1.Body = scenarioDraft.Body ∧
    ∃ r : Revision, scenarioCreated.2.2.revisions = (DB.empty 5).revisions ++ [r] ∧
      r.Type_ = RevisionTypeCreate ∧
      r.CommentID = scenarioCreated.2.1.ID ∧
      r.CommentParentID = scenarioCreated.2.1.ParentID ∧
      r.CommentBody = some scenarioCreated.2.1.Body ∧
      r.CommentMarkup = some scenarioCreated.2.1.Markup :=
  ⟨by decide,
    C6_create "PlainText" (DB.empty 5) scenarioCreated.2.2 scenarioDraft scenarioCreated.2.1
      1 42 (by decide)⟩

/-- C7 at the first update of the scenario. -/
theorem C7_save_existing_witness :
    (∃ x ∈ (scenarioCreated.2.2.advance 1).comments, x.ID = 42) ∧
    (∃ (c' : Comment) (db' : DB),
      GormCommentRepository.Save "PlainText" (scenarioCreated.2.2.advance 1)
        { scenarioCreated.2.1 with Body := "Updated body", Markup := "PlainText" } 2 =
        (none, c', db') ∧
      (∃ stored ∈ db'.comments, stored.ID = 42) ∧
      ∃ r : Revision, db'.revisions = (scenarioCreated.2.2.advance 1).revisions ++ [r] ∧
        r.Type_ = RevisionTypeUpdate ∧ r.CommentID = 42 ∧
        ∀ stored ∈ db'.comments, stored.ID = 42 →
          stored.Body = "Updated body" ∧
          stored.Markup = (if "PlainText" = "" then "PlainText" else "PlainText") ∧
          r.CommentBody = some stored.Body ∧ r.CommentMarkup = some stored.Markup) :=
  ⟨by decide, _, _, Prod.ext (by decide) (Prod.ext rfl rfl),
    C7_save_existing "PlainText" (scenarioCreated.2.2.advance 1) _
      { scenarioCreated.2.1 with Body := "Updated body", Markup := "PlainText" } _ 2
      (by decide) (Prod.ext (by decide) (Prod.ext rfl rfl))⟩

/-- C8 at the empty store: no record has the id `7` of the comment. -/
theorem C8_save_not_found_witness :
    (∀ x ∈ (DB.empty 5).comments, x.ID ≠ scenarioDraft.ID) ∧
    (DB.empty 5).nextFault = none ∧
    (GormCommentRepository.Save "PlainText" (DB.empty 5) scenarioDraft 2).1 =
      some (Err.NotFoundError "comment" scenarioDraft.ID) ∧
    (GormCommentRepository.Save "PlainText" (DB.empty 5) scenarioDraft 2).2.2.revisions =
      (DB.empty 5).revisions ∧
    (GormCommentRepository.Save "PlainText" (DB.empty 5) scenarioDraft 2).2.2.comments =
      (DB.empty 5).comments :=
  ⟨by decide, by decide,
    C8_save_not_found "PlainText" (DB.empty 5) scenarioDraft 2 (by decide) (by decide)⟩

/-- C9 at the store of the scenario after `Create`, for the unknown id `43`. -/
theorem C9_delete_not_found_witness :
    ((43 : UUID) = uuidNil ∨ ∀ x ∈ scenarioCreated.2.2.comments, x.ID ≠ 43) ∧
    (GormCommentRepository.Delete scenarioCreated.2.2 43 3).1 =
      some (Err.NotFoundError "comment" 43) ∧
    (GormCommentRepository.Delete scenarioCreated.2.2 43 3).2.revisions =
      scenarioCreated.2.2.revisions ∧
    ((43 : UUID) = uuidNil →
      (GormCommentRepository.Delete scenarioCreated.2.2 43 3).2 = scenarioCreated.2.2 ∧
      scenarioCreated.2.2.since (GormCommentRepository.Delete scenarioCreated.2.2 43 3).2 =
        []) :=
  ⟨by decide, C9_delete_not_found scenarioCreated.2.2 43 3 (by decide)⟩

/-- C10 amended, at the `Create` of the scenario whose revision append meets a storage
fault: the error is returned, the log is as before, the new record is in the table. -/
theorem C10_error_leaves_log_witness :
    (Call.create scenarioDraft 1 42).run "PlainText" scenarioFaulty =
      (some (Err.StorageError "write failed"),
        (GormCommentRepository.Create "PlainText" scenarioFaulty scenarioDraft 1 42).2.2) ∧
    (GormCommentRepository.Create "PlainText" scenarioFaulty scenarioDraft 1 42).2.2.revisions =
      scenarioFaulty.revisions ∧
    Query.insertRevision ∈ scenarioFaulty.since
      (GormCommentRepository.Create "PlainText" scenarioFaulty scenarioDraft 1 42).2.2 ∧
    ∃ stored : Comment, stored.ID = 42 ∧
      (GormCommentRepository.Create "PlainText" scenarioFaulty scenarioDraft 1 42).2.2.comments =
        scenarioFaulty.comments ++ [stored] :=
  ⟨by decide,
    (C10_error_leaves_log "PlainText" scenarioFaulty
      (GormCommentRepository.Create "PlainText" scenarioFaulty scenarioDraft 1 42).2.2
      (Call.create scenarioDraft 1 42) (Err.StorageError "write failed") (by decide)).1,
    by decide,
    (C10_error_leaves_log "PlainText" scenarioFaulty
      (GormCommentRepository.Create "PlainText" scenarioFaulty scenarioDraft 1 42).2.2
      (Call.create scenarioDraft 1 42) (Err.StorageError "write failed")
      (by decide)).2.2.2.1 scenarioDraft 1 42 rfl (by decide)⟩

/-! ## The windowed list -/

/-- The loop over the rows: the result collects every row, the flag tells whether there was
no row, the count is taken from the first row. -/
theorem scanRows_eq : ∀ (rows : List (Nat × Comment)) (first : Bool) (count : Nat)
    (result : List Comment),
    scanRows rows first count result =
      (first && rows.isEmpty,
       if first then (rows.head?.map Prod.fst).getD count else count,
       result ++ rows.map Prod.snd) := by
  intro rows
  induction rows with
  | nil => intro first count result; cases first <;> simp [scanRows]
  | cons row rows ih =>
    intro first count result
    obtain ⟨cnt2, value⟩ := row
    cases first <;> simp [scanRows, ih]

/-- The rows of the windowed query when the store answers it: the window of the rows of
the parent, newest first, each with the number of rows of the parent. -/
theorem rowsWindow_served (db : DB) (s : Search) (hserved : db.nextFault = none)
    (ho : ∀ o ∈ s.offset, (0 : Int) ≤ o) (hl : ∀ l ∈ s.limit, (0 : Int) ≤ l) :
    db.RowsWindow s =
      (none,
       (window ((db.matching s.parent).insertionSort newestFirst) (s.offset.getD 0).toNat
          (s.limit.map Int.toNat)).map (fun r => ((db.matching s.parent).length, r)),
       (db.exec Query.selectWindow).2) := by
  obtain ⟨parent, offset, limit⟩ := s
  rcases offset with _ | o <;> rcases limit with _ | l <;>
    simp at ho hl <;>
    simp [DB.RowsWindow, DB.exec, hserved, DB.matching, window, ho, hl]

/-- The count-only query when the store answers it. -/
theorem countComments_served (db : DB) (s : Search) (hserved : db.nextFault = none) :
    db.CountComments s =
      (none, (db.matching s.parent).length, (db.exec Query.countComments).2) := by
  simp [DB.CountComments, DB.exec, hserved, DB.matching]

/-- The parameters that pass the two checks of `List` are the valid ones, and the query
then carries them as offset and limit. -/
theorem list_checks (parent : String) (start limit : Option Int) :
    validPage start limit →
    (match start with
      | some s =>
        if s < 0 then Except.error (Err.BadParameterError "start" s)
        else Except.ok (Search.Offset { parent := parent, offset := none, limit := none } s)
      | none => Except.ok { parent := parent, offset := none, limit := none }) =
      (Except.ok { parent := parent, offset := start, limit := none } : Except Err Search) ∧
    (match limit with
      | some l =>
        if l ≤ 0 then Except.error (Err.BadParameterError "limit" l)
        else Except.ok (Search.Limit { parent := parent, offset := start, limit := none } l)
      | none => Except.ok { parent := parent, offset := start, limit := none }) =
      (Except.ok { parent := parent, offset := start, limit := limit } : Except Err Search) := by
  intro hvalid
  obtain ⟨hs, hl⟩ := hvalid
  constructor
  · rcases start with _ | s
    · rfl
    · have : ¬ s < 0 := Int.not_lt.2 (hs s rfl)
      simp [this, Search.Offset]
  · rcases limit with _ | l
    · rfl
    · have : ¬ l ≤ 0 := Int.not_le.2 (hl l rfl)
      simp [this, Search.Limit]

/-- With valid parameters and the round trips served, `List` returns the window of the
rows of the parent in the order of the query, and their number. -/
theorem list_valid (db : DB) (parent : String) (start limit : Option Int)
    (hvalid : validPage start limit) (hserved : db.served 2) :
    (GormCommentRepository.List db parent start limit).1 =
      (some (window ((db.matching parent).insertionSort newestFirst)
        (start.getD 0).toNat (limit.map Int.toNat)),
       (db.matching parent).length, none) := by
  obtain ⟨hc1, hc2⟩ := list_checks parent start limit hvalid
  have h1 : db.nextFault = none := by
    obtain ⟨cs, rs, now, fs, tr⟩ := db
    rcases fs with _ | ⟨f, fs⟩ <;> simp_all [DB.served, DB.nextFault]
  have h2 : (db.exec Query.selectWindow).2.nextFault = none := by
    obtain ⟨cs, rs, now, fs, tr⟩ := db
    rcases fs with _ | ⟨f, _ | ⟨f2, fs⟩⟩ <;> simp_all [DB.served, DB.nextFault, DB.exec]
  have hrows := rowsWindow_served db { parent := parent, offset := start, limit := limit } h1
    (fun o ho => hvalid.1 o ho) (fun l hl => Int.le_of_lt (hvalid.2 l hl))
  have hcount := countComments_served (db.exec Query.selectWindow).2
    { parent := parent, offset := none, limit := none } h2
  have hm : (db.exec Query.selectWindow).2.matching parent = db.matching parent := rfl
  simp only [GormCommentRepository.List, hc1, hc2, hrows, scanRows_eq, hcount, hm]
  cases hW : window ((db.matching parent).insertionSort newestFirst) (start.getD 0).toNat
      (limit.map Int.toNat) with
  | nil => simp
  | cons c W => simp


/-- A parameter that fails a check of `List` ends the call at once: no page, count `0`, a
`BadParameterError`, and the store untouched. -/
theorem list_invalid (db : DB) (parent : String) (start limit : Option Int)
    (hinvalid : ¬ validPage start limit) :
    ∃ (param : String) (value : Int),
      GormCommentRepository.List db parent start limit =
        ((none, 0, some (Err.BadParameterError param value)), db) ∧
      ((param = "start" ∧ start = some value ∧ value < 0) ∨
        (param = "limit" ∧ limit = some value ∧ value ≤ 0 ∧ ∀ s ∈ start, (0 : Int) ≤ s)) := by
  rcases start with _ | s
  · rcases limit with _ | l
    · exact absurd (by simp [validPage]) hinvalid
    · have hl : l ≤ 0 := by
        by_contra hcon
        exact hinvalid (by simpa [validPage] using Int.not_le.1 hcon)
      exact ⟨"limit", l, by simp [GormCommentRepository.List, hl], Or.inr ⟨rfl, rfl, hl, by simp⟩⟩
  · by_cases hs : s < 0
    · exact ⟨"start", s, by simp [GormCommentRepository.List, hs], Or.inl ⟨rfl, rfl, hs⟩⟩
    · have hs0 : 0 ≤ s := Int.not_lt.1 hs
      rcases limit with _ | l
      · exact absurd (by simpa [validPage] using hs0) hinvalid
      · have hl : l ≤ 0 := by
          by_contra hcon
          exact hinvalid (by simpa [validPage] using ⟨hs0, Int.not_le.1 hcon⟩)
        exact ⟨"limit", l, by simp [GormCommentRepository.List, hs, hl],
          Or.inr ⟨rfl, rfl, hl, by simpa using hs0⟩⟩

/-- C16, invalid pagination rejected. Absent storage faults, `List` fails with
`BadParameterError` if and only if an offset is provided and is negative or a limit is
provided and is zero or negative (the parameters are not valid); in that case, whatever the
storage layer would answer, it returns no page and a count of `0` and makes no round trip
to the store, which is left as it was. -/
theorem C16_invalid_pagination (db : DB) (parent : String) (start limit : Option Int) :
    (db.served 2 →
      ((∃ param value, (GormCommentRepository.List db parent start limit).1.2.2 =
          some (Err.BadParameterError param value)) ↔
        ((∃ s, start = some s ∧ s < 0) ∨ (∃ l, limit = some l ∧ l ≤ 0)))) ∧
    (((∃ s, start = some s ∧ s < 0) ∨ (∃ l, limit = some l ∧ l ≤ 0)) →
      (∃ param value, (GormCommentRepository.List db parent start limit).1 =
          (none, 0, some (Err.BadParameterError param value))) ∧
      (GormCommentRepository.List db parent start limit).2 = db ∧
      db.since (GormCommentRepository.List db parent start limit).2 = []) := by
  have hiff : ((∃ s, start = some s ∧ s < 0) ∨ (∃ l, limit = some l ∧ l ≤ 0)) ↔
      ¬ validPage start limit := by
    rcases start with _ | s <;> rcases limit with _ | l <;> simp [validPage]
    omega
  constructor
  · intro hserved
    rw [hiff]
    constructor
    · rintro ⟨param, value, herr⟩ hvalid
      rw [list_valid db parent start limit hvalid hserved] at herr
      cases herr
    · intro hinvalid
      obtain ⟨param, value, hrun, -⟩ := list_invalid db parent start limit hinvalid
      exact ⟨param, value, by rw [hrun]⟩
  · intro h
    obtain ⟨param, value, hrun, -⟩ := list_invalid db parent start limit (hiff.1 h)
    refine ⟨⟨param, value, by rw [hrun]⟩, by rw [hrun], ?_⟩
    rw [hrun]
    simp [DB.since]


/-- C17, windowed page. For every parent, every offset that is not negative (`0` when
absent) and every limit that is positive (unbounded when absent), the round trips being
served, the page returned by `List` is the window of a sequence `full` that holds exactly
the stored records of the parent (a permutation of them) ordered by `created_at`
descending, newest first: the first offset records of `full` dropped, then at most limit
records taken. -/
theorem C17_windowed_page (db : DB) (parent : String) (start limit : Option Int)
    (hvalid : validPage start limit) (hserved : db.served 2) :
    ∃ full : List Comment,
      full.Perm (db.comments.filter (fun r => decide (r.ParentID = parent))) ∧
      full.Sorted (fun a b => b.CreatedAt ≤ a.CreatedAt) ∧
      (GormCommentRepository.List db parent start limit).1.1 =
        some (window full (start.getD 0).toNat (limit.map Int.toNat)) ∧
      (GormCommentRepository.List db parent start limit).1.2.2 = none := by
  refine ⟨(db.matching parent).insertionSort newestFirst, ?_, ?_, ?_, ?_⟩
  · exact List.perm_insertionSort newestFirst (db.matching parent)
  · exact List.sorted_insertionSort newestFirst (db.matching parent)
  · rw [list_valid db parent start limit hvalid hserved]
  · rw [list_valid db parent start limit hvalid hserved]

/-- C18, exact total count. For every parent and every valid offset and limit, the round
trips being served, the total count returned by `List` is the number of stored records of
the parent; so it is the same for every other valid offset and limit on the same store,
whether the page is empty or not. -/
theorem C18_exact_total_count (db : DB) (parent : String) (start limit : Option Int)
    (hvalid : validPage start limit) (hserved : db.served 2) :
    (GormCommentRepository.List db parent start limit).1.2.1 =
      (db.comments.filter (fun r => decide (r.ParentID = parent))).length ∧
    ∀ start2 limit2 : Option Int, validPage start2 limit2 →
      (GormCommentRepository.List db parent start2 limit2).1.2.1 =
        (GormCommentRepository.List db parent start limit).1.2.1 := by
  constructor
  · rw [list_valid db parent start limit hvalid hserved]
    rfl
  · intro start2 limit2 hvalid2
    rw [list_valid db parent start limit hvalid hserved,
      list_valid db parent start2 limit2 hvalid2 hserved]

/-- C19, offset past the end. For every parent with `T` stored records and every offset
`T` or more (with any valid limit, the round trips being served), `List` returns an empty
page and the total count `T`, without error. -/
theorem C19_offset_past_end (db : DB) (parent : String) (offset : Int) (limit : Option Int)
    (hvalid : validPage (some offset) limit) (hserved : db.served 2)
    (hpast : ((db.comments.filter (fun r => decide (r.ParentID = parent))).length : Int) ≤
      offset) :
    (GormCommentRepository.List db parent (some offset) limit).1 =
      (some [], (db.comments.filter (fun r => decide (r.ParentID = parent))).length, none) := by
  rw [list_valid db parent (some offset) limit hvalid hserved]
  have hlen : ((db.matching parent).insertionSort newestFirst).length ≤ offset.toNat := by
    rw [List.length_insertionSort]
    have : (db.matching parent).length =
        (db.comments.filter (fun r => decide (r.ParentID = parent))).length := rfl
    omega
  have hdrop : ((db.matching parent).insertionSort newestFirst).drop offset.toNat = [] :=
    List.drop_eq_nil_of_le hlen
  have hwin : window ((db.matching parent).insertionSort newestFirst)
      ((some offset).getD 0).toNat (limit.map Int.toNat) = [] := by
    rcases limit with _ | l <;> simp [window, hdrop]
  rw [hwin]
  rfl

/-- C20, page size bound. For every parent, every offset that is not negative (or absent)
and every positive limit, the round trips being served, the page returned by `List` has
at most limit records and at most as many as the total count that is returned with it. -/
theorem C20_page_size_bound (db : DB) (parent : String) (start : Option Int) (limit : Int)
    (hvalid : validPage start (some limit)) (hserved : db.served 2) :
    ∃ page : List Comment,
      (GormCommentRepository.List db parent start (some limit)).1.1 = some page ∧
      (page.length : Int) ≤ limit ∧
      page.length ≤ (GormCommentRepository.List db parent start (some limit)).1.2.1 := by
  rw [list_valid db parent start (some limit) hvalid hserved]
  refine ⟨_, rfl, ?_, ?_⟩
  · have hl : 0 < limit := hvalid.2 limit rfl
    simp only [window, Option.map_some', List.length_take]
    omega
  · simp only [window, Option.map_some', List.length_take, List.length_drop,
      List.length_insertionSort]
    omega


/-! ## Failures of the storage layer -/

/-- C11 fails on `Delete`: the store holds the record `42`; the lookup is served, the
`DELETE` statement meets a storage fault, the revision append is served. `Delete` returns
success and appends a `delete` revision although the record is still stored. -/
theorem C11_delete_fault_unreported :
    (GormCommentRepository.Delete scenarioDeleteFaulty 42 3).1 = none ∧
    (GormCommentRepository.Delete scenarioDeleteFaulty 42 3).2.comments =
      scenarioDeleteFaulty.comments ∧
    scenarioDeleteFaulty.comments =
      [{ ID := 42, ParentID := "A", Body := "Body", Markup := "Markdown", CreatedAt := 5,
         UpdatedAt := 5 }] ∧
    (GormCommentRepository.Delete scenarioDeleteFaulty 42 3).2.revisions =
      scenarioDeleteFaulty.revisions ++
        [{ ID := 2, Time := 5, Type_ := RevisionTypeDelete, ModifierIdentity := 3,
           CommentID := 42, CommentParentID := "A", CommentBody := none,
           CommentMarkup := none }] := by
  decide

/-- C12, Create failure produces no revision. If the record insert performed by `Create`
fails (the statement meets a storage fault, or the key exists), `Create` returns an error,
the one of the insert, no revision entry is appended (the append is not even attempted)
and the table of comments is as before. -/
theorem C12_create_failure_no_revision (SystemMarkupDefault : String) (db : DB)
    (draft : Comment) (creatorID newV4 : UUID) (err : GormError)
    (hfail : (db.CreateComment
        { draft with
          ID := newV4
          Markup := if draft.Markup = "" then SystemMarkupDefault else draft.Markup }).1.Error =
      some err) :
    (GormCommentRepository.Create SystemMarkupDefault db draft creatorID newV4).1 =
      some (Err.StorageError err.Error) ∧
    (GormCommentRepository.Create SystemMarkupDefault db draft creatorID newV4).2.2.revisions =
      db.revisions ∧
    db.since (GormCommentRepository.Create SystemMarkupDefault db draft creatorID newV4).2.2 =
      [Query.insertComment] ∧
    (GormCommentRepository.Create SystemMarkupDefault db draft creatorID newV4).2.2.comments =
      db.comments := by
  obtain ⟨cs, rs, now, fs, tr⟩ := db
  by_cases hdup : (cs.find? (fun r => decide (r.ID = newV4))).isSome
  · rcases fs with _ | ⟨_ | m1, fs⟩
    all_goals
      simp [DB.CreateComment, DB.exec, DB.nextFault, DB.insertCommentRow, hdup] at hfail
      subst hfail
      simp [GormCommentRepository.Create, DB.CreateComment, DB.exec, DB.nextFault,
        DB.insertCommentRow, hdup, DB.since, GormError.Error]
  · rcases fs with _ | ⟨_ | m1, fs⟩
    all_goals
      simp [DB.CreateComment, DB.exec, DB.nextFault, DB.insertCommentRow, hdup] at hfail
    subst hfail
    simp [GormCommentRepository.Create, DB.CreateComment, DB.exec, DB.nextFault,
      DB.insertCommentRow, hdup, DB.since, GormError.Error]

/-- In `Save`, a storage fault of the lookup or of the write is returned as
`InternalError` with the message of the fault. -/
theorem save_fault_internal (D : String) (db : DB) (c : Comment) (m : UUID) (msg : String) :
    (db.nextFault = some msg →
      (GormCommentRepository.Save D db c m).1 = some (Err.InternalError msg)) ∧
    (db.nextFault = none → (∃ x ∈ db.comments, x.ID = c.ID) →
      (db.exec Query.firstComment).2.nextFault = some msg →
      (GormCommentRepository.Save D db c m).1 = some (Err.InternalError msg)) := by
  obtain ⟨cs, rs, now, fs, tr⟩ := db
  constructor
  · intro h
    rcases fs with _ | ⟨_ | m1, fs⟩ <;> simp [DB.nextFault] at h
    subst h
    simp [GormCommentRepository.Save, DB.FirstComment, DB.exec, DB.nextFault,
      Tx.RecordNotFound, GormError.Error]
  · intro h1 hstored h2
    obtain ⟨x, hfind⟩ := Option.isSome_iff_exists.1 ((find_isSome_iff cs c.ID).2 hstored)
    rcases fs with _ | ⟨_ | m1, _ | ⟨_ | m2, fs⟩⟩ <;>
      simp [DB.nextFault, DB.exec] at h1 h2
    subst h2
    simp [GormCommentRepository.Save, DB.FirstComment, DB.exec, DB.nextFault, hfind,
      Tx.RecordNotFound, DB.SaveComment, GormError.Error]

/-- C13 fails on `Delete`: the store holds the record `42` and the lookup meets a storage
fault. `Delete` returns `NotFoundError`, not `InternalError` (and the `DELETE` it has sent
with the zero-valued comment has emptied the table). -/
theorem C13_delete_lookup_fault_not_found :
    (∃ x ∈ scenarioLookupFaulty.comments, x.ID = 42) ∧
    scenarioLookupFaulty.nextFault = some "connection lost" ∧
    (GormCommentRepository.Delete scenarioLookupFaulty 42 3).1 =
      some (Err.NotFoundError "comment" 42) ∧
    (GormCommentRepository.Delete scenarioLookupFaulty 42 3).2.comments = [] := by
  decide

/-- In `Delete`, whenever the lookup meets a storage fault the returned error is
`NotFoundError`: the test of `tx.Error` that would return `InternalError` comes after the
test `tx.RowsAffected == 0`, which a failed lookup always satisfies. -/
theorem delete_lookup_fault_not_found (db : DB) (id a : UUID) (msg : String)
    (hfault : db.nextFault = some msg) (hid : id ≠ uuidNil) :
    (GormCommentRepository.Delete db id a).1 = some (Err.NotFoundError "comment" id) := by
  obtain ⟨cs, rs, now, fs, tr⟩ := db
  rcases fs with _ | ⟨_ | m1, fs⟩ <;> simp [DB.nextFault] at hfault
  subst hfault
  rcases fs with _ | ⟨_ | m2, fs⟩ <;>
    simp [GormCommentRepository.Delete, hid, DB.FindComment, DB.exec, DB.nextFault,
      DB.DeleteComment, Comment.zero]

/-- C14 fails on `Count`: the store holds one record of the parent `A` and the count query
meets a storage fault. `Count` returns the count `0` and no error. -/
theorem C14_count_swallows_fault :
    scenarioLookupFaulty.nextFault = some "connection lost" ∧
    (scenarioLookupFaulty.matching "A").length = 1 ∧
    (GormCommentRepository.Count scenarioLookupFaulty "A").1 = (0, none) := by
  decide

/-- The error returned by `Count` is `nil` on every store, whatever the storage layer
answers. -/
theorem count_never_fails (db : DB) (parent : String) :
    (GormCommentRepository.Count db parent).1.2 = none := by
  simp only [GormCommentRepository.Count]

/-- C15, Load. The lookup being answered by the store: `Load` fails with `NotFoundError`
when no stored record has the id, and otherwise returns the stored record with the id. In
both cases, and whatever the storage layer answers, it leaves the stored records and the
revision log unchanged. -/
theorem C15_load (db : DB) (id : UUID) :
    (db.nextFault = none →
      ((∀ x ∈ db.comments, x.ID ≠ id) →
        (GormCommentRepository.Load db id).1 =
          (none, some (Err.NotFoundError "comment" id))) ∧
      ((∃ x ∈ db.comments, x.ID = id) →
        ∃ obj ∈ db.comments, obj.ID = id ∧
          db.comments.find? (fun r => decide (r.ID = id)) = some obj ∧
          (GormCommentRepository.Load db id).1 = (some obj, none))) ∧
    (GormCommentRepository.Load db id).2.comments = db.comments ∧
    (GormCommentRepository.Load db id).2.revisions = db.revisions := by
  obtain ⟨cs, rs, now, fs, tr⟩ := db
  refine ⟨?_, ?_, ?_⟩
  · intro hserved
    constructor
    · intro habsent
      have hfind := find_none_of_absent habsent
      simp only at hfind
      simp [GormCommentRepository.Load, DB.FirstComment, DB.exec, hserved, hfind,
        Tx.RecordNotFound]
    · intro hstored
      obtain ⟨x, hfind⟩ := Option.isSome_iff_exists.1 ((find_isSome_iff cs id).2 hstored)
      have hx : x.ID = id := by simpa using List.find?_some hfind
      refine ⟨x, List.mem_of_find?_eq_some hfind, hx, hfind, ?_⟩
      simp [GormCommentRepository.Load, DB.FirstComment, DB.exec, hserved, hfind,
        Tx.RecordNotFound]
  · cases hfind : cs.find? (fun r => decide (r.ID = id)) <;>
      rcases fs with _ | ⟨_ | m1, fs⟩ <;>
      simp [GormCommentRepository.Load, DB.FirstComment, DB.exec, DB.nextFault, hfind,
        Tx.RecordNotFound]
  · cases hfind : cs.find? (fun r => decide (r.ID = id)) <;>
      rcases fs with _ | ⟨_ | m1, fs⟩ <;>
      simp [GormCommentRepository.Load, DB.FirstComment, DB.exec, DB.nextFault, hfind,
        Tx.RecordNotFound]


/-! ## The theorems at the scenarios of faults and of the listing -/

/-- C12 at the empty store, the insert meeting a storage fault. -/
theorem C12_create_failure_no_revision_witness :
    (({ DB.empty 5 with faults := [some "write failed"] } : DB).CreateComment
        { scenarioDraft with
          ID := 42
          Markup := if scenarioDraft.Markup = "" then "PlainText"
            else scenarioDraft.Markup }).1.Error = some (GormError.Fault "write failed") ∧
    (GormCommentRepository.Create "PlainText"
        { DB.empty 5 with faults := [some "write failed"] } scenarioDraft 1 42).1 =
      some (Err.StorageError (GormError.Fault "write failed").Error) ∧
    (GormCommentRepository.Create "PlainText"
        { DB.empty 5 with faults := [some "write failed"] } scenarioDraft 1 42).2.2.revisions =
      ({ DB.empty 5 with faults := [some "write failed"] } : DB).revisions ∧
    ({ DB.empty 5 with faults := [some "write failed"] } : DB).since
        (GormCommentRepository.Create "PlainText"
          { DB.empty 5 with faults := [some "write failed"] } scenarioDraft 1 42).2.2 =
      [Query.insertComment] ∧
    (GormCommentRepository.Create "PlainText"
        { DB.empty 5 with faults := [some "write failed"] } scenarioDraft 1 42).2.2.comments =
      ({ DB.empty 5 with faults := [some "write failed"] } : DB).comments :=
  ⟨by decide,
    C12_create_failure_no_revision "PlainText" { DB.empty 5 with faults := [some "write failed"] }
      scenarioDraft 1 42 (GormError.Fault "write failed") (by decide)⟩

/-- C15 at the store of the listing: the id `3` is stored, the id `9` is not. -/
theorem C15_load_witness :
    scenarioListing.nextFault = none ∧
    (∃ x ∈ scenarioListing.comments, x.ID = 3) ∧
    (∃ obj ∈ scenarioListing.comments, obj.ID = 3 ∧
      scenarioListing.comments.find? (fun r => decide (r.ID = 3)) = some obj ∧
      (GormCommentRepository.Load scenarioListing 3).1 = (some obj, none)) ∧
    (∀ x ∈ scenarioListing.comments, x.ID ≠ 9) ∧
    (GormCommentRepository.Load scenarioListing 9).1 =
      (none, some (Err.NotFoundError "comment" 9)) ∧
    (GormCommentRepository.Load scenarioListing 3).2.comments = scenarioListing.comments ∧
    (GormCommentRepository.Load scenarioListing 3).2.revisions = scenarioListing.revisions :=
  ⟨by decide, by decide,
    ((C15_load scenarioListing 3).1 (by decide)).2 (by decide),
    by decide,
    ((C15_load scenarioListing 9).1 (by decide)).1 (by decide),
    (C15_load scenarioListing 3).2.1, (C15_load scenarioListing 3).2.2⟩

/-- C16 at the offset `-1` and at the limit `0`. -/
theorem C16_invalid_pagination_witness :
    scenarioListing.served 2 ∧
    ((∃ s, some (-1 : Int) = some s ∧ s < 0) ∨ (∃ l, some (10 : Int) = some l ∧ l ≤ 0)) ∧
    (∃ param value, (GormCommentRepository.List scenarioListing "P" (some (-1)) (some 10)).1 =
        (none, 0, some (Err.BadParameterError param value))) ∧
    (GormCommentRepository.List scenarioListing "P" (some (-1)) (some 10)).2 =
      scenarioListing ∧
    ((∃ s, some (0 : Int) = some s ∧ s < 0) ∨ (∃ l, some (0 : Int) = some l ∧ l ≤ 0)) ∧
    (∃ param value, (GormCommentRepository.List scenarioListing "P" (some 0) (some 0)).1.2.2 =
        some (Err.BadParameterError param value)) :=
  ⟨by decide, Or.inl ⟨-1, rfl, by decide⟩,
    ((C16_invalid_pagination scenarioListing "P" (some (-1)) (some 10)).2
      (Or.inl ⟨-1, rfl, by decide⟩)).1,
    ((C16_invalid_pagination scenarioListing "P" (some (-1)) (some 10)).2
      (Or.inl ⟨-1, rfl, by decide⟩)).2.1,
    Or.inr ⟨0, rfl, by decide⟩,
    ((C16_invalid_pagination scenarioListing "P" (some 0) (some 0)).1 (by decide)).2
      (Or.inr ⟨0, rfl, by decide⟩)⟩

/-- C17 at the store of the listing, offset `1` and limit `1`. -/
theorem C17_windowed_page_witness :
    validPage (some 1) (some 1) ∧ scenarioListing.served 2 ∧
    ∃ full : List Comment,
      full.Perm (scenarioListing.comments.filter (fun r => decide (r.ParentID = "P"))) ∧
      full.Sorted (fun a b => b.CreatedAt ≤ a.CreatedAt) ∧
      (GormCommentRepository.List scenarioListing "P" (some 1) (some 1)).1.1 =
        some (window full ((some (1 : Int)).getD 0).toNat ((some (1 : Int)).map Int.toNat)) ∧
      (GormCommentRepository.List scenarioListing "P" (some 1) (some 1)).1.2.2 = none :=
  ⟨by decide, by decide,
    C17_windowed_page scenarioListing "P" (some 1) (some 1) (by decide) (by decide)⟩

/-- C18 at the store of the listing: the count is `3` for a page that is not empty. -/
theorem C18_exact_total_count_witness :
    validPage (some 1) (some 1) ∧ scenarioListing.served 2 ∧
    (GormCommentRepository.List scenarioListing "P" (some 1) (some 1)).1.2.1 =
      (scenarioListing.comments.filter (fun r => decide (r.ParentID = "P"))).length ∧
    ∀ start2 limit2 : Option Int, validPage start2 limit2 →
      (GormCommentRepository.List scenarioListing "P" start2 limit2).1.2.1 =
        (GormCommentRepository.List scenarioListing "P" (some 1) (some 1)).1.2.1 :=
  ⟨by decide, by decide,
    C18_exact_total_count scenarioListing "P" (some 1) (some 1) (by decide) (by decide)⟩

/-- C19 at the scenario of the specification: three records under the parent, offset `5`,
limit `10`. -/
theorem C19_offset_past_end_witness :
    validPage (some 5) (some 10) ∧ scenarioListing.served 2 ∧
    ((scenarioListing.comments.filter (fun r => decide (r.ParentID = "P"))).length : Int) ≤ 5 ∧
    (scenarioListing.comments.filter (fun r => decide (r.ParentID = "P"))).length = 3 ∧
    (GormCommentRepository.List scenarioListing "P" (some 5) (some 10)).1 =
      (some [], (scenarioListing.comments.filter (fun r => decide (r.ParentID = "P"))).length,
        none) :=
  ⟨by decide, by decide, by decide, by decide,
    C19_offset_past_end scenarioListing "P" 5 (some 10) (by decide) (by decide) (by decide)⟩

/-- C20 at the store of the listing, offset `1` and limit `1`. -/
theorem C20_page_size_bound_witness :
    validPage (some 1) (some 1) ∧ scenarioListing.served 2 ∧
    ∃ page : List Comment,
      (GormCommentRepository.List scenarioListing "P" (some 1) (some 1)).1.1 = some page ∧
      (page.length : Int) ≤ 1 ∧
      page.length ≤ (GormCommentRepository.List scenarioListing "P" (some 1) (some 1)).1.2.1 :=
  ⟨by decide, by decide,
    C20_page_size_bound scenarioListing "P" (some 1) 1 (by decide) (by decide)⟩

/-! ## What each call can do to the two tables, whatever the storage layer answers -/

/-- The reading call `Load` leaves both tables as they are. -/
theorem load_frame (db : DB) (id : UUID) :
    (GormCommentRepository.Load db id).2.comments = db.comments ∧
    (GormCommentRepository.Load db id).2.revisions = db.revisions ∧
    (GormCommentRepository.Load db id).2.faults = db.faults.tail := by
  obtain ⟨cs, rs, now, fs, tr⟩ := db
  cases hfind : cs.find? (fun r => decide (r.ID = id)) <;>
    rcases fs with _ | ⟨_ | m1, fs⟩ <;>
    simp [GormCommentRepository.Load, DB.FirstComment, DB.exec, DB.nextFault, hfind,
      Tx.RecordNotFound]

/-- The reading call `Count` leaves both tables as they are. -/
theorem count_frame (db : DB) (parent : String) :
    (GormCommentRepository.Count db parent).2.comments = db.comments ∧
    (GormCommentRepository.Count db parent).2.revisions = db.revisions ∧
    (GormCommentRepository.Count db parent).2.faults = db.faults.tail := by
  obtain ⟨cs, rs, now, fs, tr⟩ := db
  rcases fs with _ | ⟨_ | m1, fs⟩ <;>
    simp [GormCommentRepository.Count, DB.CountComments, DB.exec, DB.nextFault]

/-- The reading call `List` leaves both tables as they are, and a schedule without fault
stays without fault. -/
theorem list_frame (db : DB) (parent : String) (start limit : Option Int) :
    (GormCommentRepository.List db parent start limit).2.comments = db.comments ∧
    (GormCommentRepository.List db parent start limit).2.revisions = db.revisions ∧
    (db.faults = [] → (GormCommentRepository.List db parent start limit).2.faults = []) := by
  by_cases hvalid : validPage start limit
  · obtain ⟨hc1, hc2⟩ := list_checks parent start limit hvalid
    obtain ⟨cs, rs, now, fs, tr⟩ := db
    simp only [GormCommentRepository.List, hc1, hc2, scanRows_eq]
    rcases fs with _ | ⟨_ | m1, _ | ⟨_ | m2, fs⟩⟩ <;>
      simp [DB.RowsWindow, DB.exec, DB.nextFault, DB.CountComments] <;>
      split <;> simp
  · obtain ⟨param, value, hrun, -⟩ := list_invalid db parent start limit hvalid
    rw [hrun]
    simp

/-- What `Create` can do to the tables: the table of comments is as before or has the
returned comment as a new row, which carries the generated id and the markup after
defaulting; no entry leaves the revision log. -/
theorem create_effect (D : String) (db : DB) (c : Comment) (a g : UUID) :
    (GormCommentRepository.Create D db c a g).2.1.ID = g ∧
    (GormCommentRepository.Create D db c a g).2.1.Markup =
      (if c.Markup = "" then D else c.Markup) ∧
    ((GormCommentRepository.Create D db c a g).2.2.comments = db.comments ∨
      (GormCommentRepository.Create D db c a g).2.2.comments =
        db.comments ++ [(GormCommentRepository.Create D db c a g).2.1]) ∧
    (∀ y ∈ db.revisions, y ∈ (GormCommentRepository.Create D db c a g).2.2.revisions) := by
  obtain ⟨cs, rs, now, fs, tr⟩ := db
  by_cases hdup : (cs.find? (fun r => decide (r.ID = g))).isSome
  · rcases fs with _ | ⟨_ | m1, fs⟩ <;>
      simp [GormCommentRepository.Create, DB.CreateComment, DB.exec, DB.nextFault,
        DB.insertCommentRow, hdup, Comment.stamp]
  · rcases fs with _ | ⟨_ | m1, _ | ⟨_ | m2, fs⟩⟩ <;>
      simp [GormCommentRepository.Create, DB.CreateComment, DB.exec, DB.nextFault,
        DB.insertCommentRow, hdup, GormCommentRevisionRepository.Create, DB.CreateRevision,
        Comment.stamp] <;>
      intro y hy <;> exact Or.inl hy

/-- The comment a failed `Save` has written when it failed at the revision append. -/
theorem save_err_comment {D : String} {db db' : DB} {c c' : Comment} {m : UUID} {e : Err}
    (h : GormCommentRepository.Save D db c m = (some e, c', db'))
    (hin : Query.insertRevision ∈ db.since db') :
    c' = { c with Markup := if c.Markup = "" then D else c.Markup, UpdatedAt := db.now } := by
  obtain ⟨cs, rs, now, fs, tr⟩ := db
  cases hfind : cs.find? (fun r => decide (r.ID = c.ID)) with
  | none =>
    rcases fs with _ | ⟨_ | m1, fs⟩ <;>
      simp [GormCommentRepository.Save, DB.FirstComment, DB.exec, DB.nextFault, hfind,
        Tx.RecordNotFound] at h <;>
      obtain ⟨-, -, rfl⟩ := h <;>
      simp [DB.since] at hin
  | some x =>
    by_cases hnil : c.ID = uuidNil
    · have hfind0 := hfind
      rw [hnil] at hfind0
      rcases fs with _ | ⟨_ | m1, _ | ⟨_ | m2, fs⟩⟩ <;>
        simp [GormCommentRepository.Save, DB.FirstComment, DB.exec, DB.nextFault, hfind,
          hfind0, Tx.RecordNotFound, DB.SaveComment, hnil, DB.insertCommentRow] at h <;>
        obtain ⟨-, -, rfl⟩ := h <;>
        simp [DB.since] at hin
    · rcases fs with _ | ⟨_ | m1, _ | ⟨_ | m2, _ | ⟨_ | m3, fs⟩⟩⟩ <;>
        simp [GormCommentRepository.Save, DB.FirstComment, DB.exec, DB.nextFault, hfind,
          Tx.RecordNotFound, DB.SaveComment, hnil, DB.insertCommentRow,
          GormCommentRevisionRepository.Create, DB.CreateRevision] at h <;>
        obtain ⟨-, rfl, rfl⟩ := h <;>
        simp [DB.since] at hin ⊢

/-- What `Save` can do to the tables: the table of comments is as before, or the rows of
the id of the comment hold one record with that id, the parent id of the comment and the
markup after defaulting; no entry leaves the revision log. -/
theorem save_effect (D : String) (db : DB) (c : Comment) (m : UUID) :
    ((GormCommentRepository.Save D db c m).2.2.comments = db.comments ∨
      ∃ c' : Comment, c'.ID = c.ID ∧ c'.Markup = (if c.Markup = "" then D else c.Markup) ∧
        c'.ParentID = c.ParentID ∧
        (GormCommentRepository.Save D db c m).2.2.comments =
          db.comments.map (fun x => if x.ID = c.ID then c' else x)) ∧
    (∀ y ∈ db.revisions, y ∈ (GormCommentRepository.Save D db c m).2.2.revisions) := by
  cases hres : GormCommentRepository.Save D db c m with
  | mk e rest =>
    obtain ⟨c', db'⟩ := rest
    cases e with
    | none =>
      obtain ⟨hc', -, hcs, hrev, -, -⟩ := save_ok hres
      refine ⟨Or.inr ⟨c', by rw [hc'], by rw [hc'], by rw [hc'], hcs⟩, ?_⟩
      intro y hy
      simp only [hrev, List.mem_append]
      exact Or.inl hy
    | some e =>
      obtain ⟨hrev, -, hsame, hkept⟩ := save_err hres
      refine ⟨?_, fun y hy => by simpa only [hrev] using hy⟩
      by_cases hin : Query.insertRevision ∈ db.since db'
      · have hc' := save_err_comment hres hin
        exact Or.inr ⟨c', by rw [hc'], by rw [hc'], by rw [hc'], (hkept hin).2.2⟩
      · exact Or.inl (hsame hin)

/-- What `Delete` can do to the tables: no record enters the table of comments and no
entry leaves the revision log. -/
theorem delete_effect (db : DB) (id a : UUID) :
    (∀ x ∈ (GormCommentRepository.Delete db id a).2.comments, x ∈ db.comments) ∧
    (∀ y ∈ db.revisions, y ∈ (GormCommentRepository.Delete db id a).2.revisions) := by
  obtain ⟨cs, rs, now, fs, tr⟩ := db
  by_cases hnil : id = uuidNil
  · simp [GormCommentRepository.Delete, hnil]
  · cases hfind : cs.find? (fun r => decide (r.ID = id)) with
    | none =>
      rcases fs with _ | ⟨_ | m1, _ | ⟨_ | m2, fs⟩⟩ <;>
        simp [GormCommentRepository.Delete, hnil, DB.FindComment, DB.exec, DB.nextFault, hfind,
          DB.DeleteComment, Comment.zero]
    | some x =>
      have hx : x.ID = id := by simpa using List.find?_some hfind
      have hx0 : ¬ x.ID = uuidNil := by rw [hx]; exact hnil
      rcases fs with _ | ⟨_ | m1, _ | ⟨_ | m2, _ | ⟨_ | m3, fs⟩⟩⟩ <;>
        simp [GormCommentRepository.Delete, hnil, DB.FindComment, DB.exec, DB.nextFault, hfind,
          DB.DeleteComment, Comment.zero, hx0, GormCommentRevisionRepository.Create,
          DB.CreateRevision] <;>
        (try constructor) <;>
        intros <;> simp_all

/-! ## Invariants of the runs -/

/-- One step keeps the create revisions of the stored records, provided that the revision
append of a `Create` does not fail. -/
theorem step_keeps_create_revision (D : String) (db : DB) (op : Op)
    (hinv : ∀ x ∈ db.comments, ∃ r ∈ db.revisions,
      r.Type_ = RevisionTypeCreate ∧ r.CommentID = x.ID)
    (hguard : createAppends D db op) :
    ∀ x ∈ (op.apply D db).comments, ∃ r ∈ (op.apply D db).revisions,
      r.Type_ = RevisionTypeCreate ∧ r.CommentID = x.ID := by
  cases op with
  | call c =>
    cases c with
    | create c a g =>
      simp only [Op.apply, Call.run]
      simp only [createAppends] at hguard
      cases hres : GormCommentRepository.Create D db c a g with
      | mk e rest =>
        obtain ⟨c', db'⟩ := rest
        rw [hres] at hguard
        simp only at hguard ⊢
        cases e with
        | none =>
          obtain ⟨-, -, hcs, hrev, -, -⟩ := create_ok hres
          intro x hx
          rw [hcs, List.mem_append, List.mem_singleton] at hx
          rcases hx with hx | rfl
          · obtain ⟨r, hr, hk, hid⟩ := hinv x hx
            exact ⟨r, by rw [hrev]; exact List.mem_append_left _ hr, hk, hid⟩
          · exact ⟨_, by rw [hrev]; exact List.mem_append_right _ (List.mem_singleton_self _),
              by simp [newRevision], by simp [newRevision]⟩
        | some e =>
          obtain ⟨hrev, -, hsame, -⟩ := create_err hres
          have hnot : Query.insertRevision ∉ db.since db' := by
            intro hin
            have := hguard hin
            cases this
          rw [hsame hnot, hrev]
          exact hinv
    | save c m =>
      simp only [Op.apply, Call.run]
      obtain ⟨hcs, hrev⟩ := save_effect D db c m
      intro x hx
      have hxid : ∃ y ∈ db.comments, y.ID = x.ID := by
        rcases hcs with hcs | ⟨c', hid, -, -, hcs⟩
        · exact ⟨x, by rw [← hcs]; exact hx, rfl⟩
        · rw [hcs, List.mem_map] at hx
          obtain ⟨y, hy, hyx⟩ := hx
          by_cases hyc : y.ID = c.ID
          · rw [if_pos hyc] at hyx
            exact ⟨y, hy, by rw [← hyx, hid, hyc]⟩
          · rw [if_neg hyc] at hyx
            exact ⟨y, hy, by rw [hyx]⟩
      obtain ⟨y, hy, hyid⟩ := hxid
      obtain ⟨r, hr, hk, hid⟩ := hinv y hy
      exact ⟨r, hrev r hr, hk, by rw [hid, hyid]⟩
    | delete id a =>
      simp only [Op.apply, Call.run]
      obtain ⟨hcs, hrev⟩ := delete_effect db id a
      intro x hx
      obtain ⟨r, hr, hk, hid⟩ := hinv x (hcs x hx)
      exact ⟨r, hrev r hr, hk, hid⟩
  | load id =>
    simp only [Op.apply]
    obtain ⟨hcs, hrev, -⟩ := load_frame db id
    rw [hcs, hrev]
    exact hinv
  | list parent start limit =>
    simp only [Op.apply]
    obtain ⟨hcs, hrev, -⟩ := list_frame db parent start limit
    rw [hcs, hrev]
    exact hinv
  | count parent =>
    simp only [Op.apply]
    obtain ⟨hcs, hrev, -⟩ := count_frame db parent
    rw [hcs, hrev]
    exact hinv
  | tick d => exact hinv

/-- C23 as stated fails: from the empty store, whose second round trip meets a storage
fault, the single call `Create` leaves the record `42` stored while the revision log is
empty, so the stored record has no revision entry of type `create`. -/
theorem C23_counterexample :
    scenarioFaulty.comments = [] ∧ scenarioFaulty.revisions = [] ∧
    (run "PlainText" scenarioFaulty [Op.call (Call.create scenarioDraft 1 42)]).comments =
      [{ ID := 42, ParentID := "A", Body := "Body", Markup := "Markdown", CreatedAt := 5,
         UpdatedAt := 5 }] ∧
    (run "PlainText" scenarioFaulty [Op.call (Call.create scenarioDraft 1 42)]).revisions = [] ∧
    ¬ ∀ x ∈ (run "PlainText" scenarioFaulty
          [Op.call (Call.create scenarioDraft 1 42)]).comments,
        ∃ r ∈ (run "PlainText" scenarioFaulty
            [Op.call (Call.create scenarioDraft 1 42)]).revisions,
          r.Type_ = RevisionTypeCreate ∧ r.CommentID = x.ID := by
  decide

/-- C23 amended. In every state reachable from a store without records by any sequence of
`Create`, `Save`, `Delete`, `Load`, `List` and `Count` calls (and passage of time) in which
no revision append of a `Create` fails, whatever other storage faults occur, every stored
record has at least one revision entry of type `create` whose comment id is the id of the
record. -/
theorem C23_create_revision_invariant (D : String) (db0 : DB) (ops : List Op)
    (hempty : db0.comments = [])
    (hguard : allSteps D (createAppends D) db0 ops) :
    ∀ x ∈ (run D db0 ops).comments, ∃ r ∈ (run D db0 ops).revisions,
      r.Type_ = RevisionTypeCreate ∧ r.CommentID = x.ID := by
  have hstart : ∀ x ∈ db0.comments, ∃ r ∈ db0.revisions,
      r.Type_ = RevisionTypeCreate ∧ r.CommentID = x.ID := by
    rw [hempty]
    intro x hx
    cases hx
  clear hempty
  induction ops generalizing db0 with
  | nil => exact hstart
  | cons op ops ih =>
    obtain ⟨hop, hrest⟩ := hguard
    exact ih (op.apply D db0) hrest (step_keeps_create_revision D db0 op hstart hop)

/-- One step keeps every stored markup non-empty, whatever the storage layer answers,
provided the system default markup is not empty. -/
theorem step_keeps_markup (D : String) (hD : D ≠ "") (db : DB) (op : Op)
    (hinv : ∀ x ∈ db.comments, x.Markup ≠ "") :
    ∀ x ∈ (op.apply D db).comments, x.Markup ≠ "" := by
  have hdef : ∀ c : Comment, (if c.Markup = "" then D else c.Markup) ≠ "" := by
    intro c
    by_cases hc : c.Markup = ""
    · rw [if_pos hc]; exact hD
    · rw [if_neg hc]; exact hc
  cases op with
  | call c =>
    cases c with
    | create c a g =>
      simp only [Op.apply, Call.run]
      obtain ⟨-, hm, hcs, -⟩ := create_effect D db c a g
      intro x hx
      rcases hcs with hcs | hcs
      · rw [hcs] at hx
        exact hinv x hx
      · rw [hcs, List.mem_append, List.mem_singleton] at hx
        rcases hx with hx | hx
        · exact hinv x hx
        · rw [hx, hm]
          exact hdef c
    | save c m =>
      simp only [Op.apply, Call.run]
      obtain ⟨hcs, -⟩ := save_effect D db c m
      intro x hx
      rcases hcs with hcs | ⟨c', -, hm, -, hcs⟩
      · rw [hcs] at hx
        exact hinv x hx
      · rw [hcs, List.mem_map] at hx
        obtain ⟨y, hy, hyx⟩ := hx
        by_cases hyc : y.ID = c.ID
        · rw [if_pos hyc] at hyx
          rw [← hyx, hm]
          exact hdef c
        · rw [if_neg hyc] at hyx
          rw [← hyx]
          exact hinv y hy
    | delete id a =>
      simp only [Op.apply, Call.run]
      obtain ⟨hcs, -⟩ := delete_effect db id a
      exact fun x hx => hinv x (hcs x hx)
  | load id =>
    simp only [Op.apply]
    rw [(load_frame db id).1]
    exact hinv
  | list parent start limit =>
    simp only [Op.apply]
    rw [(list_frame db parent start limit).1]
    exact hinv
  | count parent =>
    simp only [Op.apply]
    rw [(count_frame db parent).1]
    exact hinv
  | tick d => exact hinv

/-- C26, markup never empty. The system default markup being a non-empty string: in every
state reachable from a store without records by any sequence of calls (`Create` and `Save`,
and also `Delete`, the reading calls and passage of time), whatever the storage layer
answers, every stored record has a non-empty markup; and a non-empty markup supplied by
the caller is stored unchanged by a successful `Create` (in the new record) and by a
successful `Save` (in every record of the id). -/
theorem C26_markup_never_empty (SystemMarkupDefault : String)
    (hdefault : SystemMarkupDefault ≠ "") :
    (∀ (db0 : DB) (ops : List Op), db0.comments = [] →
      ∀ x ∈ (run SystemMarkupDefault db0 ops).comments, x.Markup ≠ "") ∧
    (∀ (db db' : DB) (comment c' : Comment) (creatorID newV4 : UUID),
      comment.Markup ≠ "" →
      GormCommentRepository.Create SystemMarkupDefault db comment creatorID newV4 =
        (none, c', db') →
      db'.comments = db.comments ++ [c'] ∧ c'.ID = newV4 ∧ c'.Markup = comment.Markup) ∧
    (∀ (db db' : DB) (comment c' : Comment) (modifierID : UUID),
      comment.Markup ≠ "" →
      GormCommentRepository.Save SystemMarkupDefault db comment modifierID =
        (none, c', db') →
      (∃ stored ∈ db'.comments, stored.ID = comment.ID) ∧
      ∀ stored ∈ db'.comments, stored.ID = comment.ID → stored.Markup = comment.Markup) := by
  refine ⟨?_, ?_, ?_⟩
  · intro db0 ops hempty
    have hstart : ∀ x ∈ db0.comments, x.Markup ≠ "" := by
      rw [hempty]
      intro x hx
      cases hx
    clear hempty
    induction ops generalizing db0 with
    | nil => exact hstart
    | cons op ops ih =>
      exact ih (op.apply SystemMarkupDefault db0)
        (step_keeps_markup SystemMarkupDefault hdefault db0 op hstart)
  · intro db db' comment c' creatorID newV4 hm h
    obtain ⟨hc', -, hcs, -, -, -⟩ := create_ok h
    exact ⟨hcs, by rw [hc'], by rw [hc']; simp [hm]⟩
  · intro db db' comment c' modifierID hm h
    obtain ⟨hc', ⟨x, hx, hxid⟩, hcs, -, -, -⟩ := save_ok h
    have hid : c'.ID = comment.ID := by rw [hc']
    have hmk : c'.Markup = comment.Markup := by rw [hc']; simp [hm]
    constructor
    · refine ⟨c', ?_, hid⟩
      rw [hcs, List.mem_map]
      exact ⟨x, hx, by rw [if_pos hxid]⟩
    · intro s hs hsid
      rw [hcs, List.mem_map] at hs
      obtain ⟨y, -, hy⟩ := hs
      by_cases hyc : y.ID = comment.ID
      · rw [if_pos hyc] at hy
        rw [← hy]
        exact hmk
      · rw [if_neg hyc] at hy
        rw [hy] at hyc
        exact absurd hsid hyc

/-! ## The calls under normal service -/

/-- Under normal service `Create` either changes no table (the key exists) or inserts the
record under the generated id and appends its `create` entry. -/
theorem create_normal (D : String) (db : DB) (c : Comment) (a g : UUID)
    (hservice : db.faults = []) :
    (GormCommentRepository.Create D db c a g).2.2.faults = [] ∧
    (((GormCommentRepository.Create D db c a g).2.2.comments = db.comments ∧
        (GormCommentRepository.Create D db c a g).2.2.revisions = db.revisions) ∨
      ∃ (c' : Comment) (rev : Revision),
        c'.ID = g ∧ rev.CommentID = g ∧ rev.Type_ = RevisionTypeCreate ∧
        (GormCommentRepository.Create D db c a g).2.2.comments = db.comments ++ [c'] ∧
        (GormCommentRepository.Create D db c a g).2.2.revisions = db.revisions ++ [rev]) := by
  constructor
  · obtain ⟨cs, rs, now, fs, tr⟩ := db
    simp only at hservice
    subst hservice
    by_cases hdup : (cs.find? (fun r => decide (r.ID = g))).isSome <;>
      simp [GormCommentRepository.Create, DB.CreateComment, DB.exec, DB.nextFault,
        DB.insertCommentRow, hdup, GormCommentRevisionRepository.Create, DB.CreateRevision]
  · by_cases hstored : ∃ x ∈ db.comments, x.ID = g
    · left
      have hdup := (find_isSome_iff db.comments g).2 hstored
      obtain ⟨cs, rs, now, fs, tr⟩ := db
      simp only at hservice hdup
      subst hservice
      simp [GormCommentRepository.Create, DB.CreateComment, DB.exec, DB.nextFault,
        DB.insertCommentRow, hdup]
    · right
      have hnew : ∀ x ∈ db.comments, x.ID ≠ g := fun x hx hxg => hstored ⟨x, hx, hxg⟩
      have hok := create_succeeds D db c a g hservice hnew
      obtain ⟨hc', -, hcs, hrev, -, -⟩ :=
        create_ok (show GormCommentRepository.Create D db c a g =
          (none, (GormCommentRepository.Create D db c a g).2.1,
            (GormCommentRepository.Create D db c a g).2.2) from
          Prod.ext hok (Prod.ext rfl rfl))
      exact ⟨_, _, by rw [hc'], by rw [hc']; simp [newRevision], by simp [newRevision],
        hcs, hrev⟩

/-- Under normal service `Save` either changes no table (no record has the id) or writes
the record over the rows of the id and appends its `update` entry. -/
theorem save_normal (D : String) (db : DB) (c : Comment) (m : UUID)
    (hservice : db.faults = []) :
    (GormCommentRepository.Save D db c m).2.2.faults = [] ∧
    (((GormCommentRepository.Save D db c m).2.2.comments = db.comments ∧
        (GormCommentRepository.Save D db c m).2.2.revisions = db.revisions) ∨
      ((∃ x ∈ db.comments, x.ID = c.ID) ∧
        ∃ (c' : Comment) (rev : Revision),
          c'.ID = c.ID ∧ rev.CommentID = c.ID ∧ rev.Type_ = RevisionTypeUpdate ∧
          (GormCommentRepository.Save D db c m).2.2.comments =
            db.comments.map (fun x => if x.ID = c.ID then c' else x) ∧
          (GormCommentRepository.Save D db c m).2.2.revisions = db.revisions ++ [rev])) := by
  constructor
  · obtain ⟨cs, rs, now, fs, tr⟩ := db
    simp only at hservice
    subst hservice
    cases hfind : cs.find? (fun r => decide (r.ID = c.ID)) with
    | none =>
      simp [GormCommentRepository.Save, DB.FirstComment, DB.exec, DB.nextFault, hfind,
        Tx.RecordNotFound]
    | some x =>
      by_cases hnil : c.ID = uuidNil
      · have hfind0 := hfind
        rw [hnil] at hfind0
        simp [GormCommentRepository.Save, DB.FirstComment, DB.exec, DB.nextFault, hfind,
          hfind0, Tx.RecordNotFound, DB.SaveComment, hnil, DB.insertCommentRow]
      · simp [GormCommentRepository.Save, DB.FirstComment, DB.exec, DB.nextFault, hfind,
          Tx.RecordNotFound, DB.SaveComment, hnil, DB.insertCommentRow,
          GormCommentRevisionRepository.Create, DB.CreateRevision]
  · cases hres : GormCommentRepository.Save D db c m with
    | mk e rest =>
      obtain ⟨c', db'⟩ := rest
      cases e with
      | none =>
        obtain ⟨hc', hstored, hcs, hrev, -, -⟩ := save_ok hres
        exact Or.inr ⟨hstored, c', _, by rw [hc'], by rw [hc']; simp [newRevision],
          by simp [newRevision], hcs, hrev⟩
      | some e =>
        left
        obtain ⟨hrev, -, hsame, -⟩ := save_err hres
        refine ⟨hsame ?_, hrev⟩
        intro hin
        obtain ⟨cs, rs, now, fs, tr⟩ := db
        simp only at hservice
        subst hservice
        cases hfind : cs.find? (fun r => decide (r.ID = c.ID)) with
        | none =>
          simp [GormCommentRepository.Save, DB.FirstComment, DB.exec, DB.nextFault, hfind,
            Tx.RecordNotFound] at hres
          obtain ⟨-, -, rfl⟩ := hres
          simp [DB.since] at hin
        | some x =>
          by_cases hnil : c.ID = uuidNil
          · have hfind0 := hfind
            rw [hnil] at hfind0
            simp [GormCommentRepository.Save, DB.FirstComment, DB.exec, DB.nextFault, hfind,
              hfind0, Tx.RecordNotFound, DB.SaveComment, hnil, DB.insertCommentRow] at hres
            obtain ⟨-, -, rfl⟩ := hres
            simp [DB.since] at hin
          · simp [GormCommentRepository.Save, DB.FirstComment, DB.exec, DB.nextFault, hfind,
              Tx.RecordNotFound, DB.SaveComment, hnil, DB.insertCommentRow,
              GormCommentRevisionRepository.Create, DB.CreateRevision] at hres

/-- Under normal service `Delete` changes no table (nil id), or empties the table of
comments and leaves the log (no record has the id: the `DELETE` is sent with the zero-valued
comment), or removes the records of the id and appends its `delete` entry. -/
theorem delete_normal (db : DB) (id a : UUID) (hservice : db.faults = []) :
    (GormCommentRepository.Delete db id a).2.faults = [] ∧
    (((GormCommentRepository.Delete db id a).2.comments = db.comments ∧
        (GormCommentRepository.Delete db id a).2.revisions = db.revisions) ∨
      ((∀ x ∈ db.comments, x.ID ≠ id) ∧
        (GormCommentRepository.Delete db id a).2.comments = [] ∧
        (GormCommentRepository.Delete db id a).2.revisions = db.revisions) ∨
      ((∃ x ∈ db.comments, x.ID = id) ∧
        ∃ rev : Revision, rev.CommentID = id ∧ rev.Type_ = RevisionTypeDelete ∧
          (GormCommentRepository.Delete db id a).2.comments =
            db.comments.filter (fun r => !decide (r.ID = id)) ∧
          (GormCommentRepository.Delete db id a).2.revisions = db.revisions ++ [rev])) := by
  by_cases hnil : id = uuidNil
  · simp [GormCommentRepository.Delete, hnil, hservice]
  · by_cases hstored : ∃ x ∈ db.comments, x.ID = id
    · obtain ⟨hok, hcs⟩ := delete_succeeds db id a hservice hnil hstored
      obtain ⟨-, x, -, hxid, hrev, -, -, -⟩ :=
        delete_ok (show GormCommentRepository.Delete db id a =
          (none, (GormCommentRepository.Delete db id a).2) from Prod.ext hok rfl)
      refine ⟨?_, Or.inr (Or.inr ⟨hstored, _, ?_, ?_, hcs, hrev⟩)⟩
      · obtain ⟨cs, rs, now, fs, tr⟩ := db
        simp only at hservice hstored
        subst hservice
        obtain ⟨y, hfind⟩ := Option.isSome_iff_exists.1 ((find_isSome_iff cs id).2 hstored)
        have hy : y.ID = id := by simpa using List.find?_some hfind
        have hy0 : ¬ y.ID = uuidNil := by rw [hy]; exact hnil
        simp [GormCommentRepository.Delete, hnil, DB.FindComment, DB.exec, DB.nextFault,
          hfind, DB.DeleteComment, Comment.zero, hy0, GormCommentRevisionRepository.Create,
          DB.CreateRevision]
      · simp [newRevision, hxid]
      · simp [newRevision]
    · have habsent : ∀ x ∈ db.comments, x.ID ≠ id := fun x hx hxid => hstored ⟨x, hx, hxid⟩
      have hfind := find_none_of_absent habsent
      obtain ⟨cs, rs, now, fs, tr⟩ := db
      simp only at hservice hfind habsent
      subst hservice
      refine ⟨?_, Or.inr (Or.inl ⟨habsent, ?_, ?_⟩)⟩ <;>
        simp [GormCommentRepository.Delete, hnil, DB.FindComment, DB.exec, DB.nextFault,
          hfind, DB.DeleteComment, Comment.zero]

/-! ## Well-formed histories -/

/-- The history of an id after one entry has been appended to the log. -/
theorem history_append (revisions : List Revision) (rev : Revision) (id : UUID) :
    (revisions ++ [rev]).filter (fun r => decide (r.CommentID = id)) =
      if rev.CommentID = id then revisions.filter (fun r => decide (r.CommentID = id)) ++ [rev]
      else revisions.filter (fun r => decide (r.CommentID = id)) := by
  by_cases h : rev.CommentID = id <;> simp [List.filter_append, h]

/-- A live history is well formed. -/
theorem liveHistory.wellFormed {h : List Revision} (hl : liveHistory h) :
    wellFormedHistory h := by
  obtain ⟨first, updates, hf, hu, rfl⟩ := hl
  exact Or.inr ⟨first, updates, hf, hu, Or.inl rfl⟩

/-- A live history stays live when an `update` entry is appended. -/
theorem liveHistory.update {h : List Revision} (hl : liveHistory h) {rev : Revision}
    (hrev : rev.Type_ = RevisionTypeUpdate) : liveHistory (h ++ [rev]) := by
  obtain ⟨first, updates, hf, hu, rfl⟩ := hl
  refine ⟨first, updates ++ [rev], hf, ?_, by simp⟩
  intro u hu'
  rcases List.mem_append.1 hu' with hu' | hu'
  · exact hu u hu'
  · rw [List.mem_singleton.1 hu']
    exact hrev

/-- A live history is well formed once a `delete` entry is appended. -/
theorem liveHistory.delete {h : List Revision} (hl : liveHistory h) {rev : Revision}
    (hrev : rev.Type_ = RevisionTypeDelete) : wellFormedHistory (h ++ [rev]) := by
  obtain ⟨first, updates, hf, hu, rfl⟩ := hl
  exact Or.inr ⟨first, updates, hf, hu, Or.inr ⟨rev, hrev, by simp⟩⟩

/-- A step that meets the conditions of `historyGuard` keeps every history well formed and
the history of every stored record live, whatever the storage layer answers. -/
theorem step_keeps_history (D : String) (db : DB) (op : Op)
    (hguard : historyGuard D db op)
    (hinv : ∀ id, wellFormedHistory (db.history id) ∧
      ((∃ x ∈ db.comments, x.ID = id) → liveHistory (db.history id))) :
    ∀ id, wellFormedHistory ((op.apply D db).history id) ∧
      ((∃ x ∈ (op.apply D db).comments, x.ID = id) →
        liveHistory ((op.apply D db).history id)) := by
  obtain ⟨hfresh, happ, hrem⟩ := hguard
  cases op with
  | call c =>
    cases c with
    | create c a g =>
      simp only [Op.apply, Call.run]
      simp only [freshId] at hfresh
      simp only [createAppends] at happ
      cases hres : GormCommentRepository.Create D db c a g with
      | mk e rest =>
        obtain ⟨c', db'⟩ := rest
        rw [hres] at happ
        simp only at happ ⊢
        cases e with
        | none =>
          obtain ⟨hc', -, hcs, hrev, -, -⟩ := create_ok hres
          have hc'id : c'.ID = g := by rw [hc']
          obtain ⟨rev, hrev, hrid, hrk⟩ : ∃ rev : Revision,
              db'.revisions = db.revisions ++ [rev] ∧ rev.CommentID = g ∧
              rev.Type_ = RevisionTypeCreate :=
            ⟨_, hrev, by simp [newRevision, hc'id], by simp [newRevision]⟩
          have hnone : db.history g = [] := by
            simp only [DB.history]
            rw [List.filter_eq_nil_iff]
            intro r hr
            simpa using hfresh r hr
          intro id
          simp only [DB.history, hcs, hrev, history_append]
          by_cases hid : g = id
          · subst hid
            have hlive : liveHistory (db.history g ++ [rev]) := by
              rw [hnone]
              exact ⟨rev, [], hrk, by simp, rfl⟩
            rw [if_pos hrid]
            exact ⟨hlive.wellFormed, fun _ => hlive⟩
          · rw [if_neg (by rw [hrid]; exact hid)]
            refine ⟨(hinv id).1, ?_⟩
            rintro ⟨x, hx, hxid⟩
            rw [List.mem_append, List.mem_singleton] at hx
            rcases hx with hx | rfl
            · exact (hinv id).2 ⟨x, hx, hxid⟩
            · exact absurd (hc'id.symm.trans hxid) hid
        | some e =>
          obtain ⟨hrev, -, hsame, -⟩ := create_err hres
          have hnot : Query.insertRevision ∉ db.since db' := by
            intro hin
            have := happ hin
            cases this
          simp only [DB.history, hsame hnot, hrev]
          exact hinv
    | save c m =>
      simp only [Op.apply, Call.run]
      have hback : (∀ id, (∃ x ∈ (GormCommentRepository.Save D db c m).2.2.comments,
          x.ID = id) → ∃ x ∈ db.comments, x.ID = id) := by
        rintro id ⟨x, hx, hxid⟩
        rcases (save_effect D db c m).1 with hcs | ⟨c', hc'id, -, -, hcs⟩
        · exact ⟨x, by rw [← hcs]; exact hx, hxid⟩
        · rw [hcs, List.mem_map] at hx
          obtain ⟨y, hy, hyx⟩ := hx
          by_cases hyc : y.ID = c.ID
          · rw [if_pos hyc] at hyx
            exact ⟨y, hy, by rw [hyc, ← hc'id, hyx, hxid]⟩
          · rw [if_neg hyc] at hyx
            exact ⟨y, hy, by rw [hyx, hxid]⟩
      cases hres : GormCommentRepository.Save D db c m with
      | mk e rest =>
        obtain ⟨c', db'⟩ := rest
        rw [hres] at hback
        simp only at hback ⊢
        cases e with
        | none =>
          obtain ⟨hc', hstored, -, hrev, -, -⟩ := save_ok hres
          have hc'id : c'.ID = c.ID := by rw [hc']
          obtain ⟨rev, hrev, hrid, hrk⟩ : ∃ rev : Revision,
              db'.revisions = db.revisions ++ [rev] ∧ rev.CommentID = c.ID ∧
              rev.Type_ = RevisionTypeUpdate :=
            ⟨_, hrev, by simp [newRevision, hc'id], by simp [newRevision]⟩
          intro id
          simp only [DB.history, hrev, history_append]
          by_cases hid : c.ID = id
          · subst hid
            have hlive : liveHistory (db.history c.ID ++ [rev]) :=
              ((hinv c.ID).2 hstored).update hrk
            rw [if_pos hrid]
            exact ⟨hlive.wellFormed, fun _ => hlive⟩
          · rw [if_neg (by rw [hrid]; exact hid)]
            exact ⟨(hinv id).1, fun h => (hinv id).2 (hback id h)⟩
        | some e =>
          obtain ⟨hrev, -, -, -⟩ := save_err hres
          intro id
          simp only [DB.history, hrev]
          exact ⟨(hinv id).1, fun h => (hinv id).2 (hback id h)⟩
    | delete id0 a =>
      simp only [Op.apply, Call.run]
      simp only [deleteRemoves] at hrem
      have hsub : ∀ x ∈ (GormCommentRepository.Delete db id0 a).2.comments,
          x ∈ db.comments := (delete_effect db id0 a).1
      cases hres : GormCommentRepository.Delete db id0 a with
      | mk e db' =>
        rw [hres] at hrem hsub
        simp only at hrem hsub ⊢
        cases e with
        | none =>
          obtain ⟨-, x, hfind, hxid, hrev, -, -, -⟩ := delete_ok hres
          have hstored : ∃ y ∈ db.comments, y.ID = id0 :=
            ⟨x, List.mem_of_find?_eq_some hfind, hxid⟩
          obtain ⟨rev, hrev, hrid, hrk⟩ : ∃ rev : Revision,
              db'.revisions = db.revisions ++ [rev] ∧ rev.CommentID = id0 ∧
              rev.Type_ = RevisionTypeDelete :=
            ⟨_, hrev, by simp [newRevision, hxid], by simp [newRevision]⟩
          intro id
          simp only [DB.history, hrev, history_append]
          by_cases hid : id0 = id
          · subst hid
            rw [if_pos hrid]
            refine ⟨((hinv id0).2 hstored).delete hrk, ?_⟩
            rintro ⟨y, hy, hyid⟩
            exact absurd hyid (hrem rfl y hy)
          · rw [if_neg (by rw [hrid]; exact hid)]
            refine ⟨(hinv id).1, ?_⟩
            rintro ⟨y, hy, hyid⟩
            exact (hinv id).2 ⟨y, hsub y hy, hyid⟩
        | some e =>
          obtain ⟨hrev, -, -⟩ := delete_err hres
          intro id
          simp only [DB.history, hrev]
          refine ⟨(hinv id).1, ?_⟩
          rintro ⟨y, hy, hyid⟩
          exact (hinv id).2 ⟨y, hsub y hy, hyid⟩
  | load id0 =>
    simp only [Op.apply]
    obtain ⟨hcs, hrev, -⟩ := load_frame db id0
    simp only [DB.history, hcs, hrev]
    exact hinv
  | list parent start limit =>
    simp only [Op.apply]
    obtain ⟨hcs, hrev, -⟩ := list_frame db parent start limit
    simp only [DB.history, hcs, hrev]
    exact hinv
  | count parent =>
    simp only [Op.apply]
    obtain ⟨hcs, hrev, -⟩ := count_frame db parent
    simp only [DB.history, hcs, hrev]
    exact hinv
  | tick d => exact hinv

/-- Under normal service the revision append of a `Create` does not fail and a `Delete`
that returns success has removed the record; the service stays normal after the step. -/
theorem normal_service_guard (D : String) (db : DB) (op : Op) (hservice : db.faults = []) :
    createAppends D db op ∧ deleteRemoves db op ∧ (op.apply D db).faults = [] := by
  cases op with
  | call c =>
    cases c with
    | create c a g =>
      obtain ⟨hf, hcase⟩ := create_normal D db c a g hservice
      refine ⟨?_, trivial, hf⟩
      simp only [createAppends]
      intro hin
      cases hres : GormCommentRepository.Create D db c a g with
      | mk e rest =>
        obtain ⟨c', db'⟩ := rest
        rw [hres] at hin hcase
        simp only at hin hcase ⊢
        cases e with
        | none => rfl
        | some e =>
          obtain ⟨hrev, -, -, hkept⟩ := create_err hres
          obtain ⟨-, hcs⟩ := hkept hin
          rcases hcase with ⟨hcs2, -⟩ | ⟨_, rev, -, -, -, -, hrev2⟩
          · have := congrArg List.length (hcs.symm.trans hcs2)
            simp at this
          · have := congrArg List.length (hrev.symm.trans hrev2)
            simp at this
    | save c m => exact ⟨trivial, trivial, (save_normal D db c m hservice).1⟩
    | delete id0 a =>
      obtain ⟨hf, hcase⟩ := delete_normal db id0 a hservice
      refine ⟨trivial, ?_, hf⟩
      simp only [deleteRemoves]
      intro hok x hx
      rcases hcase with ⟨-, hrev⟩ | ⟨-, hcs, -⟩ | ⟨-, rev, -, -, hcs, -⟩
      · cases hres : GormCommentRepository.Delete db id0 a with
        | mk e db' =>
          rw [hres] at hok hrev
          simp only at hok hrev
          subst hok
          obtain ⟨-, y, -, -, hrev2, -, -, -⟩ := delete_ok hres
          have := congrArg List.length (hrev.symm.trans hrev2)
          simp at this
      · rw [hcs] at hx
        cases hx
      · rw [hcs, List.mem_filter] at hx
        simpa using hx.2
  | load id0 =>
    refine ⟨trivial, trivial, ?_⟩
    simp only [Op.apply]
    rw [(load_frame db id0).2.2, hservice]
    rfl
  | list parent start limit =>
    exact ⟨trivial, trivial, (list_frame db parent start limit).2.2 hservice⟩
  | count parent =>
    refine ⟨trivial, trivial, ?_⟩
    simp only [Op.apply]
    rw [(count_frame db parent).2.2, hservice]
    rfl
  | tick d => exact ⟨trivial, trivial, hservice⟩

/-- A run under normal service in which each `Create` is given a new id meets the
conditions of `historyGuard` at every step. -/
theorem normal_service_steps (D : String) (ops : List Op) :
    ∀ db : DB, db.faults = [] → allSteps D freshId db ops →
      allSteps D (historyGuard D) db ops := by
  induction ops with
  | nil => intro _ _ _; trivial
  | cons op ops ih =>
    intro db hservice hfresh
    obtain ⟨hop, hrest⟩ := hfresh
    obtain ⟨happ, hrem, hf⟩ := normal_service_guard D db op hservice
    exact ⟨⟨hop, happ, hrem⟩, ih (op.apply D db) hf hrest⟩

/-- In a well-formed history of at least three entries the second entry is an `update`. -/
theorem wellFormedHistory.second_update {a b c : Revision} {t : List Revision}
    (h : wellFormedHistory (a :: b :: c :: t)) : b.Type_ = RevisionTypeUpdate := by
  rcases h with h | ⟨first, updates, -, hu, h | ⟨last, -, h⟩⟩
  · cases h
  · injection h with _ h2
    exact hu b (by rw [← h2]; exact List.mem_cons_self _ _)
  · rw [List.cons_append] at h
    injection h with _ h2
    cases updates with
    | nil =>
      rw [List.nil_append] at h2
      injection h2 with _ h3
      cases h3
    | cons u us =>
      rw [List.cons_append] at h2
      injection h2 with h3 _
      rw [h3]
      exact hu u (List.mem_cons_self _ _)

/-- Why a successful `Delete` must have removed the record: on the empty store whose fourth
round trip, the `DELETE` statement, meets a storage fault, `Create`, `Delete` and `Save` of
the comment `42` all return success and the history of the id is a `create`, a `delete`
and an `update` entry, which is not well formed. -/
theorem delete_slip_breaks_history :
    (GormCommentRepository.Delete
        (run "PlainText" scenarioSlip [Op.call (Call.create scenarioDraft 1 42)]) 42 3).1 =
      none ∧
    ((run "PlainText" scenarioSlip
        [Op.call (Call.create scenarioDraft 1 42), Op.call (Call.delete 42 3),
         Op.call (Call.save { scenarioDraft with ID := 42, Body := "Updated body" } 2)]).history
        42).map (fun r => r.Type_) =
      [RevisionTypeCreate, RevisionTypeDelete, RevisionTypeUpdate] ∧
    ¬ wellFormedHistory
      ((run "PlainText" scenarioSlip
        [Op.call (Call.create scenarioDraft 1 42), Op.call (Call.delete 42 3),
         Op.call (Call.save { scenarioDraft with ID := 42, Body := "Updated body" } 2)]).history
        42) := by
  refine ⟨by decide, by decide, ?_⟩
  intro h
  have h2 := wellFormedHistory.second_update h
  revert h2
  decide

/-- Why the id given to a `Create` must be new: without any storage fault, `Create`,
`Delete` and again `Create` with the id `42` give the history `create`, `delete`,
`create`, which is not well formed. -/
theorem reused_id_breaks_history :
    ((run "PlainText" (DB.empty 5)
        [Op.call (Call.create scenarioDraft 1 42), Op.call (Call.delete 42 3),
         Op.call (Call.create scenarioDraft 1 42)]).history 42).map (fun r => r.Type_) =
      [RevisionTypeCreate, RevisionTypeDelete, RevisionTypeCreate] ∧
    ¬ wellFormedHistory
      ((run "PlainText" (DB.empty 5)
        [Op.call (Call.create scenarioDraft 1 42), Op.call (Call.delete 42 3),
         Op.call (Call.create scenarioDraft 1 42)]).history 42) := by
  refine ⟨by decide, ?_⟩
  intro h
  have h2 := wellFormedHistory.second_update h
  revert h2
  decide

/-- C24 as stated fails: from the empty store whose second round trip meets a storage
fault, `Create` inserts the record `42` and fails at its revision append; the `Save` of
that record then succeeds, and the history of the id `42` is a single `update` entry: it
does not start with a `create` entry. -/
theorem C24_counterexample :
    scenarioFaulty.comments = [] ∧ scenarioFaulty.revisions = [] ∧
    (run "PlainText" scenarioFaulty
        [Op.call (Call.create scenarioDraft 1 42),
         Op.call (Call.save { scenarioDraft with ID := 42, Body := "Updated body" } 2)]).history
        42 =
      [{ ID := 1, Time := 5, Type_ := RevisionTypeUpdate, ModifierIdentity := 2,
         CommentID := 42, CommentParentID := "A", CommentBody := some "Updated body",
         CommentMarkup := some "Markdown" }] ∧
    ¬ wellFormedHistory
      ((run "PlainText" scenarioFaulty
        [Op.call (Call.create scenarioDraft 1 42),
         Op.call (Call.save { scenarioDraft with ID := 42, Body := "Updated body" } 2)]).history
        42) := by
  have hhist : (run "PlainText" scenarioFaulty
        [Op.call (Call.create scenarioDraft 1 42),
         Op.call (Call.save { scenarioDraft with ID := 42, Body := "Updated body" } 2)]).history
        42 =
      [{ ID := 1, Time := 5, Type_ := RevisionTypeUpdate, ModifierIdentity := 2,
         CommentID := 42, CommentParentID := "A", CommentBody := some "Updated body",
         CommentMarkup := some "Markdown" }] := by
    decide
  refine ⟨by decide, by decide, hhist, ?_⟩
  rw [hhist]
  rintro (h | ⟨first, updates, hf, -, h | ⟨last, -, h⟩⟩)
  · cases h
  · injection h with h1 h2
    rw [← h1] at hf
    cases hf
  · injection h with h1 h2
    rw [← h1] at hf
    cases hf

/-- C24 amended. In every state reachable from the empty store by any sequence of `Create`,
`Save` and `Delete` calls (and of reading calls and passage of time), whatever storage
faults occur, provided that each `Create` is given an id that no entry of the revision log
carries, that no revision append of a `Create` fails, and that each `Delete` that returns
success has removed the record: the revision entries of each comment id, in log order, are
none at all or start with exactly one `create` entry, contain at most one `delete` entry,
which if present is the last entry, and have only `update` entries in between. -/
theorem C24_well_formed_history (D : String) (db0 : DB) (ops : List Op)
    (hrecords : db0.comments = []) (hlog : db0.revisions = [])
    (hguard : allSteps D (historyGuard D) db0 ops) :
    ∀ id, wellFormedHistory ((run D db0 ops).history id) := by
  have hstart : ∀ id, wellFormedHistory (db0.history id) ∧
      ((∃ x ∈ db0.comments, x.ID = id) → liveHistory (db0.history id)) := by
    intro id
    constructor
    · left
      simp [DB.history, hlog]
    · rintro ⟨x, hx, -⟩
      rw [hrecords] at hx
      cases hx
  clear hrecords hlog
  induction ops generalizing db0 with
  | nil => exact fun id => (hstart id).1
  | cons op ops ih =>
    obtain ⟨hop, hrest⟩ := hguard
    exact ih (op.apply D db0) hrest (step_keeps_history D db0 op hop hstart)

/-! ## The order of the listing -/

/-- Two arrangements of the same records, both newest first, are equal when no two of the
records have the same time of creation. -/
theorem newestFirst_arrangement_unique :
    ∀ (l₁ l₂ : List Comment), l₁.Perm l₂ → l₁.Sorted newestFirst → l₂.Sorted newestFirst →
      (∀ a ∈ l₁, ∀ b ∈ l₁, a.CreatedAt = b.CreatedAt → a = b) → l₁ = l₂ := by
  intro l₁
  induction l₁ with
  | nil =>
    intro l₂ hp _ _ _
    exact (List.Perm.nil_eq hp)
  | cons a t₁ ih =>
    intro l₂ hp hs₁ hs₂ hinj
    cases l₂ with
    | nil => exact absurd hp.length_eq (by simp)
    | cons b t₂ =>
      have hab : a = b := by
        by_contra hne
        have ha : a ∈ b :: t₂ := hp.subset (List.mem_cons_self a t₁)
        have hb : b ∈ a :: t₁ := hp.symm.subset (List.mem_cons_self b t₂)
        have h1 : newestFirst a b := by
          rcases List.mem_cons.1 hb with hb | hb
          · exact absurd hb.symm hne
          · exact List.rel_of_sorted_cons hs₁ b hb
        have h2 : newestFirst b a := by
          rcases List.mem_cons.1 ha with ha | ha
          · exact absurd ha hne
          · exact List.rel_of_sorted_cons hs₂ a ha
        exact hne (hinj a (List.mem_cons_self a t₁) b hb (Nat.le_antisymm h2 h1))
      subst hab
      have ht : t₁ = t₂ :=
        ih t₂ (List.Perm.cons_inv hp) hs₁.of_cons hs₂.of_cons
          (fun x hx y hy => hinj x (List.mem_cons_of_mem _ hx) y (List.mem_cons_of_mem _ hy))
      rw [ht]

/-- C21 as stated fails: two stores hold the same two records of the parent `P`, both
created at time `3`, in different orders; with offset `0` and limit `1` the first returns
the record `3` and the second the record `4`. -/
theorem C21_counterexample :
    scenarioTie.comments.Perm scenarioTieSwapped.comments ∧
    (GormCommentRepository.List scenarioTie "P" (some 0) (some 1)).1 =
      (some [listed 3 "P" 3], 2, none) ∧
    (GormCommentRepository.List scenarioTieSwapped "P" (some 0) (some 1)).1 =
      (some [listed 4 "P" 3], 2, none) ∧
    (GormCommentRepository.List scenarioTie "P" (some 0) (some 1)).1.1 ≠
      (GormCommentRepository.List scenarioTieSwapped "P" (some 0) (some 1)).1.1 := by
  refine ⟨?_, by decide, by decide, by decide⟩
  exact List.Perm.swap _ _ _

/-- C21 amended. `List` orders the records of a parent by `created_at` descending only.
When no two stored records of the parent have the same `created_at`, the page and the
total count returned for a given offset and limit (valid, the round trips served) are
the same for every store that holds the same records, in whatever order it holds them. -/
theorem C21_order_without_ties (db1 db2 : DB) (parent : String) (start limit : Option Int)
    (hsame : db1.comments.Perm db2.comments)
    (hdistinct : ∀ a ∈ db1.comments, ∀ b ∈ db1.comments,
      a.ParentID = parent → b.ParentID = parent → a.CreatedAt = b.CreatedAt → a = b)
    (hvalid : validPage start limit) (hserved1 : db1.served 2) (hserved2 : db2.served 2) :
    (GormCommentRepository.List db1 parent start limit).1 =
      (GormCommentRepository.List db2 parent start limit).1 := by
  rw [list_valid db1 parent start limit hvalid hserved1,
    list_valid db2 parent start limit hvalid hserved2]
  have hmatch : (db1.matching parent).Perm (db2.matching parent) :=
    hsame.filter _
  have hfull : (db1.matching parent).insertionSort newestFirst =
      (db2.matching parent).insertionSort newestFirst := by
    apply newestFirst_arrangement_unique
    · exact ((List.perm_insertionSort newestFirst _).trans hmatch).trans
        (List.perm_insertionSort newestFirst _).symm
    · exact List.sorted_insertionSort newestFirst _
    · exact List.sorted_insertionSort newestFirst _
    · intro a ha b hb hab
      rw [List.mem_insertionSort] at ha hb
      simp only [DB.matching, List.mem_filter, decide_eq_true_eq] at ha hb
      exact hdistinct a ha.1 b hb.1 ha.2 hb.2 hab
  rw [hfull, hmatch.length_eq]

/-! ## The revision list of a comment -/

/-- C27, entity-scoped ordered history. For every comment id, the query being answered by
the store, the revision list for that id holds exactly the entries of the log whose comment
id is that id (each as often as the log holds it, none of any other comment), ordered by
time ascending, oldest first; and two entries of the id of which the earlier in the log is
not later in time (in particular two entries with equal times) keep the order of their
insertion. -/
theorem C27_scoped_ordered_history (db : DB) (commentID : UUID)
    (hserved : db.nextFault = none) :
    ∃ l : List Revision,
      (GormCommentRevisionRepository.List db commentID).1 = Except.ok l ∧
      (∀ r, r ∈ l ↔ r ∈ db.revisions ∧ r.CommentID = commentID) ∧
      l.Perm (db.revisions.filter (fun r => decide (r.CommentID = commentID))) ∧
      l.Sorted (fun a b => a.Time ≤ b.Time) ∧
      ∀ a b : Revision, [a, b].Sublist db.revisions →
        a.CommentID = commentID → b.CommentID = commentID → a.Time ≤ b.Time →
        [a, b].Sublist l := by
  haveI : IsTotal Revision (fun a b => a.Time ≤ b.Time) :=
    ⟨fun a b => Nat.le_total a.Time b.Time⟩
  haveI : IsTrans Revision (fun a b => a.Time ≤ b.Time) :=
    ⟨fun _ _ _ hab hbc => Nat.le_trans hab hbc⟩
  refine ⟨(db.revisions.filter (fun r => decide (r.CommentID = commentID))).insertionSort
    (fun a b => a.Time ≤ b.Time), ?_, ?_, ?_, ?_, ?_⟩
  · simp [GormCommentRevisionRepository.List, DB.exec, hserved]
  · intro r
    rw [List.mem_insertionSort, List.mem_filter]
    simp
  · exact List.perm_insertionSort _ _
  · exact List.sorted_insertionSort _ _
  · intro a b hsub ha hb hab
    have hf := hsub.filter (fun r => decide (r.CommentID = commentID))
    have hpair : [a, b].Sublist
        (db.revisions.filter (fun r => decide (r.CommentID = commentID))) := by
      simpa [ha, hb] using hf
    exact List.pair_sublist_insertionSort (r := fun a b : Revision => a.Time ≤ b.Time)
      hab hpair

/-! ## The round trips of the listing -/

/-- C28, single round trip. For valid parameters, whatever the storage layer answers:
`List` executes the count-only query if and only if the windowed query was answered and
returned zero rows; when the windowed query returns at least one row, `List` makes exactly
one round trip, the windowed query, returns without error and takes the total count from
the window aggregate `cnt2` of the first row of that query. -/
theorem C28_single_round_trip (db : DB) (parent : String) (start limit : Option Int)
    (hvalid : validPage start limit) :
    (Query.countComments ∈ db.since (GormCommentRepository.List db parent start limit).2 ↔
      (db.RowsWindow { parent := parent, offset := start, limit := limit }).1 = none ∧
      (db.RowsWindow { parent := parent, offset := start, limit := limit }).2.1 = []) ∧
    ((db.RowsWindow { parent := parent, offset := start, limit := limit }).1 = none →
      (db.RowsWindow { parent := parent, offset := start, limit := limit }).2.1 ≠ [] →
      db.since (GormCommentRepository.List db parent start limit).2 = [Query.selectWindow] ∧
      (GormCommentRepository.List db parent start limit).1.2.2 = none ∧
      (GormCommentRepository.List db parent start limit).1.1 =
        some ((db.RowsWindow { parent := parent, offset := start, limit := limit }).2.1.map
          Prod.snd) ∧
      ∃ row ∈ (db.RowsWindow { parent := parent, offset := start, limit := limit }).2.1.head?,
        (GormCommentRepository.List db parent start limit).1.2.1 = row.1) := by
  obtain ⟨hc1, hc2⟩ := list_checks parent start limit hvalid
  simp only [GormCommentRepository.List, hc1, hc2, scanRows_eq]
  cases hq : db.RowsWindow { parent := parent, offset := start, limit := limit } with
  | mk f rest =>
    obtain ⟨rows, db1⟩ := rest
    have htrace : db1.trace = db.trace ++ [Query.selectWindow] := by
      obtain ⟨cs, rs, now, fs, tr⟩ := db
      rcases fs with _ | ⟨_ | m1, fs⟩ <;>
        simp [DB.RowsWindow, DB.exec, DB.nextFault] at hq <;>
        obtain ⟨-, -, rfl⟩ := hq <;> rfl
    cases f with
    | some msg => simp [DB.since, htrace]
    | none =>
      cases rows with
      | nil =>
        have hcount : (db1.CountComments { parent := parent, offset := none, limit := none }).2.2.trace
            = db1.trace ++ [Query.countComments] := by
          obtain ⟨cs, rs, now, fs, tr⟩ := db1
          rcases fs with _ | ⟨_ | m1, fs⟩ <;>
            simp [DB.CountComments, DB.exec, DB.nextFault]
        have hmem : Query.countComments ∈ db.since
            (db1.CountComments { parent := parent, offset := none, limit := none }).2.2 := by
          simp [DB.since, hcount, htrace]
        constructor
        · simp only [List.isEmpty_nil, Bool.and_self, if_true, and_self, iff_true]
          cases hcq : db1.CountComments { parent := parent, offset := none, limit := none } with
          | mk f2 rest2 =>
            obtain ⟨n, db2⟩ := rest2
            rw [hcq] at hmem
            cases f2 <;> exact hmem
        · intro _ hne
          exact absurd rfl hne
      | cons row rows =>
        simp [DB.since, htrace]

/-! ## The parent of a saved record, the count, and the removal of records -/

/-- C25 as stated fails: the record `42` is stored under the parent `A`; the `Save` of the
comment with the parent `B` succeeds, and the stored record has the parent `B`. -/
theorem C25_counterexample :
    scenarioCreated.2.2.comments =
      [{ ID := 42, ParentID := "A", Body := "Body", Markup := "Markdown", CreatedAt := 5,
         UpdatedAt := 5 }] ∧
    (GormCommentRepository.Save "PlainText" scenarioCreated.2.2
        { scenarioCreated.2.1 with ParentID := "B" } 2).1 = none ∧
    (GormCommentRepository.Save "PlainText" scenarioCreated.2.2
        { scenarioCreated.2.1 with ParentID := "B" } 2).2.2.comments =
      [{ ID := 42, ParentID := "B", Body := "Body", Markup := "Markdown", CreatedAt := 5,
         UpdatedAt := 5 }] := by
  decide

/-- C25 amended. For every successful `Save`, a record of the id was stored before the
call and one is stored after it; the parent id of the stored record after the call is the
parent id carried by the comment passed to `Save`, so it equals the parent id before the
call when the caller passes that parent id unchanged. The records with another id are
those of before the call: the same records, in the same order. -/
theorem C25_save_writes_parent (SystemMarkupDefault : String) (db db' : DB)
    (comment c' : Comment) (modifierID : UUID)
    (h : GormCommentRepository.Save SystemMarkupDefault db comment modifierID =
      (none, c', db')) :
    (∃ old ∈ db.comments, old.ID = comment.ID) ∧
    (∃ stored ∈ db'.comments, stored.ID = comment.ID) ∧
    (∀ stored ∈ db'.comments, stored.ID = comment.ID →
      stored.ParentID = comment.ParentID) ∧
    (∀ old ∈ db.comments, old.ID = comment.ID → comment.ParentID = old.ParentID →
      ∀ stored ∈ db'.comments, stored.ID = comment.ID → stored.ParentID = old.ParentID) ∧
    (∀ x : Comment, x.ID ≠ comment.ID → (x ∈ db'.comments ↔ x ∈ db.comments)) ∧
    db'.comments.filter (fun x => !decide (x.ID = comment.ID)) =
      db.comments.filter (fun x => !decide (x.ID = comment.ID)) ∧
    db'.comments.length = db.comments.length := by
  obtain ⟨hc', hold, hcs, -, -, -⟩ := save_ok h
  have hc'id : c'.ID = comment.ID := by rw [hc']
  have hwritten : ∀ stored ∈ db'.comments, stored.ID = comment.ID →
      stored.ParentID = comment.ParentID := by
    intro s hs hsid
    rw [hcs, List.mem_map] at hs
    obtain ⟨y, -, hy⟩ := hs
    by_cases hyc : y.ID = comment.ID
    · rw [if_pos hyc] at hy
      rw [← hy, hc']
    · rw [if_neg hyc] at hy
      rw [hy] at hyc
      exact absurd hsid hyc
  have hothers : ∀ l : List Comment,
      (l.map (fun r => if r.ID = comment.ID then c' else r)).filter
          (fun x => !decide (x.ID = comment.ID)) =
        l.filter (fun x => !decide (x.ID = comment.ID)) := by
    intro l
    induction l with
    | nil => rfl
    | cons y t ih =>
      by_cases hyc : y.ID = comment.ID
      · rw [List.map_cons, if_pos hyc, List.filter_cons_of_neg (by simp [hc'id]),
          List.filter_cons_of_neg (by simp [hyc]), ih]
      · rw [List.map_cons, if_neg hyc, List.filter_cons_of_pos (by simp [hyc]),
          List.filter_cons_of_pos (by simp [hyc]), ih]
  refine ⟨hold, ?_, hwritten, ?_, ?_, ?_, ?_⟩
  · obtain ⟨old, holdmem, holdid⟩ := hold
    refine ⟨c', ?_, hc'id⟩
    rw [hcs, List.mem_map]
    exact ⟨old, holdmem, by rw [if_pos holdid]⟩
  · intro old _ _ hpar s hs hsid
    rw [hwritten s hs hsid, hpar]
  · intro x hxid
    rw [hcs, List.mem_map]
    constructor
    · rintro ⟨y, hy, hyx⟩
      by_cases hyc : y.ID = comment.ID
      · rw [if_pos hyc] at hyx
        rw [← hyx] at hxid
        exact absurd hc'id hxid
      · rw [if_neg hyc] at hyx
        rw [← hyx]
        exact hy
    · intro hx
      exact ⟨x, hx, by rw [if_neg hxid]⟩
  · rw [hcs]
    exact hothers db.comments
  · rw [hcs, List.length_map]

/-- The query being answered by the store, `Count` returns the number of stored records of
the parent, which is the total count that `List` returns for any valid offset and limit
when its round trips are served. -/
theorem count_served (db : DB) (parent : String) (hserved : db.nextFault = none) :
    (GormCommentRepository.Count db parent).1 =
      ((db.comments.filter (fun r => decide (r.ParentID = parent))).length, none) ∧
    ∀ start limit : Option Int, validPage start limit → db.served 2 →
      (GormCommentRepository.List db parent start limit).1.2.1 =
        (GormCommentRepository.Count db parent).1.1 := by
  have hcount : (GormCommentRepository.Count db parent).1 =
      ((db.comments.filter (fun r => decide (r.ParentID = parent))).length, none) := by
    simp [GormCommentRepository.Count, DB.CountComments, DB.exec, hserved, DB.matching]
  refine ⟨hcount, ?_⟩
  intro start limit hvalid hs
  rw [list_valid db parent start limit hvalid hs, hcount]
  rfl

/-- C22 fails when the count query meets a storage fault: the store holds one record of
the parent `A`; `Count` returns `0` and no error, while `List`, served on the same
records, returns the total count `1`. -/
theorem C22_count_under_fault :
    scenarioLookupFaulty.comments = scenarioCreated.2.2.comments ∧
    (scenarioLookupFaulty.comments.filter (fun r => decide (r.ParentID = "A"))).length = 1 ∧
    (GormCommentRepository.Count scenarioLookupFaulty "A").1 = (0, none) ∧
    (GormCommentRepository.List scenarioCreated.2.2 "A" none none).1.2.1 = 1 ∧
    (GormCommentRepository.List scenarioCreated.2.2 "A" none none).1.2.2 = none := by
  decide

/-- C29 fails: the store holds four records, none with the id `43`; `Delete` of the id `43`
returns `NotFoundError` and leaves the table of comments empty. -/
theorem C29_delete_unknown_wipes :
    scenarioListing.comments.length = 4 ∧
    (∀ x ∈ scenarioListing.comments, x.ID ≠ 43) ∧
    (GormCommentRepository.Delete scenarioListing 43 3).1 =
      some (Err.NotFoundError "comment" 43) ∧
    (GormCommentRepository.Delete scenarioListing 43 3).2.comments = [] := by
  decide

/-- For every non-nil id that no stored record has, the lookup and the `DELETE` being
served, `Delete` leaves the table of comments empty: the `DELETE` is sent with the
zero-valued comment, before the test of `tx.RowsAffected`. -/
theorem delete_absent_empties_table (db : DB) (id a : UUID) (hid : id ≠ uuidNil)
    (habsent : ∀ x ∈ db.comments, x.ID ≠ id) (hserved : db.served 2) :
    (GormCommentRepository.Delete db id a).2.comments = [] := by
  have hfind := find_none_of_absent habsent
  obtain ⟨cs, rs, now, fs, tr⟩ := db
  simp only at hfind
  rcases fs with _ | ⟨_ | m1, _ | ⟨_ | m2, fs⟩⟩ <;>
    simp [DB.served] at hserved <;>
    simp [GormCommentRepository.Delete, hid, DB.FindComment, DB.exec, DB.nextFault,
      hfind, DB.DeleteComment, Comment.zero]

/-- C30 fails when the `DELETE` statement meets a storage fault: `Delete` of the stored
record `42` returns success, the record is still stored, and `Load` of the id `42` on the
store after the call returns the record instead of `NotFoundError`. -/
theorem C30_delete_success_record_kept :
    (GormCommentRepository.Delete scenarioDeleteFaulty 42 3).1 = none ∧
    (GormCommentRepository.Delete scenarioDeleteFaulty 42 3).2.comments =
      scenarioDeleteFaulty.comments ∧
    (GormCommentRepository.Load (GormCommentRepository.Delete scenarioDeleteFaulty 42 3).2
        42).1 =
      (some { ID := 42, ParentID := "A", Body := "Body", Markup := "Markdown", CreatedAt := 5,
              UpdatedAt := 5 }, none) := by
  decide

/-- A successful `Delete` whose `DELETE` statement is served removes exactly the records
of the id: the store holds the other records, unchanged and in their order; on that store,
served, `Load`, `Save` and `Delete` of the same id fail with `NotFoundError`. -/
theorem delete_served_removes (D : String) (db db' : DB) (id a : UUID)
    (h : GormCommentRepository.Delete db id a = (none, db')) (hserved : db.served 2)
    (hnext : db'.nextFault = none) :
    db'.comments = db.comments.filter (fun r => !decide (r.ID = id)) ∧
    (∀ x, x ∈ db'.comments ↔ x ∈ db.comments ∧ x.ID ≠ id) ∧
    (GormCommentRepository.Load db' id).1 = (none, some (Err.NotFoundError "comment" id)) ∧
    (∀ (c : Comment) (m : UUID), c.ID = id →
      (GormCommentRepository.Save D db' c m).1 = some (Err.NotFoundError "comment" id)) ∧
    (∀ a2 : UUID,
      (GormCommentRepository.Delete db' id a2).1 = some (Err.NotFoundError "comment" id)) := by
  obtain ⟨hnil, x, hfind, hxid, -, -, -, -⟩ := delete_ok h
  have hcs : db'.comments = db.comments.filter (fun r => !decide (r.ID = id)) := by
    obtain ⟨cs, rs, now, fs, tr⟩ := db
    simp only at hfind
    have hx0 : ¬ x.ID = uuidNil := by rw [hxid]; exact hnil
    rcases fs with _ | ⟨_ | m1, _ | ⟨_ | m2, _ | ⟨_ | m3, fs⟩⟩⟩ <;>
      simp [DB.served] at hserved <;>
      simp [GormCommentRepository.Delete, hnil, DB.FindComment, DB.exec, DB.nextFault, hfind,
        DB.DeleteComment, Comment.zero, hx0, GormCommentRevisionRepository.Create,
        DB.CreateRevision] at h <;>
      subst h <;>
      simp [hxid]
  have habsent : ∀ y ∈ db'.comments, y.ID ≠ id := by
    intro y hy
    rw [hcs, List.mem_filter] at hy
    simpa using hy.2
  have hnone := find_none_of_absent habsent
  refine ⟨hcs, ?_, ?_, ?_, ?_⟩
  · intro y
    rw [hcs, List.mem_filter]
    simp
  · simp [GormCommentRepository.Load, DB.FirstComment, DB.exec, hnext, hnone,
      Tx.RecordNotFound]
  · intro c m hc
    subst hc
    simp [GormCommentRepository.Save, DB.FirstComment, DB.exec, hnext, hnone,
      Tx.RecordNotFound]
  · intro a2
    obtain ⟨cs, rs, now, fs, tr⟩ := db'
    simp only at hnone
    rcases fs with _ | ⟨_ | m1, _ | ⟨_ | m2, fs⟩⟩ <;>
      simp [GormCommentRepository.Delete, hnil, DB.FindComment, DB.exec, DB.nextFault,
        hnone, DB.DeleteComment, Comment.zero]

/-! ## The theorems at the scenarios -/

/-- C21 amended, at the store of the listing and the same records in the reverse order:
the second page of two records and the total count are the same. -/
theorem C21_order_without_ties_witness :
    scenarioListing.comments.Perm scenarioListingReversed.comments ∧
    scenarioListing.comments ≠ scenarioListingReversed.comments ∧
    validPage (some 1) (some 2) ∧
    (GormCommentRepository.List scenarioListing "P" (some 1) (some 2)).1 =
      (some [listed 3 "P" 3, listed 1 "P" 1], 3, none) ∧
    (GormCommentRepository.List scenarioListing "P" (some 1) (some 2)).1 =
      (GormCommentRepository.List scenarioListingReversed "P" (some 1) (some 2)).1 :=
  ⟨(List.reverse_perm scenarioListing.comments).symm, by decide, by decide, by decide,
    C21_order_without_ties scenarioListing scenarioListingReversed "P" (some 1) (some 2)
      (List.reverse_perm scenarioListing.comments).symm (by decide) (by decide) (by decide)
      (by decide)⟩

/-- C23 amended, at the sequence of calls `scenarioOps` on the empty store: the record `42`
is stored and the log holds its `create` entry. -/
theorem C23_create_revision_invariant_witness :
    (DB.empty 5).comments = [] ∧
    allSteps "PlainText" (createAppends "PlainText") (DB.empty 5) scenarioOps ∧
    (run "PlainText" (DB.empty 5) scenarioOps).comments.map (fun x => x.ID) = [42] ∧
    ∀ x ∈ (run "PlainText" (DB.empty 5) scenarioOps).comments,
      ∃ r ∈ (run "PlainText" (DB.empty 5) scenarioOps).revisions,
        r.Type_ = RevisionTypeCreate ∧ r.CommentID = x.ID :=
  ⟨rfl, ⟨fun _ => by decide, trivial, trivial, trivial, trivial, trivial, trivial⟩,
    by decide,
    C23_create_revision_invariant "PlainText" (DB.empty 5) scenarioOps rfl
      ⟨fun _ => by decide, trivial, trivial, trivial, trivial, trivial, trivial⟩⟩

/-- C24 amended, at the sequence of calls `scenarioOpsOutage` on the store
`scenarioOutage`: three round trips meet a storage fault, an update fails at its revision
append, another at its lookup, and the history of the comment `42` is a `create`, an
`update` and a `delete` entry, that of the comment `43` a `create` entry. -/
theorem C24_well_formed_history_witness :
    scenarioOutage.comments = [] ∧ scenarioOutage.revisions = [] ∧
    scenarioOutage.faults.filter (fun f => f.isSome) =
      [some "append failed", some "lookup failed", some "connection lost"] ∧
    (run "PlainText" scenarioOutage scenarioOpsOutage).faults = [] ∧
    allSteps "PlainText" (historyGuard "PlainText") scenarioOutage scenarioOpsOutage ∧
    ((run "PlainText" scenarioOutage scenarioOpsOutage).history 42).map (fun r => r.Type_) =
      [RevisionTypeCreate, RevisionTypeUpdate, RevisionTypeDelete] ∧
    ((run "PlainText" scenarioOutage scenarioOpsOutage).history 43).map (fun r => r.Type_) =
      [RevisionTypeCreate] ∧
    ∀ id, wellFormedHistory ((run "PlainText" scenarioOutage scenarioOpsOutage).history id) :=
  ⟨rfl, rfl, by decide, by decide,
    ⟨⟨by simp only [freshId]; decide, fun _ => by decide, trivial⟩,
      ⟨trivial, trivial, trivial⟩, ⟨trivial, trivial, trivial⟩, ⟨trivial, trivial, trivial⟩,
      ⟨trivial, trivial, trivial⟩, ⟨trivial, trivial, trivial⟩, ⟨trivial, trivial, trivial⟩,
      ⟨trivial, trivial, fun _ => by decide⟩,
      ⟨by simp only [freshId]; decide, fun _ => by decide, trivial⟩, trivial⟩,
    by decide, by decide,
    C24_well_formed_history "PlainText" scenarioOutage scenarioOpsOutage rfl rfl
      ⟨⟨by simp only [freshId]; decide, fun _ => by decide, trivial⟩,
        ⟨trivial, trivial, trivial⟩, ⟨trivial, trivial, trivial⟩, ⟨trivial, trivial, trivial⟩,
        ⟨trivial, trivial, trivial⟩, ⟨trivial, trivial, trivial⟩, ⟨trivial, trivial, trivial⟩,
        ⟨trivial, trivial, fun _ => by decide⟩,
        ⟨by simp only [freshId]; decide, fun _ => by decide, trivial⟩, trivial⟩⟩

/-- C25 amended, at the first update of the scenario, the comment carrying the parent `A`
of the stored record: the stored record keeps the parent `A`. -/
theorem C25_save_writes_parent_witness :
    (∃ (c' : Comment) (db' : DB),
      GormCommentRepository.Save "PlainText" (scenarioCreated.2.2.advance 1)
        { scenarioCreated.2.1 with Body := "Updated body", Markup := "PlainText" } 2 =
        (none, c', db') ∧
      (∃ old ∈ (scenarioCreated.2.2.advance 1).comments, old.ID = 42) ∧
      (∃ stored ∈ db'.comments, stored.ID = 42) ∧
      (∀ stored ∈ db'.comments, stored.ID = 42 → stored.ParentID = "A") ∧
      (∀ old ∈ (scenarioCreated.2.2.advance 1).comments, old.ID = 42 →
        "A" = old.ParentID →
        ∀ stored ∈ db'.comments, stored.ID = 42 → stored.ParentID = old.ParentID) ∧
      (∀ x : Comment, x.ID ≠ 42 →
        (x ∈ db'.comments ↔ x ∈ (scenarioCreated.2.2.advance 1).comments)) ∧
      db'.comments.filter (fun x => !decide (x.ID = 42)) =
        (scenarioCreated.2.2.advance 1).comments.filter (fun x => !decide (x.ID = 42)) ∧
      db'.comments.length = (scenarioCreated.2.2.advance 1).comments.length) :=
  ⟨_, _, Prod.ext (by decide) (Prod.ext rfl rfl),
    C25_save_writes_parent "PlainText" (scenarioCreated.2.2.advance 1) _
      { scenarioCreated.2.1 with Body := "Updated body", Markup := "PlainText" } _ 2
      (Prod.ext (by decide) (Prod.ext rfl rfl))⟩

/-- C26 with the system default markup `PlainText`. -/
theorem C26_markup_never_empty_witness :
    "PlainText" ≠ "" ∧
    (run "PlainText" (DB.empty 5) scenarioOps).comments.map (fun x => x.Markup) =
      ["Markdown"] ∧
    (∀ (db0 : DB) (ops : List Op), db0.comments = [] →
      ∀ x ∈ (run "PlainText" db0 ops).comments, x.Markup ≠ "") ∧
    (∀ (db db' : DB) (comment c' : Comment) (creatorID newV4 : UUID),
      comment.Markup ≠ "" →
      GormCommentRepository.Create "PlainText" db comment creatorID newV4 =
        (none, c', db') →
      db'.comments = db.comments ++ [c'] ∧ c'.ID = newV4 ∧ c'.Markup = comment.Markup) ∧
    (∀ (db db' : DB) (comment c' : Comment) (modifierID : UUID),
      comment.Markup ≠ "" →
      GormCommentRepository.Save "PlainText" db comment modifierID = (none, c', db') →
      (∃ stored ∈ db'.comments, stored.ID = comment.ID) ∧
      ∀ stored ∈ db'.comments, stored.ID = comment.ID → stored.Markup = comment.Markup) :=
  ⟨by decide, by decide, C26_markup_never_empty "PlainText" (by decide)⟩

/-- C27 at the scenario of the test, after the removal: the four entries of the comment
`42`, oldest first. -/
theorem C27_scoped_ordered_history_witness :
    scenarioDeleted.2.nextFault = none ∧
    (GormCommentRevisionRepository.List scenarioDeleted.2 42).1 =
      Except.ok scenarioDeleted.2.revisions ∧
    (scenarioDeleted.2.revisions.map (fun r => (r.Time, r.Type_))) =
      [(5, RevisionTypeCreate), (6, RevisionTypeUpdate), (7, RevisionTypeUpdate),
       (8, RevisionTypeDelete)] ∧
    ∃ l : List Revision,
      (GormCommentRevisionRepository.List scenarioDeleted.2 42).1 = Except.ok l ∧
      (∀ r, r ∈ l ↔ r ∈ scenarioDeleted.2.revisions ∧ r.CommentID = 42) ∧
      l.Perm (scenarioDeleted.2.revisions.filter (fun r => decide (r.CommentID = 42))) ∧
      l.Sorted (fun a b => a.Time ≤ b.Time) ∧
      ∀ a b : Revision, [a, b].Sublist scenarioDeleted.2.revisions →
        a.CommentID = 42 → b.CommentID = 42 → a.Time ≤ b.Time → [a, b].Sublist l :=
  ⟨by decide, rfl, by decide,
    C27_scoped_ordered_history scenarioDeleted.2 42 (by decide)⟩

/-- C28 at the store of the listing, offset `1` and limit `1`: one round trip, the count
`3` taken from the row of the window. -/
theorem C28_single_round_trip_witness :
    validPage (some 1) (some 1) ∧
    scenarioListing.since (GormCommentRepository.List scenarioListing "P" (some 1) (some 1)).2
      = [Query.selectWindow] ∧
    (GormCommentRepository.List scenarioListing "P" (some 1) (some 1)).1 =
      (some [listed 3 "P" 3], 3, none) ∧
    scenarioListing.since (GormCommentRepository.List scenarioListing "P" (some 5) (some 1)).2
      = [Query.selectWindow, Query.countComments] ∧
    (Query.countComments ∈
        scenarioListing.since
          (GormCommentRepository.List scenarioListing "P" (some 1) (some 1)).2 ↔
      (scenarioListing.RowsWindow
        { parent := "P", offset := some 1, limit := some 1 }).1 = none ∧
      (scenarioListing.RowsWindow
        { parent := "P", offset := some 1, limit := some 1 }).2.1 = []) ∧
    ((scenarioListing.RowsWindow
        { parent := "P", offset := some 1, limit := some 1 }).1 = none →
      (scenarioListing.RowsWindow
        { parent := "P", offset := some 1, limit := some 1 }).2.1 ≠ [] →
      scenarioListing.since
          (GormCommentRepository.List scenarioListing "P" (some 1) (some 1)).2 =
        [Query.selectWindow] ∧
      (GormCommentRepository.List scenarioListing "P" (some 1) (some 1)).1.2.2 = none ∧
      (GormCommentRepository.List scenarioListing "P" (some 1) (some 1)).1.1 =
        some ((scenarioListing.RowsWindow
          { parent := "P", offset := some 1, limit := some 1 }).2.1.map Prod.snd) ∧
      ∃ row ∈ (scenarioListing.RowsWindow
          { parent := "P", offset := some 1, limit := some 1 }).2.1.head?,
        (GormCommentRepository.List scenarioListing "P" (some 1) (some 1)).1.2.1 = row.1) :=
  ⟨by decide, by decide, by decide, by decide,
    C28_single_round_trip scenarioListing "P" (some 1) (some 1) (by decide)⟩

end comment
